import Mathlib

/-!
The tomox-stats backend: relayer reconciliation, pair listing, the trade record
and the trade endpoints.

A shallow embedding of `services/relayer.go` (the reconciliation routines
`updateTokenRelayer`, `updatePairRelayer`, `updateRelayers`, `updateRelayer`,
`UpdateRelayers`), of the pair-listing functions and `GetByName` of `daos/pair.go`
(`GetAll`, `GetActivePairs`, `GetActivePairsByCoinbase`), of the codecs and the hash
of `types/trade.go` (`MarshalJSON`, `UnmarshalJSON`, `GetBSON`, `SetBSON`,
`ComputeHash`) and of the handlers of `endpoints/trade.go`.

Conventions of the embedding:

* `common.Address` is a 20-byte array; Go compares arrays by value and
  `Address.Hex()` is an injective fixed-width rendering, so both `a == b` and
  `a.Hex() == b.Hex()` are rendered as equality of addresses.
* Every store call consults an oracle telling whether that call returns an
  error; the routines receive the error exactly where the Go code does.
* A Go map is an association list in the order in which `range` visits it.
* A call that can panic returns an outcome that says so; a handler returns the calls
  it made on the trade service and the one reply it wrote.
* Functions of other packages that work on text (Keccak-256, big-integer and time
  parsing) are parameters; hex addresses and `strconv.Atoi` are embedded as they are,
  reading a string by its UTF-8 bytes.
-/

namespace common

/-- The go-ethereum address type, identified with the number its 20 bytes spell. -/
abbrev Address := Nat

end common

namespace relayer

/-- Modelled from the spec: `relayer.TokenInfo`, the value type of the snapshot's
token map (`{symbol, decimals}`); its declaration is not among the sources. The
code converts `Decimals` with `int(...)`, a widening conversion. -/
structure TokenInfo where
  Symbol : String
  Decimals : Nat
deriving DecidableEq, Repr

/-- Modelled from the spec: `relayer.PairToken`, an entry of the snapshot's pair
list (`{baseToken, quoteToken}`). -/
structure PairToken where
  BaseToken : common.Address
  QuoteToken : common.Address
deriving DecidableEq, Repr

/-- Modelled from the spec: `relayer.RInfo`, the on-chain snapshot of one relayer
(`{address, owner, deposit, resign, lockTime, makeFee, takeFee, tokens, pairs}`
plus the `RID` the code reads). `Tokens` is the Go map in iteration order. The
fees are unsigned 16-bit values that the code widens with `int64(...)`. -/
structure RInfo where
  RID : Nat
  Owner : common.Address
  Deposit : Int
  Address : common.Address
  Resign : Bool
  LockTime : Nat
  MakeFee : Nat
  TakeFee : Nat
  Tokens : List (common.Address × TokenInfo)
  Pairs : List PairToken
deriving DecidableEq, Repr

/-- Modelled from the spec: `relayer.LendingRInfo`, an entry of the lending
snapshot; the code reads its `Address` and its `uint16` `Fee`. -/
structure LendingRInfo where
  Address : common.Address
  Fee : Nat
deriving DecidableEq, Repr

end relayer

namespace types

/-- Modelled from the spec: `types.Token`, whose declaration is not among the sources;
the fields are those `updateTokenRelayer` writes (the spec's token record: contract
address, symbol, decimals, owning relayer address, fee fields). -/
structure Token where
  Symbol : String
  ContractAddress : common.Address
  RelayerAddress : common.Address
  Decimals : Int
  MakeFee : Int
  TakeFee : Int
deriving DecidableEq, Repr

/-- Modelled from the spec: `types.Pair`, whose declaration is not among the sources;
the fields are those `updatePairRelayer` writes and `daos/pair.go` reads (the spec's
pair record: base/quote addresses, symbols and decimals, owning relayer address,
active flag, maker/taker fee). -/
structure Pair where
  BaseTokenSymbol : String
  BaseTokenAddress : common.Address
  BaseTokenDecimals : Int
  QuoteTokenSymbol : String
  QuoteTokenAddress : common.Address
  QuoteTokenDecimals : Int
  RelayerAddress : common.Address
  Active : Bool
  MakeFee : Int
  TakeFee : Int
deriving DecidableEq, Repr

/-- Modelled from the spec: `types.Relayer`, whose declaration is not among the
sources; the fields are those `updateRelayers` and `updateRelayer` write. -/
structure Relayer where
  RID : Nat
  Owner : common.Address
  Deposit : Int
  Address : common.Address
  Resign : Bool
  LockTime : Nat
  MakeFee : Int
  TakeFee : Int
  LendingFee : Int
deriving DecidableEq, Repr

end types

open relayer types

/-- Go's `m[k]` on the token map, its elements being struct values (the
`{symbol, decimals}` entries of the spec): the value stored under `k`, or the zero
value when `k` is not a key. `RelayerService.tokenEntry` is the index under either
element type the declaration, which is not among the sources, can give. -/
def mapIndex (m : List (common.Address × TokenInfo)) (k : common.Address) : TokenInfo :=
  match m.find? (fun kv => decide (kv.1 = k)) with
  | some kv => kv.2
  | none => { Symbol := "", Decimals := 0 }

/-! ## The store -/

/-- The three mirrored collections. -/
structure Mirror where
  tokens : List Token
  pairs : List Pair
  relayers : List Relayer
deriving DecidableEq, Repr

/-- A mutating call on a DAO, with the arguments the service passes. -/
inductive Op where
  | tokenCreate (t : Token)
  | tokenUpdate (token coinbase : common.Address) (t : Token)
  | tokenDelete (token coinbase : common.Address)
  | pairCreate (p : Pair)
  | pairDelete (base quote coinbase : common.Address)
  | relayerCreate (r : Relayer)
  | relayerUpdate (addr : common.Address) (r : Relayer)
  | relayerDelete (addr : common.Address)
deriving DecidableEq, Repr

/-- Modelled from the spec: the effect of a successful store call. The token and
relayer DAOs and the `db` layer below the pair DAO are not among the sources; the
spec gives each entity store `Create(entity)`, `Update(key, entity)` and
`Delete(key)`, with tokens keyed by (contractAddress, relayerAddress), pairs by
(baseTokenAddress, quoteTokenAddress, relayerAddress) and relayers by address.
`Create` adds the record, `Update` replaces what is stored under the key and
`Delete` removes what is stored under the key. -/
def applyOp (m : Mirror) : Op → Mirror
  | .tokenCreate t =>
      { tokens := m.tokens ++ [t], pairs := m.pairs, relayers := m.relayers }
  | .tokenUpdate a c t =>
      { tokens := List.map
          (fun x => if x.ContractAddress = a ∧ x.RelayerAddress = c then t else x) m.tokens,
        pairs := m.pairs, relayers := m.relayers }
  | .tokenDelete a c =>
      { tokens := List.filter
          (fun x => !decide (x.ContractAddress = a ∧ x.RelayerAddress = c)) m.tokens,
        pairs := m.pairs, relayers := m.relayers }
  | .pairCreate p =>
      { tokens := m.tokens, pairs := m.pairs ++ [p], relayers := m.relayers }
  | .pairDelete b q c =>
      { tokens := m.tokens,
        pairs := List.filter
          (fun x => !decide (x.BaseTokenAddress = b ∧ x.QuoteTokenAddress = q ∧
            x.RelayerAddress = c)) m.pairs,
        relayers := m.relayers }
  | .relayerCreate r =>
      { tokens := m.tokens, pairs := m.pairs, relayers := m.relayers ++ [r] }
  | .relayerUpdate a r =>
      { tokens := m.tokens, pairs := m.pairs,
        relayers := List.map (fun x => if x.Address = a then r else x) m.relayers }
  | .relayerDelete a =>
      { tokens := m.tokens, pairs := m.pairs,
        relayers := List.filter (fun x => !decide (x.Address = a)) m.relayers }

/-- The store as the service sees it: the mirror, the mutating calls attempted so
far, and the number of store calls (reads and writes) made so far. -/
structure World where
  mirror : Mirror
  log : List Op
  calls : Nat
deriving DecidableEq, Repr

/-- For each store call, numbered in the order made, whether it returns an error. -/
abbrev Oracle := Nat → Bool

/-- The oracle under which every store call succeeds. -/
def allSucceed : Oracle := fun _ => false

/-- A mutating DAO call: it is recorded as attempted; when the store accepts it
the mirror changes by `applyOp`, when the store rejects it the mirror is left as
it was. The Boolean is `err != nil`. -/
def storeWrite (fail : Oracle) (w : World) (op : Op) : World × Bool :=
  if fail w.calls then
    ({ mirror := w.mirror, log := w.log ++ [op], calls := w.calls + 1 }, true)
  else
    ({ mirror := applyOp w.mirror op, log := w.log ++ [op], calls := w.calls + 1 }, false)

/-- A reading DAO call returning `res` on success. -/
def storeRead {α : Type} (fail : Oracle) (w : World) (res : α) : World × Except String α :=
  if fail w.calls then
    ({ mirror := w.mirror, log := w.log, calls := w.calls + 1 }, .error "store error")
  else
    ({ mirror := w.mirror, log := w.log, calls := w.calls + 1 }, .ok res)

namespace TokenDao

/-- Modelled from the spec: `TokenDao.GetAllByCoinbase`, the tokens mirrored
for one relayer (the token DAO is not among the sources; the pair DAO's function
of the same name queries on `relayerAddress`). -/
def GetAllByCoinbase (fail : Oracle) (w : World) (addr : common.Address) :
    World × Except String (List Token) :=
  storeRead fail w (w.mirror.tokens.filter (fun t => decide (t.RelayerAddress = addr)))

end TokenDao

namespace RelayerDao

/-- Modelled from the spec: `RelayerDao.GetAll`, every mirrored relayer. -/
def GetAll (fail : Oracle) (w : World) : World × Except String (List Relayer) :=
  storeRead fail w w.mirror.relayers

/-- Modelled from the spec: `RelayerDao.GetByAddress`, the mirrored relayer with
the given address, or nil when there is none. -/
def GetByAddress (fail : Oracle) (w : World) (addr : common.Address) :
    World × Except String (Option Relayer) :=
  storeRead fail w (w.mirror.relayers.find? (fun r => decide (r.Address = addr)))

end RelayerDao

namespace PairDao

/-- `PairDao.GetAllByCoinbase`: the query `{"relayerAddress": addr.Hex()}`. -/
def GetAllByCoinbase (fail : Oracle) (w : World) (addr : common.Address) :
    World × Except String (List Pair) :=
  storeRead fail w (w.mirror.pairs.filter (fun p => decide (p.RelayerAddress = addr)))

/-- The loop shared by `GetAll`, `GetActivePairs` and `GetActivePairsByCoinbase`:
`keys` is the set of codes `base.Hex() + "::" + quote.Hex()` seen so far, `ret`
the records kept so far. -/
def dedupLoop (res : List Pair) : List Pair × List (common.Address × common.Address) :=
  res.foldl
    (fun (st : List Pair × List (common.Address × common.Address)) it =>
      let code := (it.BaseTokenAddress, it.QuoteTokenAddress)
      if code ∈ st.2 then st else (st.1 ++ [it], code :: st.2))
    ([], [])

/-- `PairDao.GetAll` applied to the reply of `db.Get` for the empty query. -/
def GetAll (reply : Except String (List Pair)) : Except String (List Pair) :=
  match reply with
  | .error err => .error err
  | .ok res => .ok (dedupLoop res).1

/-- `PairDao.GetActivePairs` applied to the reply of `db.Get` for the query
`{"active": true}`; a nil slice is the empty list. -/
def GetActivePairs (reply : Except String (List Pair)) : Except String (List Pair) :=
  match reply with
  | .error err => .error err
  | .ok res => if res.length = 0 then .ok [] else .ok (dedupLoop res).1

/-- `PairDao.GetActivePairsByCoinbase` applied to the reply of `db.Get` for the
query `{"active": true, "relayerAddress": addr.Hex()}`. -/
def GetActivePairsByCoinbase (reply : Except String (List Pair)) :
    Except String (List Pair) :=
  match reply with
  | .error err => .error err
  | .ok res => if res.length = 0 then .ok [] else .ok (dedupLoop res).1

end PairDao

/-! ## The reconciliation routines of `services/relayer.go` -/

namespace RelayerService

/-- The `if err != nil { }` that follows a mutating call: the error is looked at
and nothing is done with it. -/
def ignoreErr (r : World × Bool) : World :=
  match r with
  | (w, true) => w
  | (w, false) => w

/-- The record `updateTokenRelayer` builds for the map entry `(ntoken, v)`. -/
def mkToken (relayerInfo : RInfo) (ntoken : common.Address) (v : TokenInfo) : Token :=
  { Symbol := v.Symbol
    ContractAddress := ntoken
    RelayerAddress := relayerInfo.Address
    Decimals := (v.Decimals : Int)
    MakeFee := (relayerInfo.MakeFee : Int)
    TakeFee := (relayerInfo.TakeFee : Int) }

/-- `RelayerService.updateTokenRelayer`. The loop deleting stale tokens sits
inside the body of the loop over the snapshot's token map, as in the source. -/
def updateTokenRelayer (fail : Oracle) (relayerInfo : RInfo) (w : World) :
    World × Option String :=
  match TokenDao.GetAllByCoinbase fail w relayerInfo.Address with
  | (w0, .error err) => (w0, some err)
  | (w0, .ok currentTokens) =>
    let w1 := relayerInfo.Tokens.foldl
      (fun w kv =>
        let ntoken := kv.1
        let v := kv.2
        let found := currentTokens.foldl
          (fun found ctoken => if ntoken = ctoken.ContractAddress then true else found) false
        let token := mkToken relayerInfo ntoken v
        let w :=
          if !found then ignoreErr (storeWrite fail w (.tokenCreate token))
          else (storeWrite fail w (.tokenUpdate ntoken relayerInfo.Address token)).1
        currentTokens.foldl
          (fun w ctoken =>
            let found := relayerInfo.Tokens.foldl
              (fun found kv' => if ctoken.ContractAddress = kv'.1 then true else found) false
            if !found then
              ignoreErr (storeWrite fail w
                (.tokenDelete ctoken.ContractAddress relayerInfo.Address))
            else w)
          w)
      w0
    (w1, none)

/-- The record `updatePairRelayer` builds for a snapshot pair. -/
def mkPair (relayerInfo : RInfo) (newpair : PairToken) : Pair :=
  let pairBaseData := mapIndex relayerInfo.Tokens newpair.BaseToken
  let pairQuoteData := mapIndex relayerInfo.Tokens newpair.QuoteToken
  { BaseTokenSymbol := pairBaseData.Symbol
    BaseTokenAddress := newpair.BaseToken
    BaseTokenDecimals := (pairBaseData.Decimals : Int)
    QuoteTokenSymbol := pairQuoteData.Symbol
    QuoteTokenAddress := newpair.QuoteToken
    QuoteTokenDecimals := (pairQuoteData.Decimals : Int)
    RelayerAddress := relayerInfo.Address
    Active := true
    MakeFee := (relayerInfo.MakeFee : Int)
    TakeFee := (relayerInfo.TakeFee : Int) }

/-- `RelayerService.updatePairRelayer`. -/
def updatePairRelayer (fail : Oracle) (relayerInfo : RInfo) (w : World) :
    World × Option String :=
  match PairDao.GetAllByCoinbase fail w relayerInfo.Address with
  | (w0, .error err) => (w0, some err)
  | (w0, .ok currentPairs) =>
    let w1 := relayerInfo.Pairs.foldl
      (fun w newpair =>
        let found := currentPairs.foldl
          (fun found currentPair =>
            if newpair.BaseToken = currentPair.BaseTokenAddress ∧
                newpair.QuoteToken = currentPair.QuoteTokenAddress then true else found)
          false
        if !found then ignoreErr (storeWrite fail w (.pairCreate (mkPair relayerInfo newpair)))
        else w)
      w0
    let w2 := currentPairs.foldl
      (fun w currentPair =>
        let found := relayerInfo.Pairs.foldl
          (fun found newpair =>
            if currentPair.BaseTokenAddress = newpair.BaseToken ∧
                currentPair.QuoteTokenAddress = newpair.QuoteToken then true else found)
          false
        if !found then
          ignoreErr (storeWrite fail w
            (.pairDelete currentPair.BaseTokenAddress currentPair.QuoteTokenAddress
              relayerInfo.Address))
        else w)
      w1
    (w2, none)

/-- A `for ... { if p x { found = true; break } }` scan. -/
def scanBreak {α : Type} (p : α → Bool) : List α → Bool
  | [] => false
  | x :: xs => if p x then true else scanBreak p xs

/-- The lending-fee scan of `updateRelayers`: the fee of the first entry with the
relayer's address, `uint16(0)` when the loop ends without one. -/
def lendingFeeOf (addr : common.Address) : List LendingRInfo → Nat
  | [] => 0
  | l :: ls => if l.Address = addr then l.Fee else lendingFeeOf addr ls

/-- The record both relayer paths build. -/
def mkRelayer (r : RInfo) (lendingFee : Nat) : Relayer :=
  { RID := r.RID
    Owner := r.Owner
    Deposit := r.Deposit
    Address := r.Address
    Resign := r.Resign
    LockTime := r.LockTime
    MakeFee := (r.MakeFee : Int)
    TakeFee := (r.TakeFee : Int)
    LendingFee := (lendingFee : Int) }

/-- `RelayerService.updateRelayers`, the full-fleet path. -/
def updateRelayers (fail : Oracle) (relayerInfos : List RInfo)
    (lendingRelayerInfos : List LendingRInfo) (w : World) : World × Option String :=
  match RelayerDao.GetAll fail w with
  | (w0, .error err) => (w0, some err)
  | (w0, .ok currentRelayers) =>
    let w1 := relayerInfos.foldl
      (fun w r =>
        let found := scanBreak (fun v => decide (v.Address = r.Address)) currentRelayers
        let lendingFee := lendingFeeOf r.Address lendingRelayerInfos
        let relayer := mkRelayer r lendingFee
        if !found then ignoreErr (storeWrite fail w (.relayerCreate relayer))
        else ignoreErr (storeWrite fail w (.relayerUpdate r.Address relayer)))
      w0
    let w2 := currentRelayers.foldl
      (fun w r =>
        let found := scanBreak (fun v => decide (v.Address = r.Address)) relayerInfos
        if !found then ignoreErr (storeWrite fail w (.relayerDelete r.Address))
        else w)
      w1
    (w2, none)

/-- How a call ends: it returns an error value (nil is `none`), or it panics. -/
inductive Outcome where
  | returned (err : Option String)
  | panicked
deriving DecidableEq, Repr

/-- `RelayerService.updateRelayer`, the single-relayer path. The lending entry is
a pointer: `lendingRelayerInfo.Fee` on nil is a nil dereference. -/
def updateRelayer (fail : Oracle) (relayerInfo : RInfo)
    (lendingRelayerInfo : Option LendingRInfo) (w : World) : World × Outcome :=
  match RelayerDao.GetByAddress fail w relayerInfo.Address with
  | (w0, .error err) => (w0, .returned (some err))
  | (w0, .ok currentRelayer) =>
    let found := currentRelayer.isSome
    match lendingRelayerInfo with
    | none => (w0, .panicked)
    | some l =>
      let lendingFee := l.Fee
      let relayer := mkRelayer relayerInfo lendingFee
      let w1 :=
        if !found then ignoreErr (storeWrite fail w0 (.relayerCreate relayer))
        else ignoreErr (storeWrite fail w0 (.relayerUpdate relayerInfo.Address relayer))
      (w1, .returned none)

/-- `RelayerService.UpdateRelayers`: the per-relayer token and pair passes, whose
results are discarded, then the relayer pass. The two arguments are the replies
of `GetRelayers` and `GetLendings`. -/
def UpdateRelayers (fail : Oracle) (getRelayers : Except String (List RInfo))
    (getLendings : Except String (List LendingRInfo)) (w : World) : World × Option String :=
  match getRelayers with
  | .error err => (w, some err)
  | .ok relayerInfos =>
    let w1 := relayerInfos.foldl
      (fun w relayerInfo =>
        let w := (updateTokenRelayer fail relayerInfo w).1
        (updatePairRelayer fail relayerInfo w).1)
      w
    match getLendings with
    | .error err => (w1, some err)
    | .ok relayerLendingInfos =>
      let w2 := (updateRelayers fail relayerInfos relayerLendingInfos w1).1
      (w2, none)

/-- `RelayerService.UpdateRelayer`: the token and pair passes of one relayer, whose
results are discarded, then `updateRelayer` with the reply of `GetLending`, which
is called without the coinbase. The two arguments are the replies of `GetRelayer`
and `GetLending`. -/
def UpdateRelayer (fail : Oracle) (getRelayer : Except String RInfo)
    (getLending : Except String (Option LendingRInfo)) (w : World) : World × Outcome :=
  match getRelayer with
  | .error err => (w, .returned (some err))
  | .ok relayerInfo =>
    let w1 := (updateTokenRelayer fail relayerInfo w).1
    let w2 := (updatePairRelayer fail relayerInfo w1).1
    match getLending with
    | .error err => (w2, .returned (some err))
    | .ok relayerLendingInfo =>
      match updateRelayer fail relayerInfo relayerLendingInfo w2 with
      | (w3, .panicked) => (w3, .panicked)
      | (w3, .returned _) => (w3, .returned none)

end RelayerService

/-! ## Closed forms of the attempted calls -/

namespace RelayerService

/-- The calls of a list attempted one after the other, errors disregarded. -/
def runOps (fail : Oracle) (w : World) (ops : List Op) : World :=
  ops.foldl (fun w op => (storeWrite fail w op).1) w

/-- Whether the token address `a` occurs among the mirrored tokens. -/
def tokenMirrored (currentTokens : List Token) (a : common.Address) : Bool :=
  currentTokens.any (fun c => decide (a = c.ContractAddress))

/-- Whether the mirrored token `c` is a key of the snapshot's token map. -/
def tokenListed (relayerInfo : RInfo) (c : Token) : Bool :=
  relayerInfo.Tokens.any (fun kv => decide (c.ContractAddress = kv.1))

/-- The write attempted for one entry of the token map. -/
def tokenWrite (relayerInfo : RInfo) (currentTokens : List Token)
    (kv : common.Address × TokenInfo) : Op :=
  if tokenMirrored currentTokens kv.1 then
    .tokenUpdate kv.1 relayerInfo.Address (mkToken relayerInfo kv.1 kv.2)
  else .tokenCreate (mkToken relayerInfo kv.1 kv.2)

/-- The deletes attempted by one run of the inner loop over the mirrored tokens. -/
def tokenDeletes (relayerInfo : RInfo) (currentTokens : List Token) : List Op :=
  (currentTokens.filter (fun c => !tokenListed relayerInfo c)).map
    (fun c => Op.tokenDelete c.ContractAddress relayerInfo.Address)

/-- Every call `updateTokenRelayer` attempts, in order. -/
def tokenOps (relayerInfo : RInfo) (currentTokens : List Token) : List Op :=
  relayerInfo.Tokens.flatMap
    (fun kv => tokenWrite relayerInfo currentTokens kv :: tokenDeletes relayerInfo currentTokens)

/-- Whether the snapshot pair matches a mirrored pair. -/
def pairMirrored (currentPairs : List Pair) (newpair : PairToken) : Bool :=
  currentPairs.any (fun c => decide (newpair.BaseToken = c.BaseTokenAddress ∧
    newpair.QuoteToken = c.QuoteTokenAddress))

/-- Whether the mirrored pair matches an entry of the snapshot's pair list. -/
def pairListed (relayerInfo : RInfo) (c : Pair) : Bool :=
  relayerInfo.Pairs.any (fun n => decide (c.BaseTokenAddress = n.BaseToken ∧
    c.QuoteTokenAddress = n.QuoteToken))

/-- The creates `updatePairRelayer` attempts, in order. -/
def pairCreates (relayerInfo : RInfo) (currentPairs : List Pair) : List Op :=
  (relayerInfo.Pairs.filter (fun n => !pairMirrored currentPairs n)).map
    (fun n => Op.pairCreate (mkPair relayerInfo n))

/-- The deletes `updatePairRelayer` attempts, in order. -/
def pairDeletes (relayerInfo : RInfo) (currentPairs : List Pair) : List Op :=
  (currentPairs.filter (fun c => !pairListed relayerInfo c)).map
    (fun c => Op.pairDelete c.BaseTokenAddress c.QuoteTokenAddress relayerInfo.Address)

/-- Every call `updatePairRelayer` attempts, in order. -/
def pairOps (relayerInfo : RInfo) (currentPairs : List Pair) : List Op :=
  pairCreates relayerInfo currentPairs ++ pairDeletes relayerInfo currentPairs

/-- The write `updateRelayers` attempts for one snapshot entry. -/
def relayerWrite (lendingRelayerInfos : List LendingRInfo) (currentRelayers : List Relayer)
    (r : RInfo) : Op :=
  if currentRelayers.any (fun v => decide (v.Address = r.Address)) then
    .relayerUpdate r.Address (mkRelayer r (lendingFeeOf r.Address lendingRelayerInfos))
  else .relayerCreate (mkRelayer r (lendingFeeOf r.Address lendingRelayerInfos))

/-- The deletes `updateRelayers` attempts, in order. -/
def relayerDeletes (relayerInfos : List RInfo) (currentRelayers : List Relayer) : List Op :=
  (currentRelayers.filter
    (fun r => !relayerInfos.any (fun v => decide (v.Address = r.Address)))).map
    (fun r => Op.relayerDelete r.Address)

/-- Every call `updateRelayers` attempts, in order. -/
def relayerOps (relayerInfos : List RInfo) (lendingRelayerInfos : List LendingRInfo)
    (currentRelayers : List Relayer) : List Op :=
  relayerInfos.map (relayerWrite lendingRelayerInfos currentRelayers) ++
    relayerDeletes relayerInfos currentRelayers

/-- The world after a successful read. -/
def afterRead (w : World) : World :=
  { mirror := w.mirror, log := w.log, calls := w.calls + 1 }

/-- The tokens mirrored for a relayer. -/
def tokensOf (m : Mirror) (addr : common.Address) : List Token :=
  m.tokens.filter (fun t => decide (t.RelayerAddress = addr))

/-- The pairs mirrored for a relayer. -/
def pairsOf (m : Mirror) (addr : common.Address) : List Pair :=
  m.pairs.filter (fun p => decide (p.RelayerAddress = addr))

end RelayerService

/-! ## Vocabulary of the statements -/

/-- The calls attempted between two states of the store. -/
def emitted (before after : World) : List Op :=
  after.log.drop before.log.length

/-- The (base, quote) key of a mirrored pair. -/
def pairKey (p : Pair) : common.Address × common.Address :=
  (p.BaseTokenAddress, p.QuoteTokenAddress)

/-- The (base, quote) key of a snapshot pair. -/
def tokenPairKey (n : PairToken) : common.Address × common.Address :=
  (n.BaseToken, n.QuoteToken)

/-- The keys of the snapshot's token map. -/
def tokenKeys (relayerInfo : RInfo) : List common.Address :=
  relayerInfo.Tokens.map Prod.fst

/-- The records of the pair creates of a list of calls. -/
def pairCreatesOf (ops : List Op) : List Pair :=
  ops.filterMap (fun op => match op with
    | .pairCreate p => some p
    | _ => none)

/-- The keys of the pair deletes of a list of calls. -/
def pairDeletesOf (ops : List Op) : List (common.Address × common.Address × common.Address) :=
  ops.filterMap (fun op => match op with
    | .pairDelete b q c => some (b, q, c)
    | _ => none)

/-- The keys of the token deletes of a list of calls. -/
def tokenDeletesOf (ops : List Op) : List (common.Address × common.Address) :=
  ops.filterMap (fun op => match op with
    | .tokenDelete a c => some (a, c)
    | _ => none)

/-- Whether a call writes (creates or updates) the token with address `a`. -/
def isTokenWriteFor (a : common.Address) : Op → Bool
  | .tokenCreate t => decide (t.ContractAddress = a)
  | .tokenUpdate a' _ _ => decide (a' = a)
  | _ => false

/-- Whether a call is a create. -/
def isCreate : Op → Bool
  | .tokenCreate _ => true
  | .pairCreate _ => true
  | .relayerCreate _ => true
  | _ => false

/-- Whether a call is an update. -/
def isUpdate : Op → Bool
  | .tokenUpdate _ _ _ => true
  | .relayerUpdate _ _ => true
  | _ => false

/-- Whether a call is a delete. -/
def isDelete : Op → Bool
  | .tokenDelete _ _ => true
  | .pairDelete _ _ _ => true
  | .relayerDelete _ => true
  | _ => false

/-- A store holding nothing, before any call. -/
def emptyWorld : World :=
  { mirror := { tokens := [], pairs := [], relayers := [] }, log := [], calls := 0 }

/-- A store holding the given mirror, before any call. -/
def worldOf (m : Mirror) : World :=
  { mirror := m, log := [], calls := 0 }

/-- A snapshot of relayer 9 listing the pairs (1, 2) and (3, 4), with only token 1
in its token map. -/
def sampleInfo : RInfo :=
  { RID := 0, Owner := 0, Deposit := 0, Address := 9, Resign := false, LockTime := 0,
    MakeFee := 5, TakeFee := 6,
    Tokens := [(1, { Symbol := "AAA", Decimals := 18 })],
    Pairs := [{ BaseToken := 1, QuoteToken := 2 }, { BaseToken := 3, QuoteToken := 4 }] }

/-- A pair (7, 8) mirrored for relayer 9. -/
def samplePair : Pair :=
  { BaseTokenSymbol := "X", BaseTokenAddress := 7, BaseTokenDecimals := 18,
    QuoteTokenSymbol := "Y", QuoteTokenAddress := 8, QuoteTokenDecimals := 18,
    RelayerAddress := 9, Active := true, MakeFee := 1, TakeFee := 1 }

/-- A store whose mirror holds `samplePair` only. -/
def sampleWorld : World :=
  worldOf { tokens := [], pairs := [samplePair], relayers := [] }

/-- A snapshot of relayer 9 whose token map and pair list are empty. -/
def bareInfo : RInfo :=
  { RID := 0, Owner := 0, Deposit := 0, Address := 9, Resign := false, LockTime := 0,
    MakeFee := 5, TakeFee := 6, Tokens := [], Pairs := [] }

/-- A token with contract address 1 mirrored for relayer 9. -/
def staleToken : Token :=
  { Symbol := "OLD", ContractAddress := 1, RelayerAddress := 9, Decimals := 18,
    MakeFee := 1, TakeFee := 1 }

/-- A store whose mirror holds `staleToken` only. -/
def staleWorld : World :=
  worldOf { tokens := [staleToken], pairs := [], relayers := [] }

/-- A snapshot of relayer 9 whose token map holds token 2 only. -/
def oneTokenInfo : RInfo :=
  { RID := 0, Owner := 0, Deposit := 0, Address := 9, Resign := false, LockTime := 0,
    MakeFee := 5, TakeFee := 6, Tokens := [(2, { Symbol := "NEW", Decimals := 8 })],
    Pairs := [] }

/-- A lending entry of relayer 2, with fee 7. -/
def otherLending : LendingRInfo :=
  { Address := 2, Fee := 7 }

/-- An oracle under which the first write after the read fails. -/
def secondCallFails : Oracle := fun n => decide (n = 1)

/-- The records the deduplication loop keeps from `res` when the codes in `seen`
have been met already. -/
def keptFrom (seen : List (common.Address × common.Address)) : List Pair → List Pair
  | [] => []
  | it :: rest =>
      if pairKey it ∈ seen then keptFrom seen rest
      else it :: keptFrom (pairKey it :: seen) rest

/-- The pair (1, 2) as listed by relayer 10. -/
def pairOfR1 : Pair :=
  { BaseTokenSymbol := "X", BaseTokenAddress := 1, BaseTokenDecimals := 18,
    QuoteTokenSymbol := "Y", QuoteTokenAddress := 2, QuoteTokenDecimals := 18,
    RelayerAddress := 10, Active := true, MakeFee := 1, TakeFee := 1 }

/-- The pair (1, 2) as listed by relayer 11. -/
def pairOfR2 : Pair :=
  { BaseTokenSymbol := "X", BaseTokenAddress := 1, BaseTokenDecimals := 18,
    QuoteTokenSymbol := "Y", QuoteTokenAddress := 2, QuoteTokenDecimals := 18,
    RelayerAddress := 11, Active := true, MakeFee := 2, TakeFee := 2 }

/-- One relayer's share of `UpdateRelayers`: the token pass, then the pair pass. -/
def relayerPass (fail : Oracle) (w : World) (relayerInfo : RInfo) : World :=
  (RelayerService.updatePairRelayer fail relayerInfo
    (RelayerService.updateTokenRelayer fail relayerInfo w).1).1

/-- The addresses of the relayers of a snapshot. -/
def snapshotAddresses (relayerInfos : List RInfo) : List common.Address :=
  relayerInfos.map (fun r => r.Address)

/-- The addresses of the relayer deletes of a list of calls. -/
def relayerDeletesOf (ops : List Op) : List common.Address :=
  ops.filterMap (fun op => match op with
    | .relayerDelete a => some a
    | _ => none)

/-- A token or pair call made on behalf of the relayer `c`: it is keyed by `c`, and
a record it writes belongs to `c` and sits under the key it is written to. -/
def touchesOnly (c : common.Address) : Op → Prop
  | .tokenCreate t => t.RelayerAddress = c
  | .tokenUpdate a c' t => c' = c ∧ t.RelayerAddress = c ∧ t.ContractAddress = a
  | .tokenDelete _ c' => c' = c
  | .pairCreate p => p.RelayerAddress = c
  | .pairDelete _ _ c' => c' = c
  | _ => False

/-- A call on the relayer collection. -/
def isRelayerOp : Op → Prop
  | .relayerCreate _ => True
  | .relayerUpdate _ _ => True
  | .relayerDelete _ => True
  | _ => False

/-- A snapshot of relayer 9 without tokens or pairs, and a mirror holding a token
and a pair of relayer 5 and the records of relayers 5 and 9. -/
def foreignMirror : Mirror :=
  { tokens := [{ Symbol := "T", ContractAddress := 1, RelayerAddress := 5, Decimals := 18,
                 MakeFee := 1, TakeFee := 1 }],
    pairs := [{ BaseTokenSymbol := "X", BaseTokenAddress := 1, BaseTokenDecimals := 18,
                QuoteTokenSymbol := "Y", QuoteTokenAddress := 2, QuoteTokenDecimals := 18,
                RelayerAddress := 5, Active := true, MakeFee := 1, TakeFee := 1 }],
    relayers := [{ RID := 0, Owner := 0, Deposit := 0, Address := 5, Resign := false,
                   LockTime := 0, MakeFee := 1, TakeFee := 1, LendingFee := 0 },
                 { RID := 0, Owner := 0, Deposit := 0, Address := 9, Resign := false,
                   LockTime := 0, MakeFee := 1, TakeFee := 1, LendingFee := 0 }] }

namespace RelayerService

/-- The contract addresses of the tokens mirrored for a relayer. -/
def tokenAddrsOf (m : Mirror) (addr : common.Address) : List common.Address :=
  (tokensOf m addr).map (fun t => t.ContractAddress)

/-- The (base, quote) keys of the pairs mirrored for a relayer. -/
def pairKeysOf (m : Mirror) (addr : common.Address) :
    List (common.Address × common.Address) :=
  (pairsOf m addr).map pairKey

/-- The addresses of the mirrored relayers. -/
def relayerAddrs (m : Mirror) : List common.Address :=
  m.relayers.map (fun r => r.Address)

/-- An update that writes a record under the record's own key. -/
def keyPreservingUpdate : Op → Prop
  | .tokenUpdate a c t => t.ContractAddress = a ∧ t.RelayerAddress = c
  | .relayerUpdate a r => r.Address = a
  | _ => False

/-- The mirror agrees with the snapshot of one relayer on which tokens and which
pairs exist: every snapshot token and pair is mirrored for the relayer, every pair
mirrored for it is a snapshot pair and, unless the token map is empty, every token
mirrored for it is a snapshot token. -/
def Settled (relayerInfo : RInfo) (m : Mirror) : Prop :=
  (∀ a ∈ tokenKeys relayerInfo, a ∈ tokenAddrsOf m relayerInfo.Address) ∧
  (relayerInfo.Tokens ≠ [] →
    ∀ a ∈ tokenAddrsOf m relayerInfo.Address, a ∈ tokenKeys relayerInfo) ∧
  (∀ k ∈ relayerInfo.Pairs.map tokenPairKey, k ∈ pairKeysOf m relayerInfo.Address) ∧
  (∀ k ∈ pairKeysOf m relayerInfo.Address, k ∈ relayerInfo.Pairs.map tokenPairKey)

/-- The mirror agrees with the full-fleet snapshot on which relayers exist. -/
def RelayersSettled (relayerInfos : List RInfo) (m : Mirror) : Prop :=
  (∀ a ∈ snapshotAddresses relayerInfos, a ∈ relayerAddrs m) ∧
  (∀ a ∈ relayerAddrs m, a ∈ snapshotAddresses relayerInfos)

end RelayerService

/-- A second snapshot entry for relayer 9, whose token map holds token 3 only. -/
def rivalInfo : RInfo :=
  { RID := 0, Owner := 0, Deposit := 0, Address := 9, Resign := false, LockTime := 0,
    MakeFee := 5, TakeFee := 6, Tokens := [(3, { Symbol := "ALT", Decimals := 8 })],
    Pairs := [] }

/-- The mirror a full-fleet reconciliation of `relayerInfos` leaves, every store
call succeeding. -/
def reconciled (relayerInfos : List RInfo) (lendings : List LendingRInfo) (m : Mirror) :
    Mirror :=
  (RelayerService.UpdateRelayers allSucceed (.ok relayerInfos) (.ok lendings)
    (worldOf m)).1.mirror

/-- The calls a full-fleet reconciliation of `relayerInfos` attempts against the
mirror `m`, every store call succeeding. -/
def delta (relayerInfos : List RInfo) (lendings : List LendingRInfo) (m : Mirror) :
    List Op :=
  (RelayerService.UpdateRelayers allSucceed (.ok relayerInfos) (.ok lendings)
    (worldOf m)).1.log

namespace RelayerService

/-- Every token mirrored for the relayer under an address of the snapshot's token
map is the record the snapshot gives for that address. -/
def TokensExact (relayerInfo : RInfo) (m : Mirror) : Prop :=
  ∀ kv ∈ relayerInfo.Tokens, ∀ t ∈ tokensOf m relayerInfo.Address,
    t.ContractAddress = kv.1 → t = mkToken relayerInfo kv.1 kv.2

/-- Every relayer mirrored under an address of the snapshot is the record the
snapshot, with the lending snapshot, gives for that address. -/
def RelayersExact (relayerInfos : List RInfo) (lendings : List LendingRInfo) (m : Mirror) :
    Prop :=
  ∀ r ∈ relayerInfos, ∀ x ∈ m.relayers,
    x.Address = r.Address → x = mkRelayer r (lendingFeeOf r.Address lendings)

end RelayerService

/-! ## Library functions the trade code and the handlers call -/

/-- The UTF-8 encoding of a character. -/
def utf8Bytes (c : Char) : List Nat :=
  let v := c.toNat
  if v < 0x80 then [v]
  else if v < 0x800 then [0xC0 + v / 0x40, 0x80 + v % 0x40]
  else if v < 0x10000 then [0xE0 + v / 0x1000, 0x80 + v / 0x40 % 0x40, 0x80 + v % 0x40]
  else [0xF0 + v / 0x40000, 0x80 + v / 0x1000 % 0x40, 0x80 + v / 0x40 % 0x40, 0x80 + v % 0x40]

/-- The bytes of a Go string, `[]byte(s)`: the library functions below read a string
byte by byte and measure it in bytes, as the Go code does. -/
def stringBytes (s : String) : List Nat :=
  s.toList.flatMap utf8Bytes

namespace common

/-- The go-ethereum hash type, a 32-byte array, identified with the number its bytes
spell in big-endian order. -/
abbrev Hash := Nat

/-- The `n` big-endian bytes of `x` (of `x` modulo `256 ^ n`). -/
def bytesOf : Nat → Nat → List Nat
  | 0, _ => []
  | n + 1, x => (x / 256 ^ n % 256) :: bytesOf n x

/-- The number a list of bytes spells in big-endian order. -/
def ofBytes (bs : List Nat) : Nat :=
  bs.foldl (fun acc b => acc * 256 + b) 0

/-- `Hash.Bytes`: the 32 bytes of the hash. -/
def Hash.Bytes (h : Hash) : List Nat := bytesOf 32 h

/-- `common.BytesToHash`: the last 32 bytes of `b`, right-aligned. -/
def BytesToHash (b : List Nat) : Hash :=
  ofBytes (if b.length > 32 then b.drop (b.length - 32) else b)

/-- `common.BytesToAddress`: the last 20 bytes of `b`, right-aligned. -/
def BytesToAddress (b : List Nat) : Address :=
  ofBytes (if b.length > 20 then b.drop (b.length - 20) else b)

/-- `isHexCharacter`, on a byte. -/
def isHexCharacter (c : Nat) : Bool :=
  ('0'.toNat ≤ c && c ≤ '9'.toNat) ||
    ('a'.toNat ≤ c && c ≤ 'f'.toNat) ||
    ('A'.toNat ≤ c && c ≤ 'F'.toNat)

/-- `has0xPrefix`: at least two bytes, the first `0` and the second `x` or `X`. -/
def has0xPrefix (str : List Nat) : Bool :=
  match str with
  | c0 :: c1 :: _ => c0 = '0'.toNat && (c1 = 'x'.toNat || c1 = 'X'.toNat)
  | _ => false

/-- `isHex`: an even number of bytes, each a hex character. -/
def isHex (str : List Nat) : Bool :=
  if str.length % 2 ≠ 0 then false else str.all isHexCharacter

/-- `common.IsHexAddress`: after an optional `0x` prefix, forty bytes that are hex
characters. -/
def IsHexAddress (s : String) : Bool :=
  let s := stringBytes s
  let s := if has0xPrefix s then s.drop 2 else s
  decide (s.length = 2 * 20) && isHex s

/-- `fromHexChar` of `encoding/hex`: the value of a hex character, `none` for any
other byte. -/
def fromHexChar (c : Nat) : Option Nat :=
  if '0'.toNat ≤ c ∧ c ≤ '9'.toNat then some (c - '0'.toNat)
  else if 'a'.toNat ≤ c ∧ c ≤ 'f'.toNat then some (c - 'a'.toNat + 10)
  else if 'A'.toNat ≤ c ∧ c ≤ 'F'.toNat then some (c - 'A'.toNat + 10)
  else none

/-- `common.Hex2Bytes`, that is `hex.DecodeString` with its error dropped: the bytes
decoded before the first byte that is not a hex character; a last odd byte is left
out. -/
def Hex2Bytes : List Nat → List Nat
  | p :: q :: rest =>
      match fromHexChar p with
      | none => []
      | some a =>
        match fromHexChar q with
        | none => []
        | some b => (a * 16 + b) :: Hex2Bytes rest
  | _ => []

/-- `common.FromHex`: the prefix is dropped and a string of odd length gets a leading
`0`. -/
def FromHex (s : String) : List Nat :=
  let s := stringBytes s
  let s := if has0xPrefix s then s.drop 2 else s
  let s := if s.length % 2 = 1 then '0'.toNat :: s else s
  Hex2Bytes s

/-- `common.HexToAddress`. -/
def HexToAddress (s : String) : Address := BytesToAddress (FromHex s)

/-- `common.HexToHash`. -/
def HexToHash (s : String) : Hash := BytesToHash (FromHex s)

/-- The lower-case hex digit of a value below sixteen, as a byte. -/
def hexDigit (d : Nat) : Nat :=
  if d < 10 then '0'.toNat + d else 'a'.toNat + (d - 10)

/-- `hex.EncodeToString` of the `n` big-endian bytes of `x`, as bytes. -/
def encodeHex (n : Nat) (x : Nat) : List Nat :=
  (bytesOf n x).flatMap (fun b => [hexDigit (b / 16), hexDigit (b % 16)])

/-- The `0x`-prefixed lower-case hex rendering of `n` bytes: `Hash.Hex` and the JSON
text form (`MarshalText`) of an address or hash. -/
def hexOf (n : Nat) (x : Nat) : String :=
  String.mk ('0' :: 'x' :: (encodeHex n x).map Char.ofNat)

/-- The loop of `Address.Hex` over the bytes of the lower-case text, from index `i`:
a letter is put in upper case when the matching half byte of the digest is above
seven. A digest too short to index reads as zero. -/
def checksumLoop (hash : List Nat) : Nat → List Nat → List Nat
  | _, [] => []
  | i, c :: rest =>
      let hashByte := hash.getD (i / 2) 0
      let hashByte := if i % 2 = 0 then hashByte / 16 else hashByte % 16
      (if c > '9'.toNat ∧ hashByte > 7 then c - 32 else c) :: checksumLoop hash (i + 1) rest

/-- `Address.Hex`: the checksummed (EIP-55) rendering, with the Keccak-256 function
of `crypto/sha3` as a parameter. -/
def Address.Hex (keccak256 : List Nat → List Nat) (a : Address) : String :=
  let unchecksummed := encodeHex 20 a
  let hash := keccak256 unchecksummed
  String.mk ('0' :: 'x' :: (checksumLoop hash 0 unchecksummed).map Char.ofNat)

/-- `Hash.Hex`. -/
def Hash.Hex (h : Hash) : String := hexOf 32 h

end common

namespace strconv

/-- The error of a conversion: `ErrSyntax` or `ErrRange`. -/
inductive NumError where
  | ErrSyntax
  | ErrRange
deriving DecidableEq, Repr

/-- The loop of `ParseUint (s, 10, 64)` over the bytes still to read, `n` being the
value so far: a byte that is not a digit ends it with a syntax error and 0; a digit
that makes the value overflow ends it with a range error and the largest value,
whatever follows. -/
def parseUintLoop : List Nat → Nat → Nat × Option NumError
  | [], n => (n, none)
  | c :: rest, n =>
      if '0'.toNat ≤ c ∧ c ≤ '9'.toNat then
        if n ≥ (2 ^ 64 - 1) / 10 + 1 then (2 ^ 64 - 1, some .ErrRange)
        else if n * 10 + (c - '0'.toNat) > 2 ^ 64 - 1 then (2 ^ 64 - 1, some .ErrRange)
        else parseUintLoop rest (n * 10 + (c - '0'.toNat))
      else (0, some .ErrSyntax)

/-- `strconv.ParseUint (s, 10, 64)` on the bytes of `s`. -/
def ParseUint (s : List Nat) : Nat × Option NumError :=
  if s = [] then (0, some .ErrSyntax) else parseUintLoop s 0

/-- `strconv.ParseInt (s, 10, 0)` on the bytes of `s`, on a 64-bit platform. -/
def ParseInt (s : List Nat) : Int × Option NumError :=
  if s = [] then (0, some .ErrSyntax)
  else
    let neg := decide (s.head? = some '-'.toNat)
    let s1 := if s.head? = some '+'.toNat ∨ s.head? = some '-'.toNat then s.drop 1 else s
    match ParseUint s1 with
    | (_, some .ErrSyntax) => (0, some .ErrSyntax)
    | (un, _) =>
        if neg = false ∧ un ≥ 2 ^ 63 then ((2 ^ 63 - 1 : Int), some .ErrRange)
        else if neg = true ∧ un > 2 ^ 63 then (-(2 ^ 63 : Int), some .ErrRange)
        else (if neg then -(un : Int) else (un : Int), none)

/-- The loop of the fast path of `Atoi`: `ch -= '0'` on a byte wraps around, and a
result above 9 is a syntax error (`none`). -/
def atoiLoop : List Nat → Int → Option Int
  | [], n => some n
  | ch :: rest, n =>
      if (ch + 256 - '0'.toNat) % 256 > 9 then none
      else atoiLoop rest (n * 10 + ((ch + 256 - '0'.toNat) % 256 : Nat))

/-- `strconv.Atoi` on a 64-bit platform: the number and the error returned. A string
of 1 to 18 bytes takes the fast path, any other goes through `ParseInt`. -/
def Atoi (s : String) : Int × Option NumError :=
  let s := stringBytes s
  if 0 < s.length ∧ s.length < 19 then
    let signed := decide (s.head? = some '-'.toNat ∨ s.head? = some '+'.toNat)
    let s1 := if signed then s.drop 1 else s
    if signed = true ∧ s1.length < 1 then (0, some .ErrSyntax)
    else
      match atoiLoop s1 0 with
      | none => (0, some .ErrSyntax)
      | some n => (if s.head? = some '-'.toNat then -n else n, none)
  else ParseInt s

end strconv

/-! ## The trade record of `types/trade.go` -/

namespace types

/-- A `time.Time`, as a count of nanoseconds from the zero time. -/
abbrev Time := Int

/-- A `*big.Int`; `none` is the nil pointer. -/
abbrev BigInt := Option Int

/-- `types.Trade`. The object id is kept in its hex form. -/
structure Trade where
  ID : String
  Taker : common.Address
  Maker : common.Address
  BaseToken : common.Address
  QuoteToken : common.Address
  MakerOrderHash : common.Hash
  TakerOrderHash : common.Hash
  Hash : common.Hash
  TxHash : common.Hash
  PairName : String
  PricePoint : BigInt
  Amount : BigInt
  MakeFee : BigInt
  TakeFee : BigInt
  Status : String
  CreatedAt : Time
  UpdatedAt : Time
  TakerOrderSide : String
  TakerOrderType : String
  MakerOrderType : String
  MakerExchange : common.Address
  TakerExchange : common.Address
deriving DecidableEq, Repr

/-- The zero value of `types.Trade`. -/
def Trade.zero : Trade :=
  { ID := "", Taker := 0, Maker := 0, BaseToken := 0, QuoteToken := 0, MakerOrderHash := 0,
    TakerOrderHash := 0, Hash := 0, TxHash := 0, PairName := "", PricePoint := none,
    Amount := none, MakeFee := none, TakeFee := none, Status := "", CreatedAt := 0,
    UpdatedAt := 0, TakerOrderSide := "", TakerOrderType := "", MakerOrderType := "",
    MakerExchange := 0, TakerExchange := 0 }

/-- `types.TradeRecord`, the stored form of a trade; the anonymous struct `SetBSON`
decodes into has the same fields. -/
structure TradeRecord where
  ID : String
  Taker : String
  Maker : String
  BaseToken : String
  QuoteToken : String
  MakerOrderHash : String
  TakerOrderHash : String
  Hash : String
  TxHash : String
  PairName : String
  Amount : String
  MakeFee : String
  TakeFee : String
  PricePoint : String
  Status : String
  CreatedAt : Time
  UpdatedAt : Time
  TakerOrderSide : String
  TakerOrderType : String
  MakerOrderType : String
  MakerExchange : String
  TakerExchange : String
deriving DecidableEq, Repr

/-- The functions of other packages the trade code calls on text: Keccak-256 of
`crypto/sha3`, by which `Address.Hex` sets the case of its letters, `math.ToBigInt`
of this repository's `utils/math` (not among the sources), `big.Int.UnmarshalJSON`
(the value the fresh integer holds afterwards, the error being dropped),
`time.Time.Format` and `time.Parse` with the RFC 3339 layout (the error being
dropped), and `bson.IsObjectIdHex`. They are parameters of the embedding. -/
structure TextLib where
  keccak256 : List Nat → List Nat
  ToBigInt : String → BigInt
  bigUnmarshalJSON : String → Int
  timeFormat : Time → String
  timeParse : String → Time
  IsObjectIdHex : String → Bool

/-- `(*big.Int).String`: the decimal text, `<nil>` for the nil pointer. -/
def bigString (x : BigInt) : String :=
  match x with
  | none => "<nil>"
  | some i => toString i

/-- A value of a `map[string]interface{}` filled by `json.Unmarshal`. A number and
a composite value (array, object) are kept with the text `fmt.Sprintf("%v", ·)`
gives for them. -/
inductive JsonValue where
  | null
  | bool (b : Bool)
  | number (text : String)
  | string (s : String)
  | composite (text : String)
deriving DecidableEq, Repr

/-- A JSON object as `map[string]interface{}`. -/
abbrev JsonObject := List (String × JsonValue)

/-- The map index `trade[k]`: `none` is the nil interface, which both an absent key
and a JSON null give. -/
def JsonObject.get (o : JsonObject) (k : String) : Option JsonValue :=
  match o.find? (fun kv => decide (kv.1 = k)) with
  | some (_, .null) => none
  | some (_, v) => some v
  | none => none

/-- The type assertion `trade[k].(string)`: `none` when it panics, that is when the
value is nil or not a string. -/
def JsonObject.getString (o : JsonObject) (k : String) : Option String :=
  match o.get k with
  | some (.string s) => some s
  | _ => none

/-- `fmt.Sprintf("%v", v)` for a non-nil value. -/
def sprintV : JsonValue → String
  | .null => "<nil>"
  | .bool b => if b then "true" else "false"
  | .number text => text
  | .string s => s
  | .composite text => text

/-- `trade[k] = v` on the map being built. -/
def JsonObject.set (o : JsonObject) (k : String) (v : JsonValue) : JsonObject :=
  o.filter (fun kv => !decide (kv.1 = k)) ++ [(k, v)]

/-- `Trade.MarshalJSON`, up to `json.Marshal`: the map handed to `json.Marshal`.
An address or hash stored as such in the map is rendered by its text form. -/
def Trade.MarshalJSON (lib : TextLib) (t : Trade) : JsonObject :=
  let trade : JsonObject :=
    [ ("taker", .string (common.hexOf 20 t.Taker)),
      ("maker", .string (common.hexOf 20 t.Maker)),
      ("status", .string t.Status),
      ("hash", .string (common.hexOf 32 t.Hash)),
      ("pairName", .string t.PairName),
      ("pricepoint", .string (bigString t.PricePoint)),
      ("amount", .string (bigString t.Amount)),
      ("makeFee", .string (bigString t.MakeFee)),
      ("takeFee", .string (bigString t.TakeFee)),
      ("createdAt", .string (lib.timeFormat t.CreatedAt)),
      ("takerOrderSide", .string t.TakerOrderSide),
      ("takerOrderType", .string t.TakerOrderType),
      ("makerOrderType", .string t.MakerOrderType),
      ("makerExchange", .string (common.hexOf 20 t.MakerExchange)),
      ("takerExchange", .string (common.hexOf 20 t.TakerExchange)) ]
  let trade :=
    if t.BaseToken ≠ 0 then
      trade.set "baseToken" (.string (common.Address.Hex lib.keccak256 t.BaseToken))
    else trade
  let trade :=
    if t.QuoteToken ≠ 0 then
      trade.set "quoteToken" (.string (common.Address.Hex lib.keccak256 t.QuoteToken))
    else trade
  let trade :=
    if t.TxHash ≠ 0 then trade.set "txHash" (.string (common.Hash.Hex t.TxHash)) else trade
  let trade :=
    if t.TakerOrderHash ≠ 0 then
      trade.set "takerOrderHash" (.string (common.Hash.Hex t.TakerOrderHash))
    else trade
  let trade :=
    if t.MakerOrderHash ≠ 0 then
      trade.set "makerOrderHash" (.string (common.Hash.Hex t.MakerOrderHash))
    else trade
  trade

end types

namespace types

/-- Where a run of `UnmarshalJSON` stands: it goes on with the receiver `t`, or it
has ended, by a return or by a panic. -/
inductive Flow where
  | goOn (t : Trade)
  | ended (t : Trade) (o : RelayerService.Outcome)

/-- Sequencing of the statements of `UnmarshalJSON`. -/
def Flow.andThen (f : Flow) (g : Trade → Flow) : Flow :=
  match f with
  | .goOn t => g t
  | .ended t o => .ended t o

/-- `if trade[check] == nil { return errors.New(msg) } else { t.X = f(trade[read].(string)) }`. -/
def required (trade : JsonObject) (check read msg : String) (assign : String → Trade → Trade)
    (t : Trade) : Flow :=
  match trade.get check with
  | none => .ended t (.returned (some msg))
  | some _ =>
    match trade.getString read with
    | none => .ended t .panicked
    | some s => .goOn (assign s t)

/-- `if trade[k] != nil { t.X = f(trade[k].(string)) }`. -/
def optional (trade : JsonObject) (k : String) (assign : String → Trade → Trade)
    (t : Trade) : Flow :=
  match trade.get k with
  | none => .goOn t
  | some (.string s) => .goOn (assign s t)
  | some _ => .ended t .panicked

/-- `if trade[k] != nil { t.X = f(fmt.Sprintf("%v", trade[k])) }`. -/
def optionalText (trade : JsonObject) (k : String) (assign : String → Trade → Trade)
    (t : Trade) : Flow :=
  match trade.get k with
  | none => .goOn t
  | some v => .goOn (assign (sprintV v) t)

/-- `Trade.UnmarshalJSON` on the map `json.Unmarshal` has filled, with receiver `t`. -/
def Trade.UnmarshalJSON (lib : TextLib) (trade : JsonObject) (t : Trade) : Flow :=
  (required trade "makerOrderHash" "makerOrderHash" "Order Hash is not set"
    (fun s t => { t with MakerOrderHash := common.HexToHash s }) t).andThen fun t =>
  (optional trade "takerOrderHash"
    (fun s t => { t with TakerOrderHash := common.HexToHash s }) t).andThen fun t =>
  (required trade "hash" "hash" "Hash is not set"
    (fun s t => { t with Hash := common.HexToHash s }) t).andThen fun t =>
  (required trade "quoteToken" "quoteToken" "Quote token is not set"
    (fun s t => { t with QuoteToken := common.HexToAddress s }) t).andThen fun t =>
  (required trade "baseToken" "baseToken" "Base token is not set"
    (fun s t => { t with BaseToken := common.HexToAddress s }) t).andThen fun t =>
  (required trade "maker" "taker" "Maker is not set"
    (fun s t => { t with Taker := common.HexToAddress s }) t).andThen fun t =>
  (required trade "taker" "maker" "Taker is not set"
    (fun s t => { t with Maker := common.HexToAddress s }) t).andThen fun t =>
  (optional trade "id"
    (fun s t => if lib.IsObjectIdHex s then { t with ID := s } else t) t).andThen fun t =>
  (optional trade "txHash"
    (fun s t => { t with TxHash := common.HexToHash s }) t).andThen fun t =>
  (optional trade "pairName" (fun s t => { t with PairName := s }) t).andThen fun t =>
  (optional trade "status" (fun s t => { t with Status := s }) t).andThen fun t =>
  (optionalText trade "pricepoint"
    (fun s t => { t with PricePoint := lib.ToBigInt s }) t).andThen fun t =>
  (optionalText trade "amount"
    (fun s t => { t with Amount := some (lib.bigUnmarshalJSON s) }) t).andThen fun t =>
  (optionalText trade "makeFee"
    (fun s t => { t with MakeFee := some (lib.bigUnmarshalJSON s) }) t).andThen fun t =>
  (optionalText trade "takeFee"
    (fun s t => { t with TakeFee := some (lib.bigUnmarshalJSON s) }) t).andThen fun t =>
  (optional trade "createdAt"
    (fun s t => { t with CreatedAt := lib.timeParse s }) t).andThen fun t =>
  (optional trade "takerOrderSide" (fun s t => { t with TakerOrderSide := s }) t).andThen fun t =>
  (optional trade "takerOrderType" (fun s t => { t with TakerOrderType := s }) t).andThen fun t =>
  (optional trade "makerOrderType" (fun s t => { t with TakerOrderType := s }) t).andThen fun t =>
  (optional trade "makerExchange"
    (fun s t => { t with MakerExchange := common.HexToAddress s }) t).andThen fun t =>
  (optional trade "takerExchange"
    (fun s t => { t with TakerExchange := common.HexToAddress s }) t).andThen fun t =>
  .ended t (.returned none)

/-- `Trade.GetBSON`. -/
def Trade.GetBSON (lib : TextLib) (t : Trade) : TradeRecord :=
  { ID := t.ID
    PairName := t.PairName
    Maker := common.Address.Hex lib.keccak256 t.Maker
    Taker := common.Address.Hex lib.keccak256 t.Taker
    BaseToken := common.Address.Hex lib.keccak256 t.BaseToken
    QuoteToken := common.Address.Hex lib.keccak256 t.QuoteToken
    MakerOrderHash := common.Hash.Hex t.MakerOrderHash
    Hash := common.Hash.Hex t.Hash
    TxHash := common.Hash.Hex t.TxHash
    TakerOrderHash := common.Hash.Hex t.TakerOrderHash
    CreatedAt := t.CreatedAt
    UpdatedAt := t.UpdatedAt
    PricePoint := bigString t.PricePoint
    Status := t.Status
    Amount := bigString t.Amount
    MakeFee := bigString t.MakeFee
    TakeFee := bigString t.TakeFee
    TakerOrderSide := t.TakerOrderSide
    TakerOrderType := t.TakerOrderType
    MakerOrderType := t.MakerOrderType
    MakerExchange := common.Address.Hex lib.keccak256 t.MakerExchange
    TakerExchange := common.Address.Hex lib.keccak256 t.TakerExchange }

/-- `Trade.SetBSON` on the reply of `raw.Unmarshal(decoded)`, with receiver `t`:
the receiver afterwards and the error returned. -/
def Trade.SetBSON (lib : TextLib) (raw : Except String TradeRecord) (t : Trade) :
    Trade × Option String :=
  match raw with
  | .error err => (t, some err)
  | .ok decoded =>
    ({ ID := decoded.ID
       PairName := decoded.PairName
       Taker := common.HexToAddress decoded.Taker
       Maker := common.HexToAddress decoded.Maker
       BaseToken := common.HexToAddress decoded.BaseToken
       QuoteToken := common.HexToAddress decoded.QuoteToken
       MakerOrderHash := common.HexToHash decoded.MakerOrderHash
       TakerOrderHash := common.HexToHash decoded.TakerOrderHash
       Hash := common.HexToHash decoded.Hash
       TxHash := common.HexToHash decoded.TxHash
       Status := decoded.Status
       Amount := lib.ToBigInt decoded.Amount
       PricePoint := lib.ToBigInt decoded.PricePoint
       MakeFee := lib.ToBigInt decoded.MakeFee
       TakeFee := lib.ToBigInt decoded.TakeFee
       CreatedAt := decoded.CreatedAt
       UpdatedAt := decoded.UpdatedAt
       TakerOrderSide := decoded.TakerOrderSide
       TakerOrderType := decoded.TakerOrderType
       MakerOrderType := decoded.TakerOrderType
       MakerExchange := common.HexToAddress decoded.MakerExchange
       TakerExchange := common.HexToAddress decoded.TakerExchange }, none)

/-- `Trade.ComputeHash`, with the Keccak-256 function of `crypto/sha3` as a
parameter: the hasher is written the bytes of the maker order hash, then those of
the taker order hash, and its digest is turned into a hash. -/
def Trade.ComputeHash (keccak256 : List Nat → List Nat) (t : Trade) : common.Hash :=
  let sha : List Nat := []
  let sha := sha ++ common.Hash.Bytes t.MakerOrderHash
  let sha := sha ++ common.Hash.Bytes t.TakerOrderHash
  common.BytesToHash (keccak256 sha)

end types

/-! ## The handlers of `endpoints/trade.go` -/

namespace types

/-- `types.UserVolume`. -/
structure UserVolume where
  UserAddress : common.Address
  Volume : BigInt
  Rank : Int
deriving DecidableEq, Repr

/-- `types.UserPnL`. -/
structure UserPnL where
  UserAddress : common.Address
  VolumeAskByQuote : BigInt
  VolumeBidByQuote : BigInt
  VolumeAsk : BigInt
  VolumeBid : BigInt
  CurrentPrice : BigInt
  PnL : BigInt
deriving DecidableEq, Repr

end types

namespace endpoints

open common types

/-- `url.Values`, the parsed query string: each key with its values in order. -/
abbrev Values := List (String × List String)

/-- The map index `v[key]`: the values of the key, none when it is absent. -/
def Values.index (v : Values) (key : String) : List String :=
  match v.find? (fun kv => decide (kv.1 = key)) with
  | some (_, vs) => vs
  | none => []

/-- `Values.Get`: the first value of the key, the empty string when there is none. -/
def Values.Get (v : Values) (key : String) : String :=
  match v.index key with
  | x :: _ => x
  | [] => ""

/-- The methods of `services.TradeService` the handlers call; the service is not
among the sources and is a parameter. A slice result is `none` when it is nil. -/
structure TradeService where
  QueryVolume : Address → Address → List Address → Address → Int → Int → Int →
    Option (List UserVolume)
  Query24hVolume : Address → Address → List Address → Address → Int →
    Option (List UserVolume)
  GetTopRelayerUserPnL : Address → Address → Address → Int → Option (List UserPnL)
  GetNumberTraderByTime : Address → Address → Address → Int → Int → Bool → Int

/-- A call a handler makes on the trade service, with its arguments in order. -/
inductive ServiceCall where
  | QueryVolume (relayerAddress userAddress : Address) (baseTokens : List Address)
      (quoteToken : Address) (fromTime toTime topVolume : Int)
  | Query24hVolume (relayerAddress userAddress : Address) (baseTokens : List Address)
      (quoteToken : Address) (topVolume : Int)
  | GetTopRelayerUserPnL (relayerAddress baseToken quoteToken : Address) (topVolume : Int)
  | GetNumberTraderByTime (relayerAddress baseToken quoteToken : Address)
      (since till : Int) (excludeBot : Bool)
deriving DecidableEq, Repr

/-- The payload a handler hands to `httputils.WriteJSON`. A slice payload is `none`
when it is the nil slice, which JSON renders as `null`. -/
inductive Payload where
  | volumes (res : Option (List UserVolume))
  | pnls (res : Option (List UserPnL))
  | numberTrader (activeUser : Int) (duration : String)
  | text (s : String)
deriving DecidableEq, Repr

/-- The one call a handler makes on `httputils`, with its status and content. -/
inductive Reply where
  | WriteError (status : Nat) (message : String)
  | WriteJSON (status : Nat) (payload : Payload)
deriving DecidableEq, Repr

/-- The status code of a reply. -/
def Reply.status : Reply → Nat
  | .WriteError status _ => status
  | .WriteJSON status _ => status

/-- What a handler did on a request: its calls on the trade service, in order, and
its reply. -/
structure Exchange where
  calls : List ServiceCall
  reply : Reply
deriving DecidableEq, Repr

/-- `http.StatusOK`. -/
def StatusOK : Nat := 200

/-- `http.StatusBadRequest`. -/
def StatusBadRequest : Nat := 400

/-- The loop `for _, bt := range v["baseToken"]` of `handleQueryVolume` and
`handleQuery24h`. -/
def baseTokensLoop (vs : List String) : List Address :=
  vs.foldl
    (fun baseTokens bt =>
      if bt ≠ "" then
        if IsHexAddress bt then baseTokens ++ [HexToAddress bt] else baseTokens
      else baseTokens)
    []

/-- `tradeEndpoint.handleQueryVolume` on the query `v`. -/
def handleQueryVolume (svc : TradeService) (v : Values) : Exchange :=
  let qt := v.Get "quoteToken"
  let fromParam := v.Get "from"
  let toParam := v.Get "to"
  let rAddress := v.Get "relayerAddress"
  let uaddr := v.Get "userAddress"
  let top := v.Get "top"
  let baseTokens := baseTokensLoop (v.index "baseToken")
  let topVolume : Int := 10
  if qt ≠ "" ∧ IsHexAddress qt = false then
    ⟨[], .WriteError StatusBadRequest "Invalid quotetoken address"⟩
  else
    let quoteToken : Address := if qt ≠ "" then HexToAddress qt else 0
    if rAddress ≠ "" ∧ IsHexAddress rAddress = false then
      ⟨[], .WriteError StatusBadRequest "Invalid relayer address"⟩
    else
      let relayerAddress : Address := if rAddress ≠ "" then HexToAddress rAddress else 0
      let toTime : Int := if toParam ≠ "" then (strconv.Atoi toParam).1 else 0
      let fromTime : Int := if fromParam ≠ "" then (strconv.Atoi fromParam).1 else 0
      let topVolume : Int := if top ≠ "" then (strconv.Atoi top).1 else topVolume
      let userAddress : Address :=
        if uaddr ≠ "" then (if IsHexAddress uaddr then HexToAddress uaddr else 0) else 0
      let res :=
        svc.QueryVolume relayerAddress userAddress baseTokens quoteToken fromTime toTime
          topVolume
      let calls :=
        [ServiceCall.QueryVolume relayerAddress userAddress baseTokens quoteToken fromTime
          toTime topVolume]
      match res with
      | none => ⟨calls, .WriteJSON StatusOK (.volumes (some []))⟩
      | some r => ⟨calls, .WriteJSON StatusOK (.volumes (some r))⟩

/-- `tradeEndpoint.handleGetRelayerTopPnLTrades` on the query `v`. -/
def handleGetRelayerTopPnLTrades (svc : TradeService) (v : Values) : Exchange :=
  let bt := v.Get "baseToken"
  let qt := v.Get "quoteToken"
  let rAddress := v.Get "relayerAddress"
  let top := v.Get "top"
  let topVolume : Int := 10
  if bt ≠ "" ∧ IsHexAddress bt = false then
    ⟨[], .WriteError StatusBadRequest "Invalid basetoken address"⟩
  else
    let baseToken : Address := if bt ≠ "" then HexToAddress bt else 0
    if qt ≠ "" ∧ IsHexAddress qt = false then
      ⟨[], .WriteError StatusBadRequest "Invalid quotetoken address"⟩
    else
      let quoteToken : Address := if qt ≠ "" then HexToAddress qt else 0
      if rAddress ≠ "" ∧ IsHexAddress rAddress = false then
        ⟨[], .WriteError StatusBadRequest "Invalid relayer address"⟩
      else
        let relayerAddress : Address := if rAddress ≠ "" then HexToAddress rAddress else 0
        let topVolume : Int := if top ≠ "" then (strconv.Atoi top).1 else topVolume
        let res := svc.GetTopRelayerUserPnL relayerAddress baseToken quoteToken topVolume
        let calls :=
          [ServiceCall.GetTopRelayerUserPnL relayerAddress baseToken quoteToken topVolume]
        match res with
        | none => ⟨calls, .WriteJSON StatusOK (.pnls (some []))⟩
        | some r => ⟨calls, .WriteJSON StatusOK (.pnls (some r))⟩

/-- `tradeEndpoint.handleQuery24h` on the query `v`. -/
def handleQuery24h (svc : TradeService) (v : Values) : Exchange :=
  let qt := v.Get "quoteToken"
  let rAddress := v.Get "relayerAddress"
  let uaddr := v.Get "userAddress"
  let top := v.Get "top"
  let baseTokens := baseTokensLoop (v.index "baseToken")
  let topVolume : Int := 10
  if qt ≠ "" ∧ IsHexAddress qt = false then
    ⟨[], .WriteError StatusBadRequest "Invalid quotetoken address"⟩
  else
    let quoteToken : Address := if qt ≠ "" then HexToAddress qt else 0
    if rAddress ≠ "" ∧ IsHexAddress rAddress = false then
      ⟨[], .WriteError StatusBadRequest "Invalid relayer address"⟩
    else
      let relayerAddress : Address := if rAddress ≠ "" then HexToAddress rAddress else 0
      let topVolume : Int := if top ≠ "" then (strconv.Atoi top).1 else topVolume
      let userAddress : Address :=
        if uaddr ≠ "" then (if IsHexAddress uaddr then HexToAddress uaddr else 0) else 0
      let res := svc.Query24hVolume relayerAddress userAddress baseTokens quoteToken topVolume
      let calls :=
        [ServiceCall.Query24hVolume relayerAddress userAddress baseTokens quoteToken topVolume]
      match res with
      | none => ⟨calls, .WriteJSON StatusOK (.volumes (some []))⟩
      | some r => ⟨calls, .WriteJSON StatusOK (.volumes (some r))⟩

/-- The reply of `handleGetNumberUser` for an accepted duration: one call on
`GetNumberTraderByTime` and the count written with status 200. -/
def numberUserReply (svc : TradeService) (relayerAddress baseToken quoteToken : Address)
    (since : Int) (excludeBot : Bool) (duration : String) : Exchange :=
  let activeUser :=
    svc.GetNumberTraderByTime relayerAddress baseToken quoteToken since 0 excludeBot
  ⟨[ServiceCall.GetNumberTraderByTime relayerAddress baseToken quoteToken since 0 excludeBot],
    .WriteJSON StatusOK (.numberTrader activeUser duration)⟩

/-- `tradeEndpoint.handleGetNumberUser` on the query `v`; `unixDaysFromNow d` is
`time.Now().AddDate(0, 0, d).Unix()`. -/
def handleGetNumberUser (svc : TradeService) (unixDaysFromNow : Int → Int) (v : Values) :
    Exchange :=
  let rAddress := v.Get "relayerAddress"
  let duration := v.Get "duration"
  let bot := v.Get "excludeBot"
  let bToken := v.Get "baseToken"
  let qToken := v.Get "quoteToken"
  let excludeBot : Bool := if bot = "true" then true else false
  if rAddress ≠ "" ∧ IsHexAddress rAddress = false then
    ⟨[], .WriteError StatusBadRequest "Invalid relayer address"⟩
  else
    let relayerAddress : Address := if rAddress ≠ "" then HexToAddress rAddress else 0
    if bToken ≠ "" ∧ IsHexAddress bToken = false then
      ⟨[], .WriteError StatusBadRequest "Invalid baseToken address"⟩
    else
      let baseToken : Address := if bToken ≠ "" then HexToAddress bToken else 0
      if qToken ≠ "" ∧ IsHexAddress qToken = false then
        ⟨[], .WriteError StatusBadRequest "Invalid quoteToken address"⟩
      else
        let quoteToken : Address := if qToken ≠ "" then HexToAddress qToken else 0
        if duration = "" then
          numberUserReply svc relayerAddress baseToken quoteToken 0 excludeBot "all"
        else if duration = "1d" then
          numberUserReply svc relayerAddress baseToken quoteToken (unixDaysFromNow (-1))
            excludeBot duration
        else if duration = "7d" then
          numberUserReply svc relayerAddress baseToken quoteToken (unixDaysFromNow (-7))
            excludeBot duration
        else if duration = "30d" then
          numberUserReply svc relayerAddress baseToken quoteToken (unixDaysFromNow (-30))
            excludeBot duration
        else
          ⟨[], .WriteJSON StatusBadRequest (.text "duration must be empty/1d/7d/30d")⟩

end endpoints

/-! ## `PairDao.GetByName` -/

namespace strings

/-- `strings.Split (s, "/")` on the characters of `s`: the pieces between the
separators, one more than there are separators. -/
def splitSlash : List Char → List (List Char)
  | [] => [[]]
  | c :: rest =>
      if c = '/' then [] :: splitSlash rest
      else
        match splitSlash rest with
        | piece :: pieces => (c :: piece) :: pieces
        | [] => [[c]]

/-- `strings.Split (s, "/")`. -/
def Split (s : String) : List String :=
  (splitSlash s.toList).map String.mk

end strings

namespace PairDao

/-- How a call of a lookup ends: it returns a pair pointer (nil is `none`) or an
error, or it panics. -/
inductive Lookup where
  | returned (res : Except String (Option Pair))
  | panicked
deriving Repr

/-- `PairDao.GetByTokenSymbols`; `dbGet base quote` is the reply of `db.Get` for
the query `{"baseTokenSymbol": base, "quoteTokenSymbol": quote}` with limit 1. -/
def GetByTokenSymbols (dbGet : String → String → Except String (List Pair))
    (baseTokenSymbol quoteTokenSymbol : String) : Except String (Option Pair) :=
  match dbGet baseTokenSymbol quoteTokenSymbol with
  | .error err => .error err
  | .ok res =>
      match res with
      | [] => .ok none
      | r :: _ => .ok (some r)

/-- `PairDao.GetByName`: an index expression on the slice of pieces panics when the
index is not below its length. -/
def GetByName (dbGet : String → String → Except String (List Pair)) (name : String) :
    Lookup :=
  let tokenSymbols := strings.Split name
  match tokenSymbols[0]? with
  | none => .panicked
  | some s0 =>
      match tokenSymbols[1]? with
      | none => .panicked
      | some s1 => .returned (GetByTokenSymbols dbGet s0 s1)

end PairDao

/-! ## Sample trades -/

namespace types

/-- A trade with every field set. -/
def sampleTrade : Trade :=
  { ID := "", Taker := 11, Maker := 12, BaseToken := 13, QuoteToken := 14,
    MakerOrderHash := 15, TakerOrderHash := 16, Hash := 17, TxHash := 18,
    PairName := "BTC/TOMO", PricePoint := some 100, Amount := some 5, MakeFee := some 1,
    TakeFee := some 2, Status := "SUCCESS", CreatedAt := 0, UpdatedAt := 0,
    TakerOrderSide := "BUY", TakerOrderType := "MO", MakerOrderType := "LO",
    MakerExchange := 19, TakerExchange := 20 }

/-- A trade with the order hashes of `sampleTrade` and other content. -/
def otherTrade : Trade :=
  { sampleTrade with Taker := 21, Maker := 22, BaseToken := 23, QuoteToken := 24,
                     Amount := some 77, PricePoint := some 3, Status := "PENDING",
                     CreatedAt := 1000, UpdatedAt := 2000 }

/-- A stand-in for a digest function, used where a statement is met at a concrete
function: the first 32 bytes of the input. -/
def firstBytes (bs : List Nat) : List Nat := bs.take 32

end types

/-! ## Vocabulary of the statements on the handlers -/

namespace endpoints

open common types

/-- A parameter value that is given and is not a hex address. -/
def invalidAddress (s : String) : Bool :=
  decide (s ≠ "") && !IsHexAddress s

/-- The request passes the address checks of `handleQueryVolume` and
`handleQuery24h`, which bear on `quoteToken` and `relayerAddress`. -/
def passesValidation (v : Values) : Prop :=
  invalidAddress (v.Get "quoteToken") = false ∧ invalidAddress (v.Get "relayerAddress") = false

instance (v : Values) : Decidable (passesValidation v) := by
  unfold passesValidation
  infer_instance

/-- The request passes the address checks of `handleGetRelayerTopPnLTrades` and
`handleGetNumberUser`, which bear on `baseToken`, `quoteToken` and `relayerAddress`. -/
def passesValidation3 (v : Values) : Prop :=
  invalidAddress (v.Get "baseToken") = false ∧ invalidAddress (v.Get "quoteToken") = false ∧
    invalidAddress (v.Get "relayerAddress") = false

instance (v : Values) : Decidable (passesValidation3 v) := by
  unfold passesValidation3
  infer_instance

/-- The written list for a service result: the result itself, the empty list when
the result is nil. -/
def listWritten {α : Type} (res : Option (List α)) : List α :=
  match res with
  | none => []
  | some r => r

/-- A trade service with fixed replies: nil volume rankings for `QueryVolume`, one
entry for `Query24hVolume`, a nil PnL list and three traders. -/
def sampleService : TradeService :=
  { QueryVolume := fun _ _ _ _ _ _ _ => none
    Query24hVolume := fun _ _ _ _ _ => some [{ UserAddress := 1, Volume := some 5, Rank := 1 }]
    GetTopRelayerUserPnL := fun _ _ _ _ => none
    GetNumberTraderByTime := fun _ _ _ _ _ _ => 3 }

/-- A clock on which now is second 3 000 000 of the epoch. -/
def sampleClock (days : Int) : Int := 3000000 + days * 86400

/-- The text of a valid address, that of address 5 in lower case. -/
def validText : String := hexOf 20 5

end endpoints

/-! ## Sample inputs of the trade codecs -/

namespace types

/-- A stand-in for the text functions, used where a statement is met at concrete
functions: every number reads as zero and every time as the zero time. -/
def constLib : TextLib :=
  { keccak256 := fun _ => []
    ToBigInt := fun _ => some 0
    bigUnmarshalJSON := fun _ => 0
    timeFormat := fun _ => "0001-01-01T00:00:00Z"
    timeParse := fun _ => 0
    IsObjectIdHex := fun _ => false }

/-- A JSON object with the order hash, hash, tokens and `maker`, and no `taker`. -/
def makerOnly : JsonObject :=
  [ ("makerOrderHash", .string (common.Hash.Hex 15)),
    ("hash", .string (common.Hash.Hex 17)),
    ("quoteToken", .string (common.hexOf 20 14)),
    ("baseToken", .string (common.hexOf 20 13)),
    ("maker", .string (common.hexOf 20 12)) ]

/-- A JSON object with the order hash, hash, tokens and `taker`, and no `maker`. -/
def takerOnly : JsonObject :=
  [ ("makerOrderHash", .string (common.Hash.Hex 15)),
    ("hash", .string (common.Hash.Hex 17)),
    ("quoteToken", .string (common.hexOf 20 14)),
    ("baseToken", .string (common.hexOf 20 13)),
    ("taker", .string (common.hexOf 20 11)) ]

/-- A JSON object whose order hash is a number. -/
def numericOrderHash : JsonObject :=
  [ ("makerOrderHash", .number "5") ]

end types

/-! ## The element type of the token map -/

namespace RelayerService

/-- The declaration of `relayer.RInfo.Tokens` is not among the sources. The code
reads fields of `relayerInfo.Tokens[k]`, so the elements of the map are struct
values, and the index of an absent key is the zero value, or they are pointers to
structs, and the index of an absent key is nil, whose field read panics. -/
inductive ElementKind where
  | structValue
  | pointer
deriving DecidableEq, Repr

/-- The entry `relayerInfo.Tokens[k]` under either element type; `none` is the nil
pointer. -/
def tokenEntry (kind : ElementKind) (m : List (common.Address × TokenInfo))
    (k : common.Address) : Option TokenInfo :=
  match m.find? (fun kv => decide (kv.1 = k)) with
  | some kv => some kv.2
  | none =>
    match kind with
    | .structValue => some { Symbol := "", Decimals := 0 }
    | .pointer => none

/-- The record `updatePairRelayer` builds for a snapshot pair, under either element
type: `none` when the read of a field of a nil entry panics. -/
def mkPairOf (kind : ElementKind) (relayerInfo : RInfo) (newpair : PairToken) : Option Pair :=
  match tokenEntry kind relayerInfo.Tokens newpair.BaseToken with
  | none => none
  | some pairBaseData =>
    match tokenEntry kind relayerInfo.Tokens newpair.QuoteToken with
    | none => none
    | some pairQuoteData =>
      some
        { BaseTokenSymbol := pairBaseData.Symbol
          BaseTokenAddress := newpair.BaseToken
          BaseTokenDecimals := (pairBaseData.Decimals : Int)
          QuoteTokenSymbol := pairQuoteData.Symbol
          QuoteTokenAddress := newpair.QuoteToken
          QuoteTokenDecimals := (pairQuoteData.Decimals : Int)
          RelayerAddress := relayerInfo.Address
          Active := true
          MakeFee := (relayerInfo.MakeFee : Int)
          TakeFee := (relayerInfo.TakeFee : Int) }

/-- `RelayerService.updatePairRelayer` under either element type of the token map.
The state of the first loop is the store and whether the routine has panicked; a
panic leaves the routine, so no later pair is created and no pair is deleted. -/
def updatePairRelayerOf (kind : ElementKind) (fail : Oracle) (relayerInfo : RInfo)
    (w : World) : World × Outcome :=
  match PairDao.GetAllByCoinbase fail w relayerInfo.Address with
  | (w0, .error err) => (w0, .returned (some err))
  | (w0, .ok currentPairs) =>
    let st := relayerInfo.Pairs.foldl
      (fun (st : World × Bool) newpair =>
        if st.2 then st
        else
          let found := currentPairs.foldl
            (fun found currentPair =>
              if newpair.BaseToken = currentPair.BaseTokenAddress ∧
                  newpair.QuoteToken = currentPair.QuoteTokenAddress then true else found)
            false
          if !found then
            match mkPairOf kind relayerInfo newpair with
            | none => (st.1, true)
            | some pair => (ignoreErr (storeWrite fail st.1 (.pairCreate pair)), false)
          else st)
      (w0, false)
    if st.2 then (st.1, .panicked)
    else
      let w2 := currentPairs.foldl
        (fun w currentPair =>
          let found := relayerInfo.Pairs.foldl
            (fun found newpair =>
              if currentPair.BaseTokenAddress = newpair.BaseToken ∧
                  currentPair.QuoteTokenAddress = newpair.QuoteToken then true else found)
            false
          if !found then
            ignoreErr (storeWrite fail w
              (.pairDelete currentPair.BaseTokenAddress currentPair.QuoteTokenAddress
                relayerInfo.Address))
          else w)
        st.1
      (w2, .returned none)

end RelayerService

/-- A snapshot of relayer 9 whose token map has the tokens 1 and 2 and whose pair
list has the pair (3, 4), of tokens that are not in the map, before the pair
(1, 2). -/
def missingTokenInfo : RInfo :=
  { RID := 0, Owner := 0, Deposit := 0, Address := 9, Resign := false, LockTime := 0,
    MakeFee := 5, TakeFee := 6,
    Tokens := [(1, { Symbol := "AAA", Decimals := 18 }), (2, { Symbol := "BBB", Decimals := 6 })],
    Pairs := [{ BaseToken := 3, QuoteToken := 4 }, { BaseToken := 1, QuoteToken := 2 }] }

/-! ## Lemmas on the loops -/

namespace RelayerService

theorem foldl_flag {α : Type} (p : α → Bool) (l : List α) (b : Bool) :
    l.foldl (fun found x => if p x = true then true else found) b = (b || l.any p) := by
  induction l generalizing b with
  | nil => simp
  | cons x xs ih =>
    simp only [List.foldl_cons, List.any_cons, ih]
    cases h : p x <;> cases b <;> simp

theorem scanBreak_eq_any {α : Type} (p : α → Bool) (l : List α) :
    scanBreak p l = l.any p := by
  induction l with
  | nil => rfl
  | cons x xs ih => cases h : p x <;> simp [scanBreak, h, ih]

theorem ignoreErr_eq (r : World × Bool) : ignoreErr r = r.1 := by
  rcases r with ⟨w, b⟩
  cases b <;> rfl

theorem runOps_nil (fail : Oracle) (w : World) : runOps fail w [] = w := rfl

theorem runOps_cons (fail : Oracle) (w : World) (op : Op) (ops : List Op) :
    runOps fail w (op :: ops) = runOps fail (storeWrite fail w op).1 ops := rfl

theorem runOps_append (fail : Oracle) (w : World) (xs ys : List Op) :
    runOps fail w (xs ++ ys) = runOps fail (runOps fail w xs) ys := by
  simp [runOps, List.foldl_append]

theorem storeWrite_log (fail : Oracle) (w : World) (op : Op) :
    (storeWrite fail w op).1.log = w.log ++ [op] := by
  unfold storeWrite
  split <;> rfl

theorem storeWrite_calls (fail : Oracle) (w : World) (op : Op) :
    (storeWrite fail w op).1.calls = w.calls + 1 := by
  unfold storeWrite
  split <;> rfl

theorem storeWrite_allSucceed (w : World) (op : Op) :
    (storeWrite allSucceed w op).1.mirror = applyOp w.mirror op := by
  simp [storeWrite, allSucceed]

theorem runOps_log (fail : Oracle) (w : World) (ops : List Op) :
    (runOps fail w ops).log = w.log ++ ops := by
  induction ops generalizing w with
  | nil => simp [runOps_nil]
  | cons op ops ih => rw [runOps_cons, ih, storeWrite_log]; simp

theorem runOps_calls (fail : Oracle) (w : World) (ops : List Op) :
    (runOps fail w ops).calls = w.calls + ops.length := by
  induction ops generalizing w with
  | nil => simp [runOps_nil]
  | cons op ops ih => rw [runOps_cons, ih, storeWrite_calls]; simp; omega

theorem runOps_mirror (w : World) (ops : List Op) :
    (runOps allSucceed w ops).mirror = ops.foldl applyOp w.mirror := by
  induction ops generalizing w with
  | nil => simp [runOps_nil]
  | cons op ops ih => rw [runOps_cons, ih, storeWrite_allSucceed]; rfl

/-- A loop that attempts `f x` for the entries passing `c` and skips the others. -/
theorem foldl_guarded {α : Type} (fail : Oracle) (c : α → Bool) (f : α → Op)
    (l : List α) (w : World) :
    l.foldl (fun w x => if c x = true then ignoreErr (storeWrite fail w (f x)) else w) w =
      runOps fail w ((l.filter c).map f) := by
  induction l generalizing w with
  | nil => rfl
  | cons x xs ih =>
    simp only [List.foldl_cons, List.filter_cons]
    cases h : c x
    · simp [ih]
    · simp only [if_true, List.map_cons, runOps_cons]
      rw [ih, ignoreErr_eq]

/-- A loop whose body attempts the calls `g x`. -/
theorem foldl_runOps {α : Type} (fail : Oracle) (g : α → List Op) (l : List α) (w : World) :
    l.foldl (fun w x => runOps fail w (g x)) w = runOps fail w (l.flatMap g) := by
  induction l generalizing w with
  | nil => rfl
  | cons x xs ih => simp [ih, runOps_append]

end RelayerService

/-! ## The routines in closed form -/

namespace RelayerService

theorem updateTokenRelayer_eq (fail : Oracle) (relayerInfo : RInfo) (w : World)
    (h : fail w.calls = false) :
    updateTokenRelayer fail relayerInfo w =
      (runOps fail (afterRead w)
        (tokenOps relayerInfo (tokensOf w.mirror relayerInfo.Address)), none) := by
  have body : ∀ (cur : List Token),
      (fun (w : World) (kv : common.Address × TokenInfo) =>
        let ntoken := kv.1
        let v := kv.2
        let found := cur.foldl
          (fun found ctoken => if ntoken = ctoken.ContractAddress then true else found) false
        let token := mkToken relayerInfo ntoken v
        let w :=
          if !found then ignoreErr (storeWrite fail w (.tokenCreate token))
          else (storeWrite fail w (.tokenUpdate ntoken relayerInfo.Address token)).1
        cur.foldl
          (fun w ctoken =>
            let found := relayerInfo.Tokens.foldl
              (fun found kv' => if ctoken.ContractAddress = kv'.1 then true else found) false
            if !found then
              ignoreErr (storeWrite fail w
                (.tokenDelete ctoken.ContractAddress relayerInfo.Address))
            else w)
          w) =
      fun w kv => runOps fail w (tokenWrite relayerInfo cur kv :: tokenDeletes relayerInfo cur) := by
    intro cur
    funext w kv
    have h1 : ∀ a : common.Address,
        cur.foldl (fun found ctoken => if a = ctoken.ContractAddress then true else found) false
          = tokenMirrored cur a := by
      intro a
      have := foldl_flag (fun c : Token => decide (a = c.ContractAddress)) cur false
      simpa [tokenMirrored] using this
    have h2 : ∀ c : Token,
        relayerInfo.Tokens.foldl
            (fun found kv' => if c.ContractAddress = kv'.1 then true else found) false
          = tokenListed relayerInfo c := by
      intro c
      have := foldl_flag (fun kv' : common.Address × TokenInfo =>
        decide (c.ContractAddress = kv'.1)) relayerInfo.Tokens false
      simpa [tokenListed] using this
    simp only [h1, h2]
    have h3 := foldl_guarded fail (fun c => !tokenListed relayerInfo c)
      (fun c => Op.tokenDelete c.ContractAddress relayerInfo.Address) cur
    simp only [Bool.not_eq_true', ignoreErr_eq] at h3
    rw [runOps_cons]
    unfold tokenDeletes tokenWrite
    cases hm : tokenMirrored cur kv.1
    · simpa [ignoreErr_eq] using h3 _
    · simpa [ignoreErr_eq] using h3 _
  unfold updateTokenRelayer TokenDao.GetAllByCoinbase storeRead
  simp only [h]
  simp only [Bool.false_eq_true, if_false]
  rw [body, foldl_runOps]
  rfl

theorem updateTokenRelayer_readFail (fail : Oracle) (relayerInfo : RInfo) (w : World)
    (h : fail w.calls = true) :
    updateTokenRelayer fail relayerInfo w = (afterRead w, some "store error") := by
  unfold updateTokenRelayer TokenDao.GetAllByCoinbase storeRead
  simp [h, afterRead]

theorem updatePairRelayer_eq (fail : Oracle) (relayerInfo : RInfo) (w : World)
    (h : fail w.calls = false) :
    updatePairRelayer fail relayerInfo w =
      (runOps fail (afterRead w)
        (pairOps relayerInfo (pairsOf w.mirror relayerInfo.Address)), none) := by
  have h1 : ∀ (cur : List Pair) (n : PairToken),
      cur.foldl (fun found currentPair =>
          if n.BaseToken = currentPair.BaseTokenAddress ∧
              n.QuoteToken = currentPair.QuoteTokenAddress then true else found) false
        = pairMirrored cur n := by
    intro cur n
    have := foldl_flag (fun c : Pair => decide (n.BaseToken = c.BaseTokenAddress ∧
      n.QuoteToken = c.QuoteTokenAddress)) cur false
    simpa [pairMirrored] using this
  have h2 : ∀ c : Pair,
      relayerInfo.Pairs.foldl (fun found newpair =>
          if c.BaseTokenAddress = newpair.BaseToken ∧
              c.QuoteTokenAddress = newpair.QuoteToken then true else found) false
        = pairListed relayerInfo c := by
    intro c
    have := foldl_flag (fun n : PairToken => decide (c.BaseTokenAddress = n.BaseToken ∧
      c.QuoteTokenAddress = n.QuoteToken)) relayerInfo.Pairs false
    simpa [pairListed] using this
  have h3 := foldl_guarded fail
    (fun n => !pairMirrored (pairsOf w.mirror relayerInfo.Address) n)
    (fun n => Op.pairCreate (mkPair relayerInfo n)) relayerInfo.Pairs
  have h4 := foldl_guarded fail (fun c => !pairListed relayerInfo c)
    (fun c => Op.pairDelete c.BaseTokenAddress c.QuoteTokenAddress relayerInfo.Address)
    (pairsOf w.mirror relayerInfo.Address)
  simp only [Bool.not_eq_true'] at h3 h4
  unfold updatePairRelayer PairDao.GetAllByCoinbase storeRead
  simp only [h]
  simp only [Bool.false_eq_true, if_false, h1, h2, Bool.not_eq_true']
  unfold pairOps pairCreates pairDeletes
  rw [runOps_append, ← h3, ← h4]
  rfl

theorem updatePairRelayer_readFail (fail : Oracle) (relayerInfo : RInfo) (w : World)
    (h : fail w.calls = true) :
    updatePairRelayer fail relayerInfo w = (afterRead w, some "store error") := by
  unfold updatePairRelayer PairDao.GetAllByCoinbase storeRead
  simp [h, afterRead]

theorem map_eq_flatMap_single {α β : Type} (f : α → β) (l : List α) :
    l.map f = l.flatMap (fun x => [f x]) := by
  induction l with
  | nil => rfl
  | cons x xs ih => simp [List.flatMap_cons, ih]

theorem updateRelayers_eq (fail : Oracle) (relayerInfos : List RInfo)
    (lendings : List LendingRInfo) (w : World) (h : fail w.calls = false) :
    updateRelayers fail relayerInfos lendings w =
      (runOps fail (afterRead w) (relayerOps relayerInfos lendings w.mirror.relayers),
        none) := by
  have h4 := foldl_guarded fail
    (fun r : Relayer => !relayerInfos.any (fun v => decide (v.Address = r.Address)))
    (fun r => Op.relayerDelete r.Address) w.mirror.relayers
  simp only [Bool.not_eq_true'] at h4
  have hbody : (fun (w' : World) (r : RInfo) =>
        if (w.mirror.relayers.any fun v => decide (v.Address = r.Address)) = false then
          ignoreErr (storeWrite fail w'
            (Op.relayerCreate (mkRelayer r (lendingFeeOf r.Address lendings))))
        else
          ignoreErr (storeWrite fail w'
            (Op.relayerUpdate r.Address (mkRelayer r (lendingFeeOf r.Address lendings))))) =
      fun w' r => runOps fail w' [relayerWrite lendings w.mirror.relayers r] := by
    funext w' r
    simp only [relayerWrite, runOps_cons, runOps_nil, ignoreErr_eq]
    cases hf : w.mirror.relayers.any (fun v => decide (v.Address = r.Address)) <;> simp
  unfold updateRelayers RelayerDao.GetAll storeRead
  simp only [h]
  simp only [Bool.false_eq_true, if_false, scanBreak_eq_any, Bool.not_eq_true']
  rw [h4, hbody, foldl_runOps, ← map_eq_flatMap_single]
  unfold relayerOps relayerDeletes
  rw [runOps_append]
  rfl

theorem updateRelayers_readFail (fail : Oracle) (relayerInfos : List RInfo)
    (lendings : List LendingRInfo) (w : World) (h : fail w.calls = true) :
    updateRelayers fail relayerInfos lendings w = (afterRead w, some "store error") := by
  unfold updateRelayers RelayerDao.GetAll storeRead
  simp [h, afterRead]

end RelayerService

/-! ## The emitted calls -/

namespace RelayerService

theorem emitted_runOps (fail : Oracle) (w : World) (ops : List Op) :
    emitted w (runOps fail (afterRead w) ops) = ops := by
  simp [emitted, runOps_log, afterRead]

theorem updateTokenRelayer_emitted (fail : Oracle) (relayerInfo : RInfo) (w : World)
    (h : fail w.calls = false) :
    emitted w (updateTokenRelayer fail relayerInfo w).1 =
      tokenOps relayerInfo (tokensOf w.mirror relayerInfo.Address) := by
  rw [updateTokenRelayer_eq fail relayerInfo w h]
  exact emitted_runOps _ _ _

theorem updatePairRelayer_emitted (fail : Oracle) (relayerInfo : RInfo) (w : World)
    (h : fail w.calls = false) :
    emitted w (updatePairRelayer fail relayerInfo w).1 =
      pairOps relayerInfo (pairsOf w.mirror relayerInfo.Address) := by
  rw [updatePairRelayer_eq fail relayerInfo w h]
  exact emitted_runOps _ _ _

theorem updateRelayers_emitted (fail : Oracle) (relayerInfos : List RInfo)
    (lendings : List LendingRInfo) (w : World) (h : fail w.calls = false) :
    emitted w (updateRelayers fail relayerInfos lendings w).1 =
      relayerOps relayerInfos lendings w.mirror.relayers := by
  rw [updateRelayers_eq fail relayerInfos lendings w h]
  exact emitted_runOps _ _ _

theorem pairListed_iff (relayerInfo : RInfo) (c : Pair) :
    pairListed relayerInfo c = decide (pairKey c ∈ relayerInfo.Pairs.map tokenPairKey) := by
  rw [Bool.eq_iff_iff]
  simp only [pairListed, List.any_eq_true, decide_eq_true_eq, List.mem_map, pairKey,
    tokenPairKey, Prod.mk.injEq]
  constructor
  · rintro ⟨n, hn, h1, h2⟩
    exact ⟨n, hn, h1.symm, h2.symm⟩
  · rintro ⟨n, hn, h1, h2⟩
    exact ⟨n, hn, h1.symm, h2.symm⟩

theorem pairMirrored_iff (cur : List Pair) (n : PairToken) :
    pairMirrored cur n = decide (tokenPairKey n ∈ cur.map pairKey) := by
  rw [Bool.eq_iff_iff]
  simp only [pairMirrored, List.any_eq_true, decide_eq_true_eq, List.mem_map, pairKey,
    tokenPairKey, Prod.mk.injEq]
  constructor
  · rintro ⟨c, hc, h1, h2⟩
    exact ⟨c, hc, h1.symm, h2.symm⟩
  · rintro ⟨c, hc, h1, h2⟩
    exact ⟨c, hc, h1.symm, h2.symm⟩

theorem filterMap_const_none {α β : Type} (l : List α) :
    l.filterMap (fun _ => (none : Option β)) = [] := by
  induction l with
  | nil => rfl
  | cons x xs ih => simp [List.filterMap_cons, ih]

theorem filterMap_some_map {α β : Type} (f : α → β) (l : List α) :
    l.filterMap (fun x => some (f x)) = l.map f := by
  induction l with
  | nil => rfl
  | cons x xs ih => simp [List.filterMap_cons, ih]

theorem pairDeletesOf_pairOps (relayerInfo : RInfo) (cur : List Pair) :
    pairDeletesOf (pairOps relayerInfo cur) =
      (cur.filter (fun c => !pairListed relayerInfo c)).map
        (fun c => (c.BaseTokenAddress, c.QuoteTokenAddress, relayerInfo.Address)) := by
  simp [pairDeletesOf, pairOps, pairCreates, pairDeletes, List.filterMap_append,
    List.filterMap_map, Function.comp_def, filterMap_const_none, filterMap_some_map]

theorem pairCreatesOf_pairOps (relayerInfo : RInfo) (cur : List Pair) :
    pairCreatesOf (pairOps relayerInfo cur) =
      (relayerInfo.Pairs.filter (fun n => !pairMirrored cur n)).map (mkPair relayerInfo) := by
  simp [pairCreatesOf, pairOps, pairCreates, pairDeletes, List.filterMap_append,
    List.filterMap_map, Function.comp_def, filterMap_const_none, filterMap_some_map]

/-- C3: `updatePairRelayer` deletes, keyed by (base, quote, relayer address), exactly
the mirrored pairs whose (base, quote) key is not in the snapshot's pair list; every
call it attempts is a create of an active pair or such a delete, never a rewrite of
a flag; with an empty snapshot pair list it attempts one delete per mirrored pair
and nothing else. -/
theorem updatePairRelayer_deletes_unlisted (fail : Oracle) (relayerInfo : RInfo) (w : World)
    (hread : fail w.calls = false) :
    pairDeletesOf (emitted w (updatePairRelayer fail relayerInfo w).1) =
        ((pairsOf w.mirror relayerInfo.Address).filter
          (fun c => decide (pairKey c ∉ relayerInfo.Pairs.map tokenPairKey))).map
          (fun c => (c.BaseTokenAddress, c.QuoteTokenAddress, relayerInfo.Address)) ∧
      (∀ op ∈ emitted w (updatePairRelayer fail relayerInfo w).1,
        (∃ p, op = Op.pairCreate p ∧ p.Active = true) ∨
        (∃ c ∈ pairsOf w.mirror relayerInfo.Address,
          op = Op.pairDelete c.BaseTokenAddress c.QuoteTokenAddress relayerInfo.Address)) ∧
      (relayerInfo.Pairs = [] →
        emitted w (updatePairRelayer fail relayerInfo w).1 =
          (pairsOf w.mirror relayerInfo.Address).map
            (fun c => Op.pairDelete c.BaseTokenAddress c.QuoteTokenAddress
              relayerInfo.Address)) := by
  rw [updatePairRelayer_emitted fail relayerInfo w hread]
  refine ⟨?_, ?_, ?_⟩
  · rw [pairDeletesOf_pairOps]
    congr 1
    apply List.filter_congr
    intro c _
    rw [pairListed_iff]
    by_cases hk : pairKey c ∈ relayerInfo.Pairs.map tokenPairKey <;> simp [hk]
  · intro op hop
    simp only [pairOps, pairCreates, pairDeletes, List.mem_append, List.mem_map,
      List.mem_filter] at hop
    rcases hop with ⟨n, _, rfl⟩ | ⟨c, ⟨hc, _⟩, rfl⟩
    · exact Or.inl ⟨_, rfl, rfl⟩
    · exact Or.inr ⟨c, hc, rfl⟩
  · intro hnil
    simp [pairOps, pairCreates, pairDeletes, pairListed, hnil]

/-- The delete statement of C3 at `sampleInfo` against `sampleWorld`, where the read succeeds. -/
theorem updatePairRelayer_deletes_unlisted_witness :
    allSucceed sampleWorld.calls = false ∧
      pairDeletesOf (emitted sampleWorld (updatePairRelayer allSucceed sampleInfo sampleWorld).1) =
        ((pairsOf sampleWorld.mirror sampleInfo.Address).filter
          (fun c => decide (pairKey c ∉ sampleInfo.Pairs.map tokenPairKey))).map
          (fun c => (c.BaseTokenAddress, c.QuoteTokenAddress, sampleInfo.Address)) :=
  ⟨rfl, (updatePairRelayer_deletes_unlisted allSucceed sampleInfo sampleWorld rfl).1⟩

end RelayerService

namespace RelayerService

theorem mapIndex_of_mem (m : List (common.Address × TokenInfo)) (a : common.Address)
    (v : TokenInfo) (hmem : (a, v) ∈ m) (hnd : (m.map Prod.fst).Nodup) :
    mapIndex m a = v := by
  induction m with
  | nil => cases hmem
  | cons kv rest ih =>
    rcases kv with ⟨k, x⟩
    simp only [List.map_cons, List.nodup_cons, List.mem_map, not_exists, not_and] at hnd
    rcases List.mem_cons.1 hmem with heq | hin
    · cases heq
      simp [mapIndex, List.find?_cons]
    · have hne : k ≠ a := fun hka => hnd.1 (a, v) hin (by simp [hka])
      have := ih hin hnd.2
      simp only [mapIndex, List.find?_cons, hne, decide_False] at this ⊢
      exact this

/-- C6: the creates `updatePairRelayer` attempts are, in order, those of the
snapshot pairs whose (base, quote) key matches no pair mirrored for the relayer;
each created record is active, carries the relayer's address, the pair's addresses,
the symbol and decimals the token map holds for them, and the snapshot's fees. -/
theorem updatePairRelayer_creates_unmirrored (fail : Oracle) (relayerInfo : RInfo)
    (w : World) (hread : fail w.calls = false) :
    pairCreatesOf (emitted w (updatePairRelayer fail relayerInfo w).1) =
        (relayerInfo.Pairs.filter
          (fun n => decide (tokenPairKey n ∉
            (pairsOf w.mirror relayerInfo.Address).map pairKey))).map
          (fun n =>
            { BaseTokenSymbol := (mapIndex relayerInfo.Tokens n.BaseToken).Symbol
              BaseTokenAddress := n.BaseToken
              BaseTokenDecimals := ((mapIndex relayerInfo.Tokens n.BaseToken).Decimals : Int)
              QuoteTokenSymbol := (mapIndex relayerInfo.Tokens n.QuoteToken).Symbol
              QuoteTokenAddress := n.QuoteToken
              QuoteTokenDecimals := ((mapIndex relayerInfo.Tokens n.QuoteToken).Decimals : Int)
              RelayerAddress := relayerInfo.Address
              Active := true
              MakeFee := (relayerInfo.MakeFee : Int)
              TakeFee := (relayerInfo.TakeFee : Int) }) ∧
      (∀ a v, (a, v) ∈ relayerInfo.Tokens → (tokenKeys relayerInfo).Nodup →
        mapIndex relayerInfo.Tokens a = v) := by
  rw [updatePairRelayer_emitted fail relayerInfo w hread, pairCreatesOf_pairOps]
  refine ⟨?_, fun a v hmem hnd => mapIndex_of_mem _ a v hmem hnd⟩
  have hf : relayerInfo.Pairs.filter
        (fun n => !pairMirrored (pairsOf w.mirror relayerInfo.Address) n) =
      relayerInfo.Pairs.filter
        (fun n => decide (tokenPairKey n ∉
          (pairsOf w.mirror relayerInfo.Address).map pairKey)) := by
    apply List.filter_congr
    intro n _
    rw [pairMirrored_iff]
    by_cases hk : tokenPairKey n ∈ (pairsOf w.mirror relayerInfo.Address).map pairKey <;>
      simp [hk]
  rw [hf]
  rfl

/-- The create statement of C6 at `sampleInfo` against `sampleWorld`, where the read succeeds. -/
theorem updatePairRelayer_creates_unmirrored_witness :
    allSucceed sampleWorld.calls = false ∧
      pairCreatesOf (emitted sampleWorld
          (updatePairRelayer allSucceed sampleInfo sampleWorld).1) =
        (sampleInfo.Pairs.filter
          (fun n => decide (tokenPairKey n ∉
            (pairsOf sampleWorld.mirror sampleInfo.Address).map pairKey))).map
          (fun n =>
            { BaseTokenSymbol := (mapIndex sampleInfo.Tokens n.BaseToken).Symbol
              BaseTokenAddress := n.BaseToken
              BaseTokenDecimals := ((mapIndex sampleInfo.Tokens n.BaseToken).Decimals : Int)
              QuoteTokenSymbol := (mapIndex sampleInfo.Tokens n.QuoteToken).Symbol
              QuoteTokenAddress := n.QuoteToken
              QuoteTokenDecimals := ((mapIndex sampleInfo.Tokens n.QuoteToken).Decimals : Int)
              RelayerAddress := sampleInfo.Address
              Active := true
              MakeFee := (sampleInfo.MakeFee : Int)
              TakeFee := (sampleInfo.TakeFee : Int) }) :=
  ⟨rfl, (updatePairRelayer_creates_unmirrored allSucceed sampleInfo sampleWorld rfl).1⟩

end RelayerService

namespace RelayerService

/-- C4 fails on the code: for a snapshot whose token map is empty and a mirror
holding a token of that relayer, `updateTokenRelayer` attempts no call at all, so
the stale token is kept; the loop that deletes stale tokens is nested in the loop
over the token map. With a token map holding another token, the same stale token is
deleted. -/
theorem updateTokenRelayer_empty_map_deletes_nothing :
    emitted staleWorld (updateTokenRelayer allSucceed bareInfo staleWorld).1 = [] ∧
      (updateTokenRelayer allSucceed bareInfo staleWorld).1.mirror.tokens = [staleToken] ∧
      (updateTokenRelayer allSucceed bareInfo staleWorld).2 = none ∧
      staleToken.ContractAddress ∉ tokenKeys bareInfo ∧
      tokenDeletesOf (emitted staleWorld
        (updateTokenRelayer allSucceed oneTokenInfo staleWorld).1) = [(1, 9)] := by
  refine ⟨by decide, by decide, by decide, by decide, by decide⟩

theorem isTokenWriteFor_tokenWrite (relayerInfo : RInfo) (cur : List Token)
    (kv : common.Address × TokenInfo) (a : common.Address) :
    isTokenWriteFor a (tokenWrite relayerInfo cur kv) = decide (kv.1 = a) := by
  unfold tokenWrite
  split <;> simp [isTokenWriteFor, mkToken]

theorem filter_write_tokenDeletes (relayerInfo : RInfo) (cur : List Token)
    (a : common.Address) :
    (tokenDeletes relayerInfo cur).filter (isTokenWriteFor a) = [] := by
  rw [List.filter_eq_nil_iff]
  intro op hop
  simp only [tokenDeletes, List.mem_map] at hop
  rcases hop with ⟨c, _, rfl⟩
  simp [isTokenWriteFor]

theorem filter_write_flatMap (relayerInfo : RInfo) (cur : List Token) (a : common.Address)
    (l : List (common.Address × TokenInfo)) :
    (l.flatMap (fun kv => tokenWrite relayerInfo cur kv :: tokenDeletes relayerInfo cur)).filter
        (isTokenWriteFor a) =
      (l.filter (fun kv => decide (kv.1 = a))).map (tokenWrite relayerInfo cur) := by
  induction l with
  | nil => rfl
  | cons kv rest ih =>
    simp only [List.flatMap_cons, List.filter_append, List.filter_cons,
      isTokenWriteFor_tokenWrite, filter_write_tokenDeletes, ih]
    by_cases hk : kv.1 = a <;> simp [hk]

theorem filter_key_of_nodup (l : List (common.Address × TokenInfo)) (a : common.Address)
    (v : TokenInfo) (hmem : (a, v) ∈ l) (hnd : (l.map Prod.fst).Nodup) :
    l.filter (fun kv => decide (kv.1 = a)) = [(a, v)] := by
  induction l with
  | nil => cases hmem
  | cons kv rest ih =>
    rcases kv with ⟨k, x⟩
    simp only [List.map_cons, List.nodup_cons, List.mem_map, not_exists, not_and] at hnd
    rcases List.mem_cons.1 hmem with heq | hin
    · cases heq
      have hrest : rest.filter (fun kv => decide (kv.1 = a)) = [] := by
        rw [List.filter_eq_nil_iff]
        intro kv hkv hk
        exact hnd.1 kv hkv (by simpa using hk)
      simp [List.filter_cons, hrest]
    · have hne : k ≠ a := fun hka => hnd.1 (a, v) hin (by simp [hka])
      simp [List.filter_cons, hne, ih hin hnd.2]

theorem tokenMirrored_iff (cur : List Token) (a : common.Address) :
    tokenMirrored cur a = decide (a ∈ cur.map (fun c => c.ContractAddress)) := by
  rw [Bool.eq_iff_iff]
  simp only [tokenMirrored, List.any_eq_true, decide_eq_true_eq, List.mem_map]
  constructor
  · rintro ⟨c, hc, h⟩
    exact ⟨c, hc, h.symm⟩
  · rintro ⟨c, hc, h⟩
    exact ⟨c, hc, h.symm⟩

theorem tokenListed_iff (relayerInfo : RInfo) (c : Token) :
    tokenListed relayerInfo c = decide (c.ContractAddress ∈ tokenKeys relayerInfo) := by
  rw [Bool.eq_iff_iff]
  simp only [tokenListed, tokenKeys, List.any_eq_true, decide_eq_true_eq, List.mem_map]
  constructor
  · rintro ⟨kv, hkv, h⟩
    exact ⟨kv, hkv, h.symm⟩
  · rintro ⟨kv, hkv, h⟩
    exact ⟨kv, hkv, h.symm⟩

/-- C5: for every entry `(a, v)` of the snapshot's token map, `updateTokenRelayer`
attempts exactly one write for `a`: an update keyed by (a, relayer address) when a
token with contract address `a` is mirrored for the relayer, a create otherwise; the
record written carries `v`'s symbol and decimals, the relayer's address and the
snapshot's fees. -/
theorem updateTokenRelayer_one_write_per_token (fail : Oracle) (relayerInfo : RInfo)
    (w : World) (a : common.Address) (v : TokenInfo) (hread : fail w.calls = false)
    (hkeys : (tokenKeys relayerInfo).Nodup) (hmem : (a, v) ∈ relayerInfo.Tokens) :
    (emitted w (updateTokenRelayer fail relayerInfo w).1).filter (isTokenWriteFor a) =
      [ if a ∈ (tokensOf w.mirror relayerInfo.Address).map (fun c => c.ContractAddress) then
          Op.tokenUpdate a relayerInfo.Address
            { Symbol := v.Symbol, ContractAddress := a,
              RelayerAddress := relayerInfo.Address, Decimals := (v.Decimals : Int),
              MakeFee := (relayerInfo.MakeFee : Int), TakeFee := (relayerInfo.TakeFee : Int) }
        else
          Op.tokenCreate
            { Symbol := v.Symbol, ContractAddress := a,
              RelayerAddress := relayerInfo.Address, Decimals := (v.Decimals : Int),
              MakeFee := (relayerInfo.MakeFee : Int),
              TakeFee := (relayerInfo.TakeFee : Int) } ] := by
  rw [updateTokenRelayer_emitted fail relayerInfo w hread]
  unfold tokenOps
  rw [filter_write_flatMap, filter_key_of_nodup relayerInfo.Tokens a v hmem hkeys]
  simp only [List.map_cons, List.map_nil, tokenWrite, tokenMirrored_iff, mkToken,
    decide_eq_true_eq]

/-- The statement of C5 at token 2 of `oneTokenInfo` against `staleWorld`. -/
theorem updateTokenRelayer_one_write_per_token_witness :
    allSucceed staleWorld.calls = false ∧ (tokenKeys oneTokenInfo).Nodup ∧
      (2, ({ Symbol := "NEW", Decimals := 8 } : TokenInfo)) ∈ oneTokenInfo.Tokens ∧
      (emitted staleWorld (updateTokenRelayer allSucceed oneTokenInfo staleWorld).1).filter
          (isTokenWriteFor 2) =
        [ if 2 ∈ (tokensOf staleWorld.mirror oneTokenInfo.Address).map
              (fun c => c.ContractAddress) then
            Op.tokenUpdate 2 oneTokenInfo.Address
              { Symbol := "NEW", ContractAddress := 2,
                RelayerAddress := oneTokenInfo.Address, Decimals := ((8 : Nat) : Int),
                MakeFee := (oneTokenInfo.MakeFee : Int),
                TakeFee := (oneTokenInfo.TakeFee : Int) }
          else
            Op.tokenCreate
              { Symbol := "NEW", ContractAddress := 2,
                RelayerAddress := oneTokenInfo.Address, Decimals := ((8 : Nat) : Int),
                MakeFee := (oneTokenInfo.MakeFee : Int),
                TakeFee := (oneTokenInfo.TakeFee : Int) } ] :=
  ⟨rfl, by decide, by decide,
    updateTokenRelayer_one_write_per_token allSucceed oneTokenInfo staleWorld 2
      { Symbol := "NEW", Decimals := 8 } rfl (by decide) (by decide)⟩

/-- C7 fails on the single-relayer path: `updateRelayer` writes the fee of whatever
lending entry it is handed, here the fee 7 of an entry of relayer 2 into the record
of relayer 9, where the scan of the full-fleet path yields zero; handed a nil entry
it panics. -/
theorem updateRelayer_ignores_lending_address :
    emitted emptyWorld (updateRelayer allSucceed bareInfo (some otherLending) emptyWorld).1 =
        [Op.relayerCreate (mkRelayer bareInfo 7)] ∧
      (mkRelayer bareInfo 7).LendingFee = 7 ∧
      otherLending.Address ≠ bareInfo.Address ∧
      lendingFeeOf bareInfo.Address [otherLending] = 0 ∧
      emitted emptyWorld (updateRelayers allSucceed [bareInfo] [otherLending] emptyWorld).1 =
        [Op.relayerCreate (mkRelayer bareInfo 0)] ∧
      (updateRelayer allSucceed bareInfo none emptyWorld).2 = Outcome.panicked ∧
      emitted emptyWorld
          (UpdateRelayer allSucceed (.ok bareInfo) (.ok (some otherLending)) emptyWorld).1 =
        [Op.relayerCreate (mkRelayer bareInfo 7)] := by
  refine ⟨by decide, by decide, by decide, by decide, by decide, by decide, by decide⟩

/-- C9: when the initial read succeeds, the calls `updateTokenRelayer`,
`updatePairRelayer` and `updateRelayers` attempt are the same under any two error
oracles, and each routine returns nil. -/
theorem attempted_calls_independent_of_errors (fail fail' : Oracle) (relayerInfo : RInfo)
    (relayerInfos : List RInfo) (lendings : List LendingRInfo) (w : World)
    (hread : fail w.calls = false) (hread' : fail' w.calls = false) :
    (emitted w (updateTokenRelayer fail relayerInfo w).1 =
        emitted w (updateTokenRelayer fail' relayerInfo w).1 ∧
      (updateTokenRelayer fail relayerInfo w).2 = none) ∧
    (emitted w (updatePairRelayer fail relayerInfo w).1 =
        emitted w (updatePairRelayer fail' relayerInfo w).1 ∧
      (updatePairRelayer fail relayerInfo w).2 = none) ∧
    (emitted w (updateRelayers fail relayerInfos lendings w).1 =
        emitted w (updateRelayers fail' relayerInfos lendings w).1 ∧
      (updateRelayers fail relayerInfos lendings w).2 = none) := by
  refine ⟨⟨?_, ?_⟩, ⟨?_, ?_⟩, ⟨?_, ?_⟩⟩
  · rw [updateTokenRelayer_emitted fail relayerInfo w hread,
      updateTokenRelayer_emitted fail' relayerInfo w hread']
  · rw [updateTokenRelayer_eq fail relayerInfo w hread]
  · rw [updatePairRelayer_emitted fail relayerInfo w hread,
      updatePairRelayer_emitted fail' relayerInfo w hread']
  · rw [updatePairRelayer_eq fail relayerInfo w hread]
  · rw [updateRelayers_emitted fail relayerInfos lendings w hread,
      updateRelayers_emitted fail' relayerInfos lendings w hread']
  · rw [updateRelayers_eq fail relayerInfos lendings w hread]

/-- The statement of C9 for an oracle failing the first write and the oracle failing nothing. -/
theorem attempted_calls_independent_of_errors_witness :
    secondCallFails staleWorld.calls = false ∧ allSucceed staleWorld.calls = false ∧
      emitted staleWorld (updateTokenRelayer secondCallFails oneTokenInfo staleWorld).1 =
        emitted staleWorld (updateTokenRelayer allSucceed oneTokenInfo staleWorld).1 ∧
      (updateTokenRelayer secondCallFails oneTokenInfo staleWorld).2 = none :=
  ⟨rfl, rfl,
    (attempted_calls_independent_of_errors secondCallFails allSucceed oneTokenInfo
      [oneTokenInfo] [] staleWorld rfl rfl).1⟩

end RelayerService

/-! ## Pair listing -/

namespace PairDao

theorem dedupLoop_foldl (res : List Pair) (acc : List Pair)
    (seen : List (common.Address × common.Address)) :
    (res.foldl
      (fun (st : List Pair × List (common.Address × common.Address)) it =>
        let code := (it.BaseTokenAddress, it.QuoteTokenAddress)
        if code ∈ st.2 then st else (st.1 ++ [it], code :: st.2))
      (acc, seen)).1 = acc ++ keptFrom seen res := by
  induction res generalizing acc seen with
  | nil => simp [keptFrom]
  | cons it rest ih =>
    simp only [List.foldl_cons, keptFrom, pairKey]
    by_cases h : (it.BaseTokenAddress, it.QuoteTokenAddress) ∈ seen
    · simp only [h, if_true]
      exact ih acc seen
    · simp only [h, if_false]
      rw [ih]
      simp

theorem dedupLoop_eq (res : List Pair) : (dedupLoop res).1 = keptFrom [] res := by
  unfold dedupLoop
  rw [dedupLoop_foldl]
  simp

theorem keptFrom_sublist (seen : List (common.Address × common.Address)) (res : List Pair) :
    (keptFrom seen res).Sublist res := by
  induction res generalizing seen with
  | nil => simp [keptFrom]
  | cons it rest ih =>
    unfold keptFrom
    split
    · exact (ih seen).cons it
    · exact (ih _).cons₂ it

theorem keptFrom_not_seen (seen : List (common.Address × common.Address)) (res : List Pair)
    (p : Pair) (hp : p ∈ keptFrom seen res) : pairKey p ∉ seen := by
  induction res generalizing seen with
  | nil => simp [keptFrom] at hp
  | cons it rest ih =>
    unfold keptFrom at hp
    split at hp
    · exact ih seen hp
    · rename_i hnot
      rcases List.mem_cons.1 hp with rfl | hin
      · exact hnot
      · exact fun hmem => ih _ hin (List.mem_cons_of_mem _ hmem)

theorem keptFrom_nodup (seen : List (common.Address × common.Address)) (res : List Pair) :
    ((keptFrom seen res).map pairKey).Nodup := by
  induction res generalizing seen with
  | nil => simp [keptFrom]
  | cons it rest ih =>
    unfold keptFrom
    split
    · exact ih seen
    · simp only [List.map_cons, List.nodup_cons, List.mem_map, not_exists, not_and]
      refine ⟨?_, ih _⟩
      intro p hp hk
      exact keptFrom_not_seen _ rest p hp (by simp [hk])

theorem keptFrom_filter_seen (seen : List (common.Address × common.Address))
    (res : List Pair) (k : common.Address × common.Address) (hk : k ∈ seen) :
    (keptFrom seen res).filter (fun q => decide (pairKey q = k)) = [] := by
  rw [List.filter_eq_nil_iff]
  intro q hq hqk
  have := keptFrom_not_seen seen res q hq
  simp only [decide_eq_true_eq] at hqk
  exact this (hqk ▸ hk)

theorem keptFrom_filter (seen : List (common.Address × common.Address)) (res : List Pair)
    (k : common.Address × common.Address) (hk : k ∉ seen) :
    (keptFrom seen res).filter (fun q => decide (pairKey q = k)) =
      (res.find? (fun q => decide (pairKey q = k))).toList := by
  induction res generalizing seen with
  | nil => simp [keptFrom]
  | cons it rest ih =>
    unfold keptFrom
    by_cases hit : pairKey it = k
    · subst hit
      simp only [hk, if_false, List.filter_cons, decide_True, if_true, List.find?_cons,
        Option.toList]
      rw [keptFrom_filter_seen _ rest (pairKey it) (List.mem_cons_self _ _)]
    · by_cases hs : pairKey it ∈ seen
      · simp only [hs, if_true, List.find?_cons, hit, decide_False]
        exact ih seen hk
      · simp only [hs, if_false, List.filter_cons, hit, decide_False, List.find?_cons]
        apply ih
        intro hmem
        rcases List.mem_cons.1 hmem with h | h
        · exact hit h.symm
        · exact hk h

/-- C10: on a successful read of the stored list `res`, `GetActivePairs`, `GetAll`
and `GetActivePairsByCoinbase` return the same list `ret`: a sublist of `res` with
pairwise distinct (base, quote) keys in which, for every stored record, the entries
with that record's key are exactly one, the first stored record with that key. So
when two relayers list the same pair, the first stored entry alone is returned. -/
theorem listing_keeps_first_per_key (res : List Pair) :
    ∃ ret : List Pair,
      GetActivePairs (.ok res) = .ok ret ∧ GetAll (.ok res) = .ok ret ∧
      GetActivePairsByCoinbase (.ok res) = .ok ret ∧
      ret.Sublist res ∧ (ret.map pairKey).Nodup ∧
      (∀ p ∈ res, ∃ first,
        res.find? (fun q => decide (pairKey q = pairKey p)) = some first ∧
        ret.filter (fun q => decide (pairKey q = pairKey p)) = [first]) ∧
      (∀ q ∈ ret, q ∈ res) ∧
      GetActivePairs (.ok [pairOfR1, pairOfR2]) = .ok [pairOfR1] := by
  refine ⟨keptFrom [] res, ?_, ?_, ?_, keptFrom_sublist _ _, keptFrom_nodup _ _, ?_,
    fun q hq => (keptFrom_sublist [] res).subset hq, rfl⟩
  · cases res with
    | nil => simp [GetActivePairs, keptFrom]
    | cons it rest => simp [GetActivePairs, dedupLoop_eq]
  · simp [GetAll, dedupLoop_eq]
  · cases res with
    | nil => simp [GetActivePairsByCoinbase, keptFrom]
    | cons it rest => simp [GetActivePairsByCoinbase, dedupLoop_eq]
  · intro p hp
    have hsome : (res.find? (fun q => decide (pairKey q = pairKey p))).isSome := by
      rw [List.find?_isSome]
      exact ⟨p, hp, by simp⟩
    obtain ⟨first, hfirst⟩ := Option.isSome_iff_exists.1 hsome
    refine ⟨first, hfirst, ?_⟩
    rw [keptFrom_filter [] res (pairKey p) (by simp), hfirst]
    rfl

end PairDao

/-! ## What a pass may touch -/

namespace RelayerService

theorem UpdateRelayers_ok (fail : Oracle) (relayerInfos : List RInfo)
    (lendings : List LendingRInfo) (w : World) :
    UpdateRelayers fail (.ok relayerInfos) (.ok lendings) w =
      ((updateRelayers fail relayerInfos lendings
        (relayerInfos.foldl (relayerPass fail) w)).1, none) := rfl

theorem runOps_mirror_inv (I : Mirror → Prop) (fail : Oracle) (ops : List Op) (w : World)
    (hstep : ∀ op ∈ ops, ∀ m, I m → I (applyOp m op)) (h0 : I w.mirror) :
    I (runOps fail w ops).mirror := by
  induction ops generalizing w with
  | nil => exact h0
  | cons op rest ih =>
    rw [runOps_cons]
    apply ih
    · intro op' hop'
      exact hstep op' (List.mem_cons_of_mem _ hop')
    · unfold storeWrite
      split
      · exact h0
      · exact hstep op (List.mem_cons_self _ _) _ h0

theorem tokenOps_touchesOnly (relayerInfo : RInfo) (cur : List Token) :
    ∀ op ∈ tokenOps relayerInfo cur, touchesOnly relayerInfo.Address op := by
  intro op hop
  simp only [tokenOps, List.mem_flatMap, List.mem_cons] at hop
  rcases hop with ⟨kv, _, rfl | hdel⟩
  · unfold tokenWrite
    split <;> simp [touchesOnly, mkToken]
  · simp only [tokenDeletes, List.mem_map] at hdel
    rcases hdel with ⟨c, _, rfl⟩
    simp [touchesOnly]

theorem pairOps_touchesOnly (relayerInfo : RInfo) (cur : List Pair) :
    ∀ op ∈ pairOps relayerInfo cur, touchesOnly relayerInfo.Address op := by
  intro op hop
  simp only [pairOps, pairCreates, pairDeletes, List.mem_append, List.mem_map] at hop
  rcases hop with ⟨n, _, rfl⟩ | ⟨c, _, rfl⟩
  · simp [touchesOnly, mkPair]
  · simp [touchesOnly]

theorem relayerOps_isRelayerOp (relayerInfos : List RInfo) (lendings : List LendingRInfo)
    (cur : List Relayer) : ∀ op ∈ relayerOps relayerInfos lendings cur, isRelayerOp op := by
  intro op hop
  simp only [relayerOps, relayerDeletes, List.mem_append, List.mem_map] at hop
  rcases hop with ⟨r, _, rfl⟩ | ⟨r, _, rfl⟩
  · unfold relayerWrite
    split <;> simp [isRelayerOp]
  · simp [isRelayerOp]

theorem updateTokenRelayer_mirror_inv (I : Mirror → Prop) (fail : Oracle) (relayerInfo : RInfo)
    (w : World)
    (hstep : ∀ op, touchesOnly relayerInfo.Address op → ∀ m, I m → I (applyOp m op))
    (h0 : I w.mirror) : I (updateTokenRelayer fail relayerInfo w).1.mirror := by
  cases h : fail w.calls
  · rw [updateTokenRelayer_eq fail relayerInfo w h]
    exact runOps_mirror_inv I fail _ _
      (fun op hop => hstep op (tokenOps_touchesOnly _ _ op hop)) h0
  · rw [updateTokenRelayer_readFail fail relayerInfo w h]
    exact h0

theorem updatePairRelayer_mirror_inv (I : Mirror → Prop) (fail : Oracle) (relayerInfo : RInfo)
    (w : World)
    (hstep : ∀ op, touchesOnly relayerInfo.Address op → ∀ m, I m → I (applyOp m op))
    (h0 : I w.mirror) : I (updatePairRelayer fail relayerInfo w).1.mirror := by
  cases h : fail w.calls
  · rw [updatePairRelayer_eq fail relayerInfo w h]
    exact runOps_mirror_inv I fail _ _
      (fun op hop => hstep op (pairOps_touchesOnly _ _ op hop)) h0
  · rw [updatePairRelayer_readFail fail relayerInfo w h]
    exact h0

theorem updateRelayers_mirror_inv (I : Mirror → Prop) (fail : Oracle)
    (relayerInfos : List RInfo) (lendings : List LendingRInfo) (w : World)
    (hstep : ∀ op, isRelayerOp op → ∀ m, I m → I (applyOp m op))
    (h0 : I w.mirror) : I (updateRelayers fail relayerInfos lendings w).1.mirror := by
  cases h : fail w.calls
  · rw [updateRelayers_eq fail relayerInfos lendings w h]
    exact runOps_mirror_inv I fail _ _
      (fun op hop => hstep op (relayerOps_isRelayerOp _ _ _ op hop)) h0
  · rw [updateRelayers_readFail fail relayerInfos lendings w h]
    exact h0

theorem relayerPass_mirror_inv (I : Mirror → Prop) (fail : Oracle) (relayerInfo : RInfo)
    (w : World)
    (hstep : ∀ op, touchesOnly relayerInfo.Address op → ∀ m, I m → I (applyOp m op))
    (h0 : I w.mirror) : I (relayerPass fail w relayerInfo).mirror :=
  updatePairRelayer_mirror_inv I fail relayerInfo _ hstep
    (updateTokenRelayer_mirror_inv I fail relayerInfo w hstep h0)

theorem passes_mirror_inv (I : Mirror → Prop) (fail : Oracle) (relayerInfos : List RInfo)
    (w : World)
    (hstep : ∀ r ∈ relayerInfos, ∀ op, touchesOnly r.Address op →
      ∀ m, I m → I (applyOp m op))
    (h0 : I w.mirror) : I (relayerInfos.foldl (relayerPass fail) w).mirror := by
  induction relayerInfos generalizing w with
  | nil => exact h0
  | cons r rest ih =>
    rw [List.foldl_cons]
    apply ih
    · intro r' hr'
      exact hstep r' (List.mem_cons_of_mem _ hr')
    · exact relayerPass_mirror_inv I fail r w (hstep r (List.mem_cons_self _ _)) h0

/-- A call made for relayer `c` leaves the tokens of other relayers as they are. -/
theorem applyOp_tokens_frame (c : common.Address) (keep : Token → Bool)
    (hkeep : ∀ t, keep t = true → t.RelayerAddress ≠ c) (op : Op)
    (hop : touchesOnly c op) (m : Mirror) :
    (applyOp m op).tokens.filter keep = m.tokens.filter keep := by
  have hfalse : ∀ t : Token, t.RelayerAddress = c → keep t = false := by
    intro t ht
    cases hk : keep t
    · rfl
    · exact absurd ht (hkeep t hk)
  cases op with
  | tokenCreate t =>
    simp [applyOp, List.filter_append, List.filter_cons, hfalse t hop]
  | tokenUpdate a c' t =>
    obtain ⟨rfl, ht, _⟩ := hop
    simp only [applyOp]
    induction m.tokens with
    | nil => rfl
    | cons x xs ih =>
      simp only [List.map_cons, List.filter_cons]
      by_cases hx : x.ContractAddress = a ∧ x.RelayerAddress = c'
      · simp [hx, hfalse t ht, hfalse x hx.2, ih]
      · simp only [hx, if_false, ih]
  | tokenDelete a c' =>
    simp only [touchesOnly] at hop
    subst hop
    simp only [applyOp, List.filter_filter]
    apply List.filter_congr
    intro x _
    cases hk : keep x
    · simp
    · have := hkeep x hk
      simp [this]
  | pairCreate p => rfl
  | pairDelete b q c' => rfl
  | relayerCreate r => rfl
  | relayerUpdate a r => rfl
  | relayerDelete a => rfl

/-- A call made for relayer `c` leaves the pairs of other relayers as they are. -/
theorem applyOp_pairs_frame (c : common.Address) (keep : Pair → Bool)
    (hkeep : ∀ p, keep p = true → p.RelayerAddress ≠ c) (op : Op)
    (hop : touchesOnly c op) (m : Mirror) :
    (applyOp m op).pairs.filter keep = m.pairs.filter keep := by
  have hfalse : ∀ p : Pair, p.RelayerAddress = c → keep p = false := by
    intro p hp
    cases hk : keep p
    · rfl
    · exact absurd hp (hkeep p hk)
  cases op with
  | pairCreate p =>
    simp [applyOp, List.filter_append, List.filter_cons, hfalse p hop]
  | pairDelete b q c' =>
    simp only [touchesOnly] at hop
    subst hop
    simp only [applyOp, List.filter_filter]
    apply List.filter_congr
    intro x _
    cases hk : keep x
    · simp
    · have := hkeep x hk
      simp [this]
  | tokenCreate t => rfl
  | tokenUpdate a c' t => rfl
  | tokenDelete a c' => rfl
  | relayerCreate r => rfl
  | relayerUpdate a r => rfl
  | relayerDelete a => rfl

/-- A call on the relayer collection leaves the tokens and the pairs as they are. -/
theorem applyOp_relayerOp_frame (op : Op) (hop : isRelayerOp op) (m : Mirror) :
    (applyOp m op).tokens = m.tokens ∧ (applyOp m op).pairs = m.pairs := by
  cases op <;> first | exact ⟨rfl, rfl⟩ | exact absurd hop (by simp [isRelayerOp])

/-- A token or pair call leaves the relayer collection as it is. -/
theorem applyOp_relayers_frame (c : common.Address) (op : Op) (hop : touchesOnly c op)
    (m : Mirror) : (applyOp m op).relayers = m.relayers := by
  cases op <;> first | rfl | exact absurd hop (by simp [touchesOnly])

end RelayerService

namespace RelayerService

theorem pass_log_step (fail : Oracle) (relayerInfo : RInfo) (w : World)
    (Pr : Op → Prop) (hone : ∀ op, touchesOnly relayerInfo.Address op → Pr op)
    (h0 : ∀ op ∈ w.log, Pr op) :
    (∀ op ∈ (updateTokenRelayer fail relayerInfo w).1.log, Pr op) ∧
      (∀ op ∈ (updatePairRelayer fail relayerInfo w).1.log, Pr op) := by
  cases h : fail w.calls
  · rw [updateTokenRelayer_eq fail relayerInfo w h, updatePairRelayer_eq fail relayerInfo w h]
    simp only [runOps_log, afterRead, List.mem_append]
    constructor
    · rintro op (hop | hop)
      · exact h0 op hop
      · exact hone op (tokenOps_touchesOnly _ _ op hop)
    · rintro op (hop | hop)
      · exact h0 op hop
      · exact hone op (pairOps_touchesOnly _ _ op hop)
  · rw [updateTokenRelayer_readFail fail relayerInfo w h,
      updatePairRelayer_readFail fail relayerInfo w h]
    exact ⟨h0, h0⟩

theorem relayerPass_log_forall (fail : Oracle) (relayerInfo : RInfo) (w : World)
    (Pr : Op → Prop) (hone : ∀ op, touchesOnly relayerInfo.Address op → Pr op)
    (h0 : ∀ op ∈ w.log, Pr op) : ∀ op ∈ (relayerPass fail w relayerInfo).log, Pr op :=
  (pass_log_step fail relayerInfo _ Pr hone
    (pass_log_step fail relayerInfo w Pr hone h0).1).2

theorem passes_log_forall (fail : Oracle) (relayerInfos : List RInfo) (w : World)
    (Pr : Op → Prop)
    (hone : ∀ r ∈ relayerInfos, ∀ op, touchesOnly r.Address op → Pr op)
    (h0 : ∀ op ∈ w.log, Pr op) :
    ∀ op ∈ (relayerInfos.foldl (relayerPass fail) w).log, Pr op := by
  induction relayerInfos generalizing w with
  | nil => exact h0
  | cons r rest ih =>
    rw [List.foldl_cons]
    apply ih
    · intro r' hr'
      exact hone r' (List.mem_cons_of_mem _ hr')
    · exact relayerPass_log_forall fail r w Pr (hone r (List.mem_cons_self _ _)) h0

theorem foldl_applyOp_inv (I : Mirror → Prop) (ops : List Op) (m : Mirror)
    (hstep : ∀ op ∈ ops, ∀ m, I m → I (applyOp m op)) (h0 : I m) :
    I (ops.foldl applyOp m) := by
  induction ops generalizing m with
  | nil => exact h0
  | cons op rest ih =>
    rw [List.foldl_cons]
    exact ih _ (fun op' hop' => hstep op' (List.mem_cons_of_mem _ hop'))
      (hstep op (List.mem_cons_self _ _) m h0)

/-- A property every call of a list preserves, and that holds at the start or is
brought about by one of the calls, holds at the end. -/
theorem foldl_applyOp_establish (I : Mirror → Prop) (ops : List Op) (m : Mirror)
    (hstep : ∀ op ∈ ops, ∀ m, I m → I (applyOp m op))
    (h : I m ∨ ∃ op ∈ ops, ∀ m, I (applyOp m op)) : I (ops.foldl applyOp m) := by
  induction ops generalizing m with
  | nil =>
    rcases h with h | ⟨op, hop, _⟩
    · exact h
    · cases hop
  | cons op rest ih =>
    rw [List.foldl_cons]
    apply ih _ (fun op' hop' => hstep op' (List.mem_cons_of_mem _ hop'))
    rcases h with h | ⟨op0, hop0, hest⟩
    · exact Or.inl (hstep op (List.mem_cons_self _ _) m h)
    · rcases List.mem_cons.1 hop0 with rfl | hin
      · exact Or.inl (hest m)
      · exact Or.inr ⟨op0, hin, hest⟩

theorem relayerUpdate_addresses (a : common.Address) (r : Relayer) (h : r.Address = a)
    (m : Mirror) :
    (applyOp m (.relayerUpdate a r)).relayers.map (fun x => x.Address) =
      m.relayers.map (fun x => x.Address) := by
  simp only [applyOp, List.map_map]
  apply List.map_congr_left
  intro x _
  by_cases hx : x.Address = a <;> simp [hx, h]

/-- After the relayer pass every snapshot address is mirrored. -/
theorem relayerOps_present (relayerInfos : List RInfo) (lendings : List LendingRInfo)
    (m : Mirror) (a : common.Address) (ha : a ∈ snapshotAddresses relayerInfos) :
    a ∈ ((relayerOps relayerInfos lendings m.relayers).foldl applyOp m).relayers.map
      (fun x => x.Address) := by
  apply foldl_applyOp_establish
    (fun m' => a ∈ m'.relayers.map (fun x => x.Address))
  · intro op hop m' hm'
    simp only [relayerOps, relayerDeletes, List.mem_append, List.mem_map, List.mem_filter] at hop
    rcases hop with ⟨r, _, rfl⟩ | ⟨r, ⟨_, hr⟩, rfl⟩
    · unfold relayerWrite
      split
      · rw [relayerUpdate_addresses r.Address (mkRelayer r (lendingFeeOf r.Address lendings))
          rfl m']
        exact hm'
      · simp only [applyOp, List.map_append, List.mem_append]
        exact Or.inl hm'
    · have hne : a ≠ r.Address := by
        rintro rfl
        simp only [Bool.not_eq_true', List.any_eq_false, decide_eq_true_eq] at hr
        simp only [snapshotAddresses, List.mem_map] at ha
        obtain ⟨v, hv, hva⟩ := ha
        exact hr v hv hva
      simp only [applyOp, List.mem_map, List.mem_filter] at hm' ⊢
      obtain ⟨x, hx, rfl⟩ := hm'
      exact ⟨x, ⟨hx, by simpa using hne⟩, rfl⟩
  · simp only [snapshotAddresses, List.mem_map] at ha
    obtain ⟨r, hr, rfl⟩ := ha
    cases hfound : m.relayers.any (fun v => decide (v.Address = r.Address))
    · right
      refine ⟨relayerWrite lendings m.relayers r, ?_, ?_⟩
      · simp only [relayerOps, List.mem_append, List.mem_map]
        exact Or.inl ⟨r, hr, rfl⟩
      · intro m'
        have hw : relayerWrite lendings m.relayers r =
            Op.relayerCreate (mkRelayer r (lendingFeeOf r.Address lendings)) := by
          simp [relayerWrite, hfound]
        rw [hw]
        simp [applyOp, mkRelayer]
    · left
      simp only [List.any_eq_true, decide_eq_true_eq] at hfound
      obtain ⟨v, hv, hva⟩ := hfound
      exact List.mem_map.2 ⟨v, hv, hva⟩

/-- After the relayer pass no address outside the snapshot is mirrored. -/
theorem relayerOps_absent (relayerInfos : List RInfo) (lendings : List LendingRInfo)
    (m : Mirror) (b : common.Address) (hb : b ∉ snapshotAddresses relayerInfos) :
    b ∉ ((relayerOps relayerInfos lendings m.relayers).foldl applyOp m).relayers.map
      (fun x => x.Address) := by
  apply foldl_applyOp_establish
    (fun m' => b ∉ m'.relayers.map (fun x => x.Address))
  · intro op hop m' hm'
    simp only [relayerOps, relayerDeletes, List.mem_append, List.mem_map, List.mem_filter] at hop
    rcases hop with ⟨r, hr, rfl⟩ | ⟨r, _, rfl⟩
    · have hne : r.Address ≠ b := by
        rintro rfl
        exact hb (List.mem_map.2 ⟨r, hr, rfl⟩)
      unfold relayerWrite
      split
      · rw [relayerUpdate_addresses r.Address (mkRelayer r (lendingFeeOf r.Address lendings))
          rfl m']
        exact hm'
      · simp only [applyOp, List.map_append, List.mem_append, not_or]
        exact ⟨hm', by simpa [mkRelayer] using hne.symm⟩
    · intro hmem
      apply hm'
      simp only [applyOp, List.mem_map, List.mem_filter] at hmem ⊢
      obtain ⟨x, ⟨hx, _⟩, rfl⟩ := hmem
      exact ⟨x, hx, rfl⟩
  · by_cases hcur : b ∈ m.relayers.map (fun x => x.Address)
    · right
      obtain ⟨x, hx, rfl⟩ := List.mem_map.1 hcur
      refine ⟨Op.relayerDelete x.Address, ?_, ?_⟩
      · simp only [relayerOps, relayerDeletes, List.mem_append, List.mem_map, List.mem_filter]
        refine Or.inr ⟨x, ⟨hx, ?_⟩, rfl⟩
        simp only [Bool.not_eq_true', List.any_eq_false, decide_eq_true_eq]
        intro v hv hva
        exact hb (List.mem_map.2 ⟨v, hv, hva⟩)
      · intro m'
        simp [applyOp, List.mem_filter]
    · exact Or.inl hcur

end RelayerService

namespace RelayerService

theorem relayerDeletesOf_append (xs ys : List Op) :
    relayerDeletesOf (xs ++ ys) = relayerDeletesOf xs ++ relayerDeletesOf ys := by
  simp [relayerDeletesOf, List.filterMap_append]

theorem relayerDeletesOf_eq_nil_of (ops : List Op)
    (h : ∀ op ∈ ops, ∀ a, op ≠ Op.relayerDelete a) : relayerDeletesOf ops = [] := by
  induction ops with
  | nil => rfl
  | cons op rest ih =>
    have hrest := ih (fun op' hop' => h op' (List.mem_cons_of_mem _ hop'))
    have hop := h op (List.mem_cons_self _ _)
    cases op with
    | relayerDelete a => exact absurd rfl (hop a)
    | tokenCreate t => simpa [relayerDeletesOf, List.filterMap_cons] using hrest
    | tokenUpdate a c t => simpa [relayerDeletesOf, List.filterMap_cons] using hrest
    | tokenDelete a c => simpa [relayerDeletesOf, List.filterMap_cons] using hrest
    | pairCreate p => simpa [relayerDeletesOf, List.filterMap_cons] using hrest
    | pairDelete b q c => simpa [relayerDeletesOf, List.filterMap_cons] using hrest
    | relayerCreate r => simpa [relayerDeletesOf, List.filterMap_cons] using hrest
    | relayerUpdate a r => simpa [relayerDeletesOf, List.filterMap_cons] using hrest

theorem relayerDeletesOf_eq_nil (ops : List Op)
    (h : ∀ op ∈ ops, ∃ c, touchesOnly c op) : relayerDeletesOf ops = [] := by
  apply relayerDeletesOf_eq_nil_of
  intro op hop a heq
  obtain ⟨c, hc⟩ := h op hop
  rw [heq] at hc
  exact hc

theorem relayerDeletesOf_relayerOps (relayerInfos : List RInfo) (lendings : List LendingRInfo)
    (cur : List Relayer) :
    relayerDeletesOf (relayerOps relayerInfos lendings cur) =
      (cur.filter (fun r => decide (r.Address ∉ snapshotAddresses relayerInfos))).map
        (fun r => r.Address) := by
  have hw : relayerDeletesOf
      (relayerInfos.map (relayerWrite lendings cur)) = [] := by
    apply relayerDeletesOf_eq_nil_of
    intro op hop a heq
    obtain ⟨r, _, hr⟩ := List.mem_map.1 hop
    rw [heq] at hr
    unfold relayerWrite at hr
    split at hr <;> cases hr
  have hfilter : cur.filter
        (fun r => !relayerInfos.any (fun v => decide (v.Address = r.Address))) =
      cur.filter (fun r => decide (r.Address ∉ snapshotAddresses relayerInfos)) := by
    apply List.filter_congr
    intro r _
    rw [Bool.eq_iff_iff]
    simp only [Bool.not_eq_true', List.any_eq_false, decide_eq_true_eq, snapshotAddresses,
      List.mem_map, not_exists, not_and]
  rw [relayerOps, relayerDeletesOf_append, hw, relayerDeletes, hfilter]
  simp [relayerDeletesOf, List.filterMap_map, Function.comp_def, filterMap_some_map]

theorem passes_relayers_eq (fail : Oracle) (relayerInfos : List RInfo) (w : World) :
    (relayerInfos.foldl (relayerPass fail) w).mirror.relayers = w.mirror.relayers :=
  passes_mirror_inv (fun m' => m'.relayers = w.mirror.relayers) fail relayerInfos w
    (fun r _ op hop m' hm' => (applyOp_relayers_frame r.Address op hop m').trans hm') rfl

/-- C8: `UpdateRelayers` attempts a relayer delete for exactly the mirrored relayer
records whose address is the address of no snapshot entry; afterwards no mirrored
relayer has such an address while every mirrored address that is in the snapshot is
still mirrored; and, whichever store calls fail, the mirrored tokens and pairs whose
relayer address is not the address of a snapshot relayer are left as they were. -/
theorem UpdateRelayers_deletes_absent_relayers_only (relayerInfos : List RInfo)
    (lendings : List LendingRInfo) (m : Mirror) :
    relayerDeletesOf
        (UpdateRelayers allSucceed (.ok relayerInfos) (.ok lendings) (worldOf m)).1.log =
        (m.relayers.filter
          (fun r => decide (r.Address ∉ snapshotAddresses relayerInfos))).map
          (fun r => r.Address) ∧
      (∀ r ∈ (UpdateRelayers allSucceed (.ok relayerInfos) (.ok lendings)
          (worldOf m)).1.mirror.relayers, r.Address ∈ snapshotAddresses relayerInfos) ∧
      (∀ r ∈ m.relayers, r.Address ∈ snapshotAddresses relayerInfos →
        r.Address ∈ (UpdateRelayers allSucceed (.ok relayerInfos) (.ok lendings)
          (worldOf m)).1.mirror.relayers.map (fun x => x.Address)) ∧
      (∀ fail : Oracle,
        (UpdateRelayers fail (.ok relayerInfos) (.ok lendings) (worldOf m)).1.mirror.tokens.filter
            (fun t => decide (t.RelayerAddress ∉ snapshotAddresses relayerInfos)) =
          m.tokens.filter
            (fun t => decide (t.RelayerAddress ∉ snapshotAddresses relayerInfos)) ∧
        (UpdateRelayers fail (.ok relayerInfos) (.ok lendings) (worldOf m)).1.mirror.pairs.filter
            (fun p => decide (p.RelayerAddress ∉ snapshotAddresses relayerInfos)) =
          m.pairs.filter
            (fun p => decide (p.RelayerAddress ∉ snapshotAddresses relayerInfos))) := by
  have hrel := passes_relayers_eq allSucceed relayerInfos (worldOf m)
  have hrun : (UpdateRelayers allSucceed (.ok relayerInfos) (.ok lendings) (worldOf m)).1 =
      runOps allSucceed (afterRead (relayerInfos.foldl (relayerPass allSucceed) (worldOf m)))
        (relayerOps relayerInfos lendings m.relayers) := by
    rw [UpdateRelayers_ok, updateRelayers_eq allSucceed _ _ _ rfl, hrel]
    rfl
  have hmirror : (UpdateRelayers allSucceed (.ok relayerInfos) (.ok lendings)
        (worldOf m)).1.mirror =
      (relayerOps relayerInfos lendings
          (relayerInfos.foldl (relayerPass allSucceed) (worldOf m)).mirror.relayers).foldl
        applyOp (relayerInfos.foldl (relayerPass allSucceed) (worldOf m)).mirror := by
    rw [hrun, runOps_mirror, hrel]
    rfl
  refine ⟨?_, ?_, ?_, ?_⟩
  · rw [hrun, runOps_log, relayerDeletesOf_append, relayerDeletesOf_relayerOps]
    have hlog : relayerDeletesOf
        (afterRead (relayerInfos.foldl (relayerPass allSucceed) (worldOf m))).log = [] := by
      apply relayerDeletesOf_eq_nil
      exact passes_log_forall allSucceed relayerInfos (worldOf m)
        (fun op => ∃ c, touchesOnly c op) (fun r _ op hop => ⟨r.Address, hop⟩)
        (fun op hop => by cases hop)
    rw [hlog]
    rfl
  · intro r hr
    by_contra hnot
    rw [hmirror] at hr
    exact relayerOps_absent relayerInfos lendings _ r.Address hnot
      (List.mem_map.2 ⟨r, hr, rfl⟩)
  · intro r _ hsnap
    rw [hmirror]
    exact relayerOps_present relayerInfos lendings _ r.Address hsnap
  · intro fail
    rw [UpdateRelayers_ok]
    have hkeepT : ∀ c ∈ snapshotAddresses relayerInfos, ∀ t : Token,
        decide (t.RelayerAddress ∉ snapshotAddresses relayerInfos) = true →
          t.RelayerAddress ≠ c := by
      intro c hc t ht heq
      simp only [decide_eq_true_eq] at ht
      exact ht (heq ▸ hc)
    have hkeepP : ∀ c ∈ snapshotAddresses relayerInfos, ∀ p : Pair,
        decide (p.RelayerAddress ∉ snapshotAddresses relayerInfos) = true →
          p.RelayerAddress ≠ c := by
      intro c hc p hp heq
      simp only [decide_eq_true_eq] at hp
      exact hp (heq ▸ hc)
    apply updateRelayers_mirror_inv
      (fun m' =>
        m'.tokens.filter
            (fun t => decide (t.RelayerAddress ∉ snapshotAddresses relayerInfos)) =
          m.tokens.filter
            (fun t => decide (t.RelayerAddress ∉ snapshotAddresses relayerInfos)) ∧
        m'.pairs.filter
            (fun p => decide (p.RelayerAddress ∉ snapshotAddresses relayerInfos)) =
          m.pairs.filter
            (fun p => decide (p.RelayerAddress ∉ snapshotAddresses relayerInfos)))
    · intro op hop m' hm'
      rw [(applyOp_relayerOp_frame op hop m').1, (applyOp_relayerOp_frame op hop m').2]
      exact hm'
    · apply passes_mirror_inv
        (fun m' =>
          m'.tokens.filter
              (fun t => decide (t.RelayerAddress ∉ snapshotAddresses relayerInfos)) =
            m.tokens.filter
              (fun t => decide (t.RelayerAddress ∉ snapshotAddresses relayerInfos)) ∧
          m'.pairs.filter
              (fun p => decide (p.RelayerAddress ∉ snapshotAddresses relayerInfos)) =
            m.pairs.filter
              (fun p => decide (p.RelayerAddress ∉ snapshotAddresses relayerInfos)))
      · intro r hr op hop m' hm'
        have hc : r.Address ∈ snapshotAddresses relayerInfos := List.mem_map.2 ⟨r, hr, rfl⟩
        constructor
        · rw [applyOp_tokens_frame r.Address _ (hkeepT r.Address hc) op hop m']
          exact hm'.1
        · rw [applyOp_pairs_frame r.Address _ (hkeepP r.Address hc) op hop m']
          exact hm'.2
      · exact ⟨rfl, rfl⟩

end RelayerService

/-! ## Reaching agreement with the snapshot -/

namespace RelayerService

theorem tokenAddrsOf_create (m : Mirror) (t : Token) (R : common.Address) :
    tokenAddrsOf (applyOp m (.tokenCreate t)) R =
      tokenAddrsOf m R ++ (if t.RelayerAddress = R then [t.ContractAddress] else []) := by
  by_cases h : t.RelayerAddress = R <;>
    simp [tokenAddrsOf, tokensOf, applyOp, List.filter_append, List.filter_cons, h]

theorem tokenAddrsOf_update (m : Mirror) (a c : common.Address) (t : Token)
    (h : t.ContractAddress = a ∧ t.RelayerAddress = c) (R : common.Address) :
    tokenAddrsOf (applyOp m (.tokenUpdate a c t)) R = tokenAddrsOf m R := by
  simp only [tokenAddrsOf, tokensOf, applyOp]
  induction m.tokens with
  | nil => rfl
  | cons x xs ih =>
    simp only [List.map_cons, List.filter_cons]
    by_cases hx : x.ContractAddress = a ∧ x.RelayerAddress = c
    · simp only [hx, and_self, if_true, h.2]
      by_cases hR : c = R
      · subst hR
        simp [ih, h.1, hx.1]
      · simp [hR, ih]
    · simp only [hx, if_false]
      by_cases hR : x.RelayerAddress = R
      · simp [hR, ih]
      · simp [hR, ih]

theorem mem_tokenAddrsOf_delete (m : Mirror) (b c : common.Address) (R a : common.Address) :
    a ∈ tokenAddrsOf (applyOp m (.tokenDelete b c)) R ↔
      a ∈ tokenAddrsOf m R ∧ ¬ (a = b ∧ R = c) := by
  simp only [tokenAddrsOf, tokensOf, applyOp, List.mem_map, List.mem_filter,
    Bool.not_eq_true', decide_eq_false_iff_not, decide_eq_true_eq]
  constructor
  · rintro ⟨x, ⟨⟨hx, hne⟩, hR⟩, rfl⟩
    exact ⟨⟨x, ⟨hx, hR⟩, rfl⟩, fun h => hne ⟨h.1, hR.trans h.2⟩⟩
  · rintro ⟨⟨x, ⟨hx, hR⟩, rfl⟩, hne⟩
    exact ⟨x, ⟨⟨hx, fun h => hne ⟨h.1, hR.symm.trans h.2⟩⟩, hR⟩, rfl⟩

theorem pairKeysOf_create (m : Mirror) (p : Pair) (R : common.Address) :
    pairKeysOf (applyOp m (.pairCreate p)) R =
      pairKeysOf m R ++ (if p.RelayerAddress = R then [pairKey p] else []) := by
  by_cases h : p.RelayerAddress = R <;>
    simp [pairKeysOf, pairsOf, applyOp, List.filter_append, List.filter_cons, h]

theorem mem_pairKeysOf_delete (m : Mirror) (b q c : common.Address) (R : common.Address)
    (k : common.Address × common.Address) :
    k ∈ pairKeysOf (applyOp m (.pairDelete b q c)) R ↔
      k ∈ pairKeysOf m R ∧ ¬ (k = (b, q) ∧ R = c) := by
  simp only [pairKeysOf, pairsOf, applyOp, List.mem_map, List.mem_filter,
    Bool.not_eq_true', decide_eq_false_iff_not, decide_eq_true_eq, pairKey]
  constructor
  · rintro ⟨x, ⟨⟨hx, hne⟩, hR⟩, rfl⟩
    refine ⟨⟨x, ⟨hx, hR⟩, rfl⟩, fun h => hne ?_⟩
    simp only [Prod.mk.injEq] at h
    exact ⟨h.1.1, h.1.2, hR.trans h.2⟩
  · rintro ⟨⟨x, ⟨hx, hR⟩, rfl⟩, hne⟩
    refine ⟨x, ⟨⟨hx, fun h => hne ?_⟩, hR⟩, rfl⟩
    exact ⟨by rw [h.1, h.2.1], hR.symm.trans h.2.2⟩

end RelayerService

namespace RelayerService

theorem mem_tokenOps (relayerInfo : RInfo) (cur : List Token) (op : Op) :
    op ∈ tokenOps relayerInfo cur ↔
      (∃ kv ∈ relayerInfo.Tokens, op = tokenWrite relayerInfo cur kv) ∨
      (relayerInfo.Tokens ≠ [] ∧ ∃ c ∈ cur, tokenListed relayerInfo c = false ∧
        op = Op.tokenDelete c.ContractAddress relayerInfo.Address) := by
  simp only [tokenOps, List.mem_flatMap, List.mem_cons, tokenDeletes, List.mem_map,
    List.mem_filter, Bool.not_eq_true']
  constructor
  · rintro ⟨kv, hkv, rfl | ⟨c, ⟨hc, hl⟩, rfl⟩⟩
    · exact Or.inl ⟨kv, hkv, rfl⟩
    · exact Or.inr ⟨List.ne_nil_of_mem hkv, c, hc, hl, rfl⟩
  · rintro (⟨kv, hkv, rfl⟩ | ⟨hne, c, hc, hl, rfl⟩)
    · exact ⟨kv, hkv, Or.inl rfl⟩
    · obtain ⟨kv, hkv⟩ := List.exists_mem_of_ne_nil _ hne
      exact ⟨kv, hkv, Or.inr ⟨c, ⟨hc, hl⟩, rfl⟩⟩

theorem tokenWrite_cases (relayerInfo : RInfo) (cur : List Token)
    (kv : common.Address × TokenInfo) :
    (tokenMirrored cur kv.1 = true ∧ tokenWrite relayerInfo cur kv =
        Op.tokenUpdate kv.1 relayerInfo.Address (mkToken relayerInfo kv.1 kv.2)) ∨
      (tokenMirrored cur kv.1 = false ∧ tokenWrite relayerInfo cur kv =
        Op.tokenCreate (mkToken relayerInfo kv.1 kv.2)) := by
  cases h : tokenMirrored cur kv.1
  · exact Or.inr ⟨rfl, by simp [tokenWrite, h]⟩
  · exact Or.inl ⟨rfl, by simp [tokenWrite, h]⟩

/-- After the calls of the token pass, the tokens mirrored for the relayer are the
snapshot's, provided the token map is not empty. -/
theorem tokenOps_settles (relayerInfo : RInfo) (m : Mirror) :
    (∀ a ∈ tokenKeys relayerInfo,
      a ∈ tokenAddrsOf ((tokenOps relayerInfo (tokensOf m relayerInfo.Address)).foldl
        applyOp m) relayerInfo.Address) ∧
    (relayerInfo.Tokens ≠ [] →
      ∀ a ∈ tokenAddrsOf ((tokenOps relayerInfo (tokensOf m relayerInfo.Address)).foldl
        applyOp m) relayerInfo.Address, a ∈ tokenKeys relayerInfo) := by
  constructor
  · intro a ha
    apply foldl_applyOp_establish (fun m' => a ∈ tokenAddrsOf m' relayerInfo.Address)
    · intro op hop m' hm'
      rcases (mem_tokenOps _ _ _).1 hop with ⟨kv, _, rfl⟩ | ⟨_, c, _, hl, rfl⟩
      · rcases tokenWrite_cases relayerInfo (tokensOf m relayerInfo.Address) kv with
          ⟨_, hw⟩ | ⟨_, hw⟩
        · rw [hw, tokenAddrsOf_update m' kv.1 relayerInfo.Address
            (mkToken relayerInfo kv.1 kv.2) ⟨rfl, rfl⟩]
          exact hm'
        · rw [hw, tokenAddrsOf_create]
          exact List.mem_append_left _ hm'
      · rw [mem_tokenAddrsOf_delete]
        refine ⟨hm', fun h => ?_⟩
        rw [tokenListed_iff, decide_eq_false_iff_not] at hl
        exact hl (h.1 ▸ ha)
    · obtain ⟨kv, hkv, rfl⟩ := List.mem_map.1 ha
      rcases tokenWrite_cases relayerInfo (tokensOf m relayerInfo.Address) kv with
        ⟨hmir, _⟩ | ⟨_, hw⟩
      · left
        rw [tokenMirrored_iff, decide_eq_true_eq] at hmir
        exact hmir
      · right
        refine ⟨_, (mem_tokenOps _ _ _).2 (Or.inl ⟨kv, hkv, rfl⟩), fun m' => ?_⟩
        rw [hw, tokenAddrsOf_create]
        simp [mkToken]
  · intro hne b hb
    by_contra hnot
    revert hb
    apply foldl_applyOp_establish (fun m' => b ∉ tokenAddrsOf m' relayerInfo.Address)
    · intro op hop m' hm'
      rcases (mem_tokenOps _ _ _).1 hop with ⟨kv, hkv, rfl⟩ | ⟨_, c, _, _, rfl⟩
      · rcases tokenWrite_cases relayerInfo (tokensOf m relayerInfo.Address) kv with
          ⟨_, hw⟩ | ⟨_, hw⟩
        · rw [hw, tokenAddrsOf_update m' kv.1 relayerInfo.Address
            (mkToken relayerInfo kv.1 kv.2) ⟨rfl, rfl⟩]
          exact hm'
        · rw [hw, tokenAddrsOf_create]
          intro hmem
          rcases List.mem_append.1 hmem with h | h
          · exact hm' h
          · have hb : b = kv.1 := by simpa [mkToken] using h
            exact hnot (hb ▸ List.mem_map.2 ⟨kv, hkv, rfl⟩)
      · rw [mem_tokenAddrsOf_delete]
        exact fun h => hm' h.1
    · by_cases hcur : b ∈ tokenAddrsOf m relayerInfo.Address
      · right
        obtain ⟨c, hc, rfl⟩ := List.mem_map.1 hcur
        have hl : tokenListed relayerInfo c = false := by
          rw [tokenListed_iff, decide_eq_false_iff_not]
          exact hnot
        refine ⟨_, (mem_tokenOps _ _ _).2 (Or.inr ⟨hne, c, hc, hl, rfl⟩), fun m' => ?_⟩
        rw [mem_tokenAddrsOf_delete]
        exact fun h => h.2 ⟨rfl, rfl⟩
      · exact Or.inl hcur

/-- After the calls of the pair pass, the pairs mirrored for the relayer are the
snapshot's. -/
theorem pairOps_settles (relayerInfo : RInfo) (m : Mirror) :
    (∀ k ∈ relayerInfo.Pairs.map tokenPairKey,
      k ∈ pairKeysOf ((pairOps relayerInfo (pairsOf m relayerInfo.Address)).foldl
        applyOp m) relayerInfo.Address) ∧
    (∀ k ∈ pairKeysOf ((pairOps relayerInfo (pairsOf m relayerInfo.Address)).foldl
        applyOp m) relayerInfo.Address, k ∈ relayerInfo.Pairs.map tokenPairKey) := by
  have hmem : ∀ op, op ∈ pairOps relayerInfo (pairsOf m relayerInfo.Address) ↔
      (∃ n ∈ relayerInfo.Pairs, pairMirrored (pairsOf m relayerInfo.Address) n = false ∧
        op = Op.pairCreate (mkPair relayerInfo n)) ∨
      (∃ c ∈ pairsOf m relayerInfo.Address, pairListed relayerInfo c = false ∧
        op = Op.pairDelete c.BaseTokenAddress c.QuoteTokenAddress relayerInfo.Address) := by
    intro op
    simp only [pairOps, pairCreates, pairDeletes, List.mem_append, List.mem_map,
      List.mem_filter, Bool.not_eq_true']
    constructor
    · rintro (⟨n, ⟨hn, hm⟩, rfl⟩ | ⟨c, ⟨hc, hl⟩, rfl⟩)
      · exact Or.inl ⟨n, hn, hm, rfl⟩
      · exact Or.inr ⟨c, hc, hl, rfl⟩
    · rintro (⟨n, hn, hm, rfl⟩ | ⟨c, hc, hl, rfl⟩)
      · exact Or.inl ⟨n, ⟨hn, hm⟩, rfl⟩
      · exact Or.inr ⟨c, ⟨hc, hl⟩, rfl⟩
  constructor
  · intro k hk
    apply foldl_applyOp_establish (fun m' => k ∈ pairKeysOf m' relayerInfo.Address)
    · intro op hop m' hm'
      rcases (hmem op).1 hop with ⟨n, _, _, rfl⟩ | ⟨c, _, hl, rfl⟩
      · rw [pairKeysOf_create]
        exact List.mem_append_left _ hm'
      · rw [mem_pairKeysOf_delete]
        refine ⟨hm', fun h => ?_⟩
        rw [pairListed_iff, decide_eq_false_iff_not] at hl
        exact hl (by rw [pairKey, ← h.1]; exact hk)
    · obtain ⟨n, hn, rfl⟩ := List.mem_map.1 hk
      cases hmir : pairMirrored (pairsOf m relayerInfo.Address) n
      · right
        refine ⟨_, (hmem _).2 (Or.inl ⟨n, hn, hmir, rfl⟩), fun m' => ?_⟩
        rw [pairKeysOf_create]
        simp [mkPair, pairKey, tokenPairKey]
      · left
        rw [pairMirrored_iff, decide_eq_true_eq] at hmir
        exact hmir
  · intro k hk
    by_contra hnot
    revert hk
    apply foldl_applyOp_establish (fun m' => k ∉ pairKeysOf m' relayerInfo.Address)
    · intro op hop m' hm'
      rcases (hmem op).1 hop with ⟨n, hn, _, rfl⟩ | ⟨c, _, _, rfl⟩
      · rw [pairKeysOf_create]
        intro hin
        rcases List.mem_append.1 hin with h | h
        · exact hm' h
        · have hk : k = tokenPairKey n := by simpa [mkPair, pairKey, tokenPairKey] using h
          exact hnot (hk ▸ List.mem_map.2 ⟨n, hn, rfl⟩)
      · rw [mem_pairKeysOf_delete]
        exact fun h => hm' h.1
    · by_cases hcur : k ∈ pairKeysOf m relayerInfo.Address
      · right
        obtain ⟨c, hc, rfl⟩ := List.mem_map.1 hcur
        have hl : pairListed relayerInfo c = false := by
          rw [pairListed_iff, decide_eq_false_iff_not]
          exact hnot
        refine ⟨_, (hmem _).2 (Or.inr ⟨c, hc, hl, rfl⟩), fun m' => ?_⟩
        rw [mem_pairKeysOf_delete]
        exact fun h => h.2 ⟨rfl, rfl⟩
      · exact Or.inl hcur

end RelayerService

namespace RelayerService

theorem Settled_congr (relayerInfo : RInfo) (m m' : Mirror)
    (ht : tokensOf m' relayerInfo.Address = tokensOf m relayerInfo.Address)
    (hp : pairsOf m' relayerInfo.Address = pairsOf m relayerInfo.Address)
    (h : Settled relayerInfo m) : Settled relayerInfo m' := by
  unfold Settled tokenAddrsOf pairKeysOf at *
  rw [ht, hp]
  exact h

theorem pairOps_tokens (relayerInfo : RInfo) (cur : List Pair) (m : Mirror) :
    ((pairOps relayerInfo cur).foldl applyOp m).tokens = m.tokens := by
  apply foldl_applyOp_inv (fun m' => m'.tokens = m.tokens) _ _ _ rfl
  intro op hop m' hm'
  simp only [pairOps, pairCreates, pairDeletes, List.mem_append, List.mem_map] at hop
  rcases hop with ⟨_, _, rfl⟩ | ⟨_, _, rfl⟩ <;> exact hm'

theorem relayerPass_mirror (w : World) (relayerInfo : RInfo) :
    (relayerPass allSucceed w relayerInfo).mirror =
      (pairOps relayerInfo
          (pairsOf ((tokenOps relayerInfo (tokensOf w.mirror relayerInfo.Address)).foldl
            applyOp w.mirror) relayerInfo.Address)).foldl applyOp
        ((tokenOps relayerInfo (tokensOf w.mirror relayerInfo.Address)).foldl
          applyOp w.mirror) := by
  unfold relayerPass
  rw [updateTokenRelayer_eq allSucceed relayerInfo w rfl,
    updatePairRelayer_eq allSucceed relayerInfo _ rfl]
  simp only [runOps_mirror, afterRead]

/-- One relayer's pass brings the mirror to agree with that relayer's snapshot. -/
theorem relayerPass_settles (w : World) (relayerInfo : RInfo) :
    Settled relayerInfo (relayerPass allSucceed w relayerInfo).mirror := by
  rw [relayerPass_mirror]
  have ht := tokenOps_settles relayerInfo w.mirror
  have hp := pairOps_settles relayerInfo
    ((tokenOps relayerInfo (tokensOf w.mirror relayerInfo.Address)).foldl applyOp w.mirror)
  have htok : ∀ R, tokenAddrsOf ((pairOps relayerInfo
        (pairsOf ((tokenOps relayerInfo (tokensOf w.mirror relayerInfo.Address)).foldl
          applyOp w.mirror) relayerInfo.Address)).foldl applyOp
        ((tokenOps relayerInfo (tokensOf w.mirror relayerInfo.Address)).foldl
          applyOp w.mirror)) R =
      tokenAddrsOf ((tokenOps relayerInfo (tokensOf w.mirror relayerInfo.Address)).foldl
          applyOp w.mirror) R := by
    intro R
    simp only [tokenAddrsOf, tokensOf, pairOps_tokens]
  refine ⟨?_, ?_, hp.1, hp.2⟩
  · rw [htok]
    exact ht.1
  · rw [htok]
    exact ht.2

/-- The pass of a relayer leaves the tokens and pairs of another relayer alone. -/
theorem relayerPass_frame (fail : Oracle) (w : World) (relayerInfo : RInfo)
    (R : common.Address) (hR : relayerInfo.Address ≠ R) :
    tokensOf (relayerPass fail w relayerInfo).mirror R = tokensOf w.mirror R ∧
      pairsOf (relayerPass fail w relayerInfo).mirror R = pairsOf w.mirror R := by
  apply relayerPass_mirror_inv
    (fun m' => tokensOf m' R = tokensOf w.mirror R ∧ pairsOf m' R = pairsOf w.mirror R)
  · intro op hop m' hm'
    constructor
    · unfold tokensOf at hm' ⊢
      rw [applyOp_tokens_frame relayerInfo.Address _
        (fun t ht h => hR (h.symm.trans (of_decide_eq_true ht))) op hop m']
      exact hm'.1
    · unfold pairsOf at hm' ⊢
      rw [applyOp_pairs_frame relayerInfo.Address _
        (fun p hp h => hR (h.symm.trans (of_decide_eq_true hp))) op hop m']
      exact hm'.2
  · exact ⟨rfl, rfl⟩

theorem passes_preserve_settled (fail : Oracle) (relayerInfo : RInfo) (l : List RInfo)
    (w : World) (hl : ∀ j ∈ l, j.Address ≠ relayerInfo.Address)
    (h : Settled relayerInfo w.mirror) :
    Settled relayerInfo (l.foldl (relayerPass fail) w).mirror := by
  induction l generalizing w with
  | nil => exact h
  | cons j rest ih =>
    rw [List.foldl_cons]
    apply ih _ (fun j' hj' => hl j' (List.mem_cons_of_mem _ hj'))
    have hf := relayerPass_frame fail w j relayerInfo.Address (hl j (List.mem_cons_self _ _))
    exact Settled_congr relayerInfo w.mirror _ hf.1 hf.2 h

/-- After the passes of a snapshot whose relayers have distinct addresses, the
mirror agrees with every relayer of the snapshot. -/
theorem passes_settle (relayerInfos : List RInfo)
    (hnd : (snapshotAddresses relayerInfos).Nodup) (w : World) :
    ∀ i ∈ relayerInfos,
      Settled i (relayerInfos.foldl (relayerPass allSucceed) w).mirror := by
  induction relayerInfos generalizing w with
  | nil => intro i hi; cases hi
  | cons i0 rest ih =>
    simp only [snapshotAddresses, List.map_cons, List.nodup_cons, List.mem_map, not_exists,
      not_and] at hnd
    intro i hi
    rw [List.foldl_cons]
    rcases List.mem_cons.1 hi with rfl | hin
    · exact passes_preserve_settled allSucceed i rest _ (fun j hj => hnd.1 j hj)
        (relayerPass_settles w i)
    · exact ih hnd.2 _ i hin

end RelayerService

namespace RelayerService

theorem Settled_congr_keys (relayerInfo : RInfo) (m m' : Mirror)
    (ht : tokenAddrsOf m' relayerInfo.Address = tokenAddrsOf m relayerInfo.Address)
    (hp : pairKeysOf m' relayerInfo.Address = pairKeysOf m relayerInfo.Address)
    (h : Settled relayerInfo m) : Settled relayerInfo m' := by
  unfold Settled at *
  rw [ht, hp]
  exact h

theorem UpdateRelayers_world (relayerInfos : List RInfo) (lendings : List LendingRInfo)
    (w : World) :
    (UpdateRelayers allSucceed (.ok relayerInfos) (.ok lendings) w).1 =
      runOps allSucceed (afterRead (relayerInfos.foldl (relayerPass allSucceed) w))
        (relayerOps relayerInfos lendings
          (relayerInfos.foldl (relayerPass allSucceed) w).mirror.relayers) := by
  rw [UpdateRelayers_ok, updateRelayers_eq allSucceed _ _ _ rfl]

theorem relayerOps_frame (relayerInfos : List RInfo) (lendings : List LendingRInfo)
    (cur : List Relayer) (m : Mirror) :
    ((relayerOps relayerInfos lendings cur).foldl applyOp m).tokens = m.tokens ∧
      ((relayerOps relayerInfos lendings cur).foldl applyOp m).pairs = m.pairs := by
  apply foldl_applyOp_inv (fun m' => m'.tokens = m.tokens ∧ m'.pairs = m.pairs) _ _ _
    ⟨rfl, rfl⟩
  intro op hop m' hm'
  have h := applyOp_relayerOp_frame op (relayerOps_isRelayerOp _ _ _ op hop) m'
  exact ⟨h.1.trans hm'.1, h.2.trans hm'.2⟩

/-- After a full-fleet reconciliation of a snapshot whose relayers have distinct
addresses, the mirror agrees with the snapshot on which tokens, pairs and relayers
exist. -/
theorem UpdateRelayers_settles (relayerInfos : List RInfo) (lendings : List LendingRInfo)
    (w : World) (hnd : (snapshotAddresses relayerInfos).Nodup) :
    (∀ i ∈ relayerInfos, Settled i
      (UpdateRelayers allSucceed (.ok relayerInfos) (.ok lendings) w).1.mirror) ∧
    RelayersSettled relayerInfos
      (UpdateRelayers allSucceed (.ok relayerInfos) (.ok lendings) w).1.mirror := by
  rw [UpdateRelayers_world, runOps_mirror]
  have hf := relayerOps_frame relayerInfos lendings
    (relayerInfos.foldl (relayerPass allSucceed) w).mirror.relayers
    (afterRead (relayerInfos.foldl (relayerPass allSucceed) w)).mirror
  constructor
  · intro i hi
    apply Settled_congr i (relayerInfos.foldl (relayerPass allSucceed) w).mirror
    · unfold tokensOf
      rw [hf.1]
      rfl
    · unfold pairsOf
      rw [hf.2]
      rfl
    · exact passes_settle relayerInfos hnd w i hi
  · exact ⟨fun a ha => relayerOps_present relayerInfos lendings
        (relayerInfos.foldl (relayerPass allSucceed) w).mirror a ha,
      fun a ha => by
        by_contra hnot
        exact relayerOps_absent relayerInfos lendings
          (relayerInfos.foldl (relayerPass allSucceed) w).mirror a hnot ha⟩

theorem keyPreservingUpdate_preserves (relayerInfos : List RInfo) (op : Op)
    (hop : keyPreservingUpdate op) (m : Mirror)
    (h : (∀ i ∈ relayerInfos, Settled i m) ∧ RelayersSettled relayerInfos m) :
    (∀ i ∈ relayerInfos, Settled i (applyOp m op)) ∧
      RelayersSettled relayerInfos (applyOp m op) := by
  cases op with
  | tokenUpdate a c t =>
    refine ⟨fun i hi => ?_, h.2⟩
    exact Settled_congr_keys i m _ (tokenAddrsOf_update m a c t hop i.Address) rfl (h.1 i hi)
  | relayerUpdate a r =>
    refine ⟨fun i hi => Settled_congr_keys i m _ rfl rfl (h.1 i hi), ?_⟩
    unfold RelayersSettled relayerAddrs
    rw [relayerUpdate_addresses a r hop m]
    exact h.2
  | tokenCreate t => exact absurd hop (by simp [keyPreservingUpdate])
  | tokenDelete a c => exact absurd hop (by simp [keyPreservingUpdate])
  | pairCreate p => exact absurd hop (by simp [keyPreservingUpdate])
  | pairDelete b q c => exact absurd hop (by simp [keyPreservingUpdate])
  | relayerCreate r => exact absurd hop (by simp [keyPreservingUpdate])
  | relayerDelete a => exact absurd hop (by simp [keyPreservingUpdate])

/-- Against a mirror that agrees with the snapshot, the token pass only updates. -/
theorem tokenOps_of_settled (relayerInfo : RInfo) (m : Mirror) (h : Settled relayerInfo m) :
    ∀ op ∈ tokenOps relayerInfo (tokensOf m relayerInfo.Address), keyPreservingUpdate op := by
  intro op hop
  rcases (mem_tokenOps _ _ _).1 hop with ⟨kv, hkv, rfl⟩ | ⟨hne, c, hc, hl, rfl⟩
  · rcases tokenWrite_cases relayerInfo (tokensOf m relayerInfo.Address) kv with
      ⟨_, hw⟩ | ⟨hmir, _⟩
    · rw [hw]
      exact ⟨rfl, rfl⟩
    · exfalso
      rw [tokenMirrored_iff, decide_eq_false_iff_not] at hmir
      exact hmir (h.1 kv.1 (List.mem_map.2 ⟨kv, hkv, rfl⟩))
  · exfalso
    rw [tokenListed_iff, decide_eq_false_iff_not] at hl
    exact hl (h.2.1 hne c.ContractAddress (List.mem_map.2 ⟨c, hc, rfl⟩))

/-- Against a mirror that agrees with the snapshot, the pair pass attempts nothing. -/
theorem pairOps_of_settled (relayerInfo : RInfo) (m : Mirror) (h : Settled relayerInfo m) :
    pairOps relayerInfo (pairsOf m relayerInfo.Address) = [] := by
  simp only [pairOps, pairCreates, pairDeletes, List.append_eq_nil, List.map_eq_nil_iff,
    List.filter_eq_nil_iff, Bool.not_eq_true', Bool.not_eq_false]
  constructor
  · intro n hn
    rw [pairMirrored_iff, decide_eq_true_eq]
    exact h.2.2.1 _ (List.mem_map.2 ⟨n, hn, rfl⟩)
  · intro c hc
    rw [pairListed_iff, decide_eq_true_eq]
    exact h.2.2.2 _ (List.mem_map.2 ⟨c, hc, rfl⟩)

/-- Against a mirror that agrees with the snapshot, the relayer pass only updates. -/
theorem relayerOps_of_settled (relayerInfos : List RInfo) (lendings : List LendingRInfo)
    (m : Mirror) (h : RelayersSettled relayerInfos m) :
    ∀ op ∈ relayerOps relayerInfos lendings m.relayers, keyPreservingUpdate op := by
  intro op hop
  simp only [relayerOps, relayerDeletes, List.mem_append, List.mem_map, List.mem_filter,
    Bool.not_eq_true', List.any_eq_false, decide_eq_true_eq] at hop
  rcases hop with ⟨r, hr, rfl⟩ | ⟨x, ⟨hx, hnone⟩, rfl⟩
  · have hin : r.Address ∈ relayerAddrs m := h.1 _ (List.mem_map.2 ⟨r, hr, rfl⟩)
    obtain ⟨v, hv, hva⟩ := List.mem_map.1 hin
    have hany : m.relayers.any (fun v => decide (v.Address = r.Address)) = true := by
      rw [List.any_eq_true]
      exact ⟨v, hv, by simpa using hva⟩
    simp only [relayerWrite, hany, if_true]
    exact rfl
  · exfalso
    have hin : x.Address ∈ snapshotAddresses relayerInfos :=
      h.2 _ (List.mem_map.2 ⟨x, hx, rfl⟩)
    obtain ⟨v, hv, hva⟩ := List.mem_map.1 hin
    exact hnone v hv hva

end RelayerService

/-! ## Reconciling a second time -/

namespace RelayerService

theorem relayerPass_of_settled (relayerInfos : List RInfo) (w : World) (i : RInfo)
    (hi : i ∈ relayerInfos)
    (hset : (∀ j ∈ relayerInfos, Settled j w.mirror) ∧ RelayersSettled relayerInfos w.mirror)
    (hlog : ∀ op ∈ w.log, keyPreservingUpdate op) :
    ((∀ j ∈ relayerInfos, Settled j (relayerPass allSucceed w i).mirror) ∧
        RelayersSettled relayerInfos (relayerPass allSucceed w i).mirror) ∧
      ∀ op ∈ (relayerPass allSucceed w i).log, keyPreservingUpdate op := by
  have hops := tokenOps_of_settled i w.mirror (hset.1 i hi)
  have hset1 : (∀ j ∈ relayerInfos, Settled j
        ((tokenOps i (tokensOf w.mirror i.Address)).foldl applyOp w.mirror)) ∧
      RelayersSettled relayerInfos
        ((tokenOps i (tokensOf w.mirror i.Address)).foldl applyOp w.mirror) :=
    foldl_applyOp_inv
      (fun m' => (∀ j ∈ relayerInfos, Settled j m') ∧ RelayersSettled relayerInfos m') _ _
      (fun op hop m' hm' => keyPreservingUpdate_preserves relayerInfos op (hops op hop) m' hm')
      hset
  have hpair := pairOps_of_settled i _ (hset1.1 i hi)
  have hw : relayerPass allSucceed w i =
      afterRead (runOps allSucceed (afterRead w) (tokenOps i (tokensOf w.mirror i.Address))) := by
    unfold relayerPass
    rw [updateTokenRelayer_eq allSucceed i w rfl, updatePairRelayer_eq allSucceed i _ rfl]
    simp only [runOps_mirror, afterRead]
    rw [hpair]
    rfl
  rw [hw]
  refine ⟨?_, ?_⟩
  · simpa only [afterRead, runOps_mirror] using hset1
  · intro op hop
    simp only [afterRead, runOps_log, List.mem_append] at hop
    rcases hop with h | h
    · exact hlog op h
    · exact hops op h

theorem passes_of_settled (relayerInfos : List RInfo) (l : List RInfo)
    (hl : ∀ i ∈ l, i ∈ relayerInfos) (w : World)
    (hset : (∀ j ∈ relayerInfos, Settled j w.mirror) ∧ RelayersSettled relayerInfos w.mirror)
    (hlog : ∀ op ∈ w.log, keyPreservingUpdate op) :
    ((∀ j ∈ relayerInfos, Settled j (l.foldl (relayerPass allSucceed) w).mirror) ∧
        RelayersSettled relayerInfos (l.foldl (relayerPass allSucceed) w).mirror) ∧
      ∀ op ∈ (l.foldl (relayerPass allSucceed) w).log, keyPreservingUpdate op := by
  induction l generalizing w with
  | nil => exact ⟨hset, hlog⟩
  | cons i rest ih =>
    rw [List.foldl_cons]
    have h := relayerPass_of_settled relayerInfos w i (hl i (List.mem_cons_self _ _)) hset hlog
    exact ih (fun k hk => hl k (List.mem_cons_of_mem _ hk)) _ h.1 h.2

/-- Reconciling against a mirror that agrees with the snapshot attempts only
updates that write a record under its own key. -/
theorem UpdateRelayers_of_settled (relayerInfos : List RInfo) (lendings : List LendingRInfo)
    (m : Mirror)
    (hset : (∀ i ∈ relayerInfos, Settled i m) ∧ RelayersSettled relayerInfos m) :
    ∀ op ∈ (UpdateRelayers allSucceed (.ok relayerInfos) (.ok lendings) (worldOf m)).1.log,
      keyPreservingUpdate op := by
  have h := passes_of_settled relayerInfos relayerInfos (fun i hi => hi) (worldOf m) hset
    (fun op hop => by cases hop)
  rw [UpdateRelayers_world]
  intro op hop
  simp only [runOps_log, afterRead, List.mem_append] at hop
  rcases hop with hop | hop
  · exact h.2 op hop
  · exact relayerOps_of_settled relayerInfos lendings _ h.1.2 op hop

theorem keyPreservingUpdate_kind (op : Op) (h : keyPreservingUpdate op) :
    isCreate op = false ∧ isDelete op = false ∧ isUpdate op = true := by
  cases op <;> first | exact ⟨rfl, rfl, rfl⟩ | exact absurd h (by simp [keyPreservingUpdate])

end RelayerService

/-! ## The records after a reconciliation -/

namespace RelayerService

theorem mem_tokensOf_update (m : Mirror) (a c : common.Address) (tok t : Token)
    (R : common.Address) :
    t ∈ tokensOf (applyOp m (.tokenUpdate a c tok)) R ↔
      t.RelayerAddress = R ∧
        ∃ x ∈ m.tokens, (if x.ContractAddress = a ∧ x.RelayerAddress = c then tok else x) = t := by
  simp only [tokensOf, applyOp, List.mem_filter, List.mem_map, decide_eq_true_eq]
  exact ⟨fun h => ⟨h.2, h.1⟩, fun h => ⟨h.2, h.1⟩⟩

theorem mem_tokensOf (m : Mirror) (t : Token) (R : common.Address) :
    t ∈ tokensOf m R ↔ t ∈ m.tokens ∧ t.RelayerAddress = R := by
  simp [tokensOf, List.mem_filter]

/-- After the calls of the token pass, the tokens mirrored under the addresses of
the token map are the snapshot's records. -/
theorem tokenOps_exact (relayerInfo : RInfo) (m : Mirror)
    (hkeys : (tokenKeys relayerInfo).Nodup) :
    TokensExact relayerInfo
      ((tokenOps relayerInfo (tokensOf m relayerInfo.Address)).foldl applyOp m) := by
  intro kv hkv
  apply foldl_applyOp_establish
    (fun m' => ∀ t ∈ tokensOf m' relayerInfo.Address,
      t.ContractAddress = kv.1 → t = mkToken relayerInfo kv.1 kv.2)
  · intro op hop m' hm' t ht hta
    rcases (mem_tokenOps _ _ _).1 hop with ⟨kv', hkv', rfl⟩ | ⟨_, c, _, _, rfl⟩
    · rcases tokenWrite_cases relayerInfo (tokensOf m relayerInfo.Address) kv' with
        ⟨_, hw⟩ | ⟨_, hw⟩
      · rw [hw, mem_tokensOf_update] at ht
        obtain ⟨hR, x, hx, hxt⟩ := ht
        by_cases hkey : x.ContractAddress = kv'.1 ∧ x.RelayerAddress = relayerInfo.Address
        · rw [if_pos hkey] at hxt
          subst hxt
          have : kv' = kv := List.inj_on_of_nodup_map hkeys hkv' hkv hta
          rw [this]
        · rw [if_neg hkey] at hxt
          subst hxt
          exact hm' x ((mem_tokensOf _ _ _).2 ⟨hx, hR⟩) hta
      · rw [hw, mem_tokensOf] at ht
        obtain ⟨hin, hR⟩ := ht
        simp only [applyOp, List.mem_append, List.mem_singleton] at hin
        rcases hin with hin | rfl
        · exact hm' t ((mem_tokensOf _ _ _).2 ⟨hin, hR⟩) hta
        · have : kv' = kv := List.inj_on_of_nodup_map hkeys hkv' hkv hta
          rw [this]
    · rw [mem_tokensOf] at ht
      simp only [applyOp, List.mem_filter] at ht
      exact hm' t ((mem_tokensOf _ _ _).2 ⟨ht.1.1, ht.2⟩) hta
  · rcases tokenWrite_cases relayerInfo (tokensOf m relayerInfo.Address) kv with
      ⟨_, hw⟩ | ⟨hmir, _⟩
    · right
      refine ⟨_, (mem_tokenOps _ _ _).2 (Or.inl ⟨kv, hkv, rfl⟩), fun m' t ht hta => ?_⟩
      rw [hw, mem_tokensOf_update] at ht
      obtain ⟨hR, x, _, hxt⟩ := ht
      by_cases hkey : x.ContractAddress = kv.1 ∧ x.RelayerAddress = relayerInfo.Address
      · rw [if_pos hkey] at hxt
        exact hxt.symm
      · rw [if_neg hkey] at hxt
        subst hxt
        exact absurd ⟨hta, hR⟩ hkey
    · left
      intro t ht hta
      rw [tokenMirrored_iff, decide_eq_false_iff_not] at hmir
      exact absurd (List.mem_map.2 ⟨t, ht, hta⟩) hmir

theorem TokensExact_congr (relayerInfo : RInfo) (m m' : Mirror)
    (ht : tokensOf m' relayerInfo.Address = tokensOf m relayerInfo.Address)
    (h : TokensExact relayerInfo m) : TokensExact relayerInfo m' := by
  unfold TokensExact at *
  rw [ht]
  exact h

theorem relayerPass_exact (w : World) (relayerInfo : RInfo)
    (hkeys : (tokenKeys relayerInfo).Nodup) :
    TokensExact relayerInfo (relayerPass allSucceed w relayerInfo).mirror := by
  rw [relayerPass_mirror]
  apply TokensExact_congr relayerInfo _ _ _ (tokenOps_exact relayerInfo w.mirror hkeys)
  unfold tokensOf
  rw [pairOps_tokens]

theorem passes_preserve_exact (fail : Oracle) (relayerInfo : RInfo) (l : List RInfo)
    (w : World) (hl : ∀ j ∈ l, j.Address ≠ relayerInfo.Address)
    (h : TokensExact relayerInfo w.mirror) :
    TokensExact relayerInfo (l.foldl (relayerPass fail) w).mirror := by
  induction l generalizing w with
  | nil => exact h
  | cons j rest ih =>
    rw [List.foldl_cons]
    apply ih _ (fun k hk => hl k (List.mem_cons_of_mem _ hk))
    have hf := relayerPass_frame fail w j relayerInfo.Address (hl j (List.mem_cons_self _ _))
    exact TokensExact_congr relayerInfo w.mirror _ hf.1 h

theorem passes_exact (relayerInfos : List RInfo)
    (hnd : (snapshotAddresses relayerInfos).Nodup)
    (hkeys : ∀ j ∈ relayerInfos, (tokenKeys j).Nodup) (w : World) :
    ∀ j ∈ relayerInfos,
      TokensExact j (relayerInfos.foldl (relayerPass allSucceed) w).mirror := by
  induction relayerInfos generalizing w with
  | nil => intro j hj; cases hj
  | cons i0 rest ih =>
    simp only [snapshotAddresses, List.map_cons, List.nodup_cons, List.mem_map, not_exists,
      not_and] at hnd
    intro j hj
    rw [List.foldl_cons]
    rcases List.mem_cons.1 hj with rfl | hin
    · exact passes_preserve_exact allSucceed j rest _ (fun k hk => hnd.1 k hk)
        (relayerPass_exact w j (hkeys j (List.mem_cons_self _ _)))
    · exact ih hnd.2 (fun k hk => hkeys k (List.mem_cons_of_mem _ hk)) _ j hin

/-- After the calls of the relayer pass, the relayers mirrored under the addresses
of the snapshot are the snapshot's records. -/
theorem relayerOps_exact (relayerInfos : List RInfo) (lendings : List LendingRInfo)
    (m : Mirror) (hnd : (snapshotAddresses relayerInfos).Nodup) :
    RelayersExact relayerInfos lendings
      ((relayerOps relayerInfos lendings m.relayers).foldl applyOp m) := by
  intro r hr
  have hmem : ∀ op, op ∈ relayerOps relayerInfos lendings m.relayers ↔
      (∃ r' ∈ relayerInfos, op = relayerWrite lendings m.relayers r') ∨
      (∃ x ∈ m.relayers, x.Address ∉ snapshotAddresses relayerInfos ∧
        op = Op.relayerDelete x.Address) := by
    intro op
    simp only [relayerOps, relayerDeletes, List.mem_append, List.mem_map, List.mem_filter,
      Bool.not_eq_true', List.any_eq_false, decide_eq_true_eq, snapshotAddresses, not_exists,
      not_and]
    constructor
    · rintro (⟨r', hr', rfl⟩ | ⟨x, ⟨hx, hnone⟩, rfl⟩)
      · exact Or.inl ⟨r', hr', rfl⟩
      · exact Or.inr ⟨x, hx, hnone, rfl⟩
    · rintro (⟨r', hr', rfl⟩ | ⟨x, hx, hnone, rfl⟩)
      · exact Or.inl ⟨r', hr', rfl⟩
      · exact Or.inr ⟨x, ⟨hx, hnone⟩, rfl⟩
  have hsame : ∀ r' ∈ relayerInfos, r'.Address = r.Address → r' = r := fun r' hr' h =>
    List.inj_on_of_nodup_map hnd hr' hr h
  apply foldl_applyOp_establish
    (fun m' => ∀ x ∈ m'.relayers,
      x.Address = r.Address → x = mkRelayer r (lendingFeeOf r.Address lendings))
  · intro op hop m' hm' x hx hxa
    rcases (hmem op).1 hop with ⟨r', hr', rfl⟩ | ⟨y, _, _, rfl⟩
    · unfold relayerWrite at hx
      split at hx
      · simp only [applyOp, List.mem_map] at hx
        obtain ⟨y, hy, hyx⟩ := hx
        by_cases hkey : y.Address = r'.Address
        · rw [if_pos hkey] at hyx
          subst hyx
          rw [hsame r' hr' hxa]
        · rw [if_neg hkey] at hyx
          subst hyx
          exact hm' y hy hxa
      · simp only [applyOp, List.mem_append, List.mem_singleton] at hx
        rcases hx with hx | rfl
        · exact hm' x hx hxa
        · rw [hsame r' hr' hxa]
    · simp only [applyOp, List.mem_filter] at hx
      exact hm' x hx.1 hxa
  · cases hfound : m.relayers.any (fun v => decide (v.Address = r.Address))
    · left
      intro x hx hxa
      simp only [List.any_eq_false, decide_eq_true_eq] at hfound
      exact absurd hxa (hfound x hx)
    · right
      refine ⟨relayerWrite lendings m.relayers r, (hmem _).2 (Or.inl ⟨r, hr, rfl⟩), ?_⟩
      intro m' x hx hxa
      simp only [relayerWrite, hfound, if_true, applyOp, List.mem_map] at hx
      obtain ⟨y, _, hyx⟩ := hx
      by_cases hkey : y.Address = r.Address
      · rw [if_pos hkey] at hyx
        exact hyx.symm
      · rw [if_neg hkey] at hyx
        subst hyx
        exact absurd hxa hkey

end RelayerService

namespace RelayerService

theorem foldl_applyOp_fixed (ops : List Op) (m : Mirror)
    (h : ∀ op ∈ ops, applyOp m op = m) : ops.foldl applyOp m = m := by
  induction ops with
  | nil => rfl
  | cons op rest ih =>
    rw [List.foldl_cons, h op (List.mem_cons_self _ _)]
    exact ih (fun op' hop' => h op' (List.mem_cons_of_mem _ hop'))

theorem tokenUpdate_fixed (relayerInfo : RInfo) (m : Mirror)
    (hexact : TokensExact relayerInfo m) (kv : common.Address × TokenInfo)
    (hkv : kv ∈ relayerInfo.Tokens) :
    applyOp m (.tokenUpdate kv.1 relayerInfo.Address (mkToken relayerInfo kv.1 kv.2)) = m := by
  have hmap : m.tokens.map
      (fun x => if x.ContractAddress = kv.1 ∧ x.RelayerAddress = relayerInfo.Address then
        mkToken relayerInfo kv.1 kv.2 else x) = m.tokens := by
    have h := List.map_congr_left (l := m.tokens)
      (f := fun x => if x.ContractAddress = kv.1 ∧ x.RelayerAddress = relayerInfo.Address then
        mkToken relayerInfo kv.1 kv.2 else x) (g := id)
      (fun x hx => by
        show (if x.ContractAddress = kv.1 ∧ x.RelayerAddress = relayerInfo.Address then
          mkToken relayerInfo kv.1 kv.2 else x) = x
        by_cases hkey : x.ContractAddress = kv.1 ∧ x.RelayerAddress = relayerInfo.Address
        · rw [if_pos hkey]
          exact (hexact kv hkv x ((mem_tokensOf _ _ _).2 ⟨hx, hkey.2⟩) hkey.1).symm
        · rw [if_neg hkey])
    rw [h, List.map_id]
  cases m
  simp only [applyOp] at hmap ⊢
  rw [hmap]

theorem relayerUpdate_fixed (relayerInfos : List RInfo) (lendings : List LendingRInfo)
    (m : Mirror) (hexact : RelayersExact relayerInfos lendings m) (r : RInfo)
    (hr : r ∈ relayerInfos) :
    applyOp m (.relayerUpdate r.Address (mkRelayer r (lendingFeeOf r.Address lendings))) =
      m := by
  have hmap : m.relayers.map
      (fun x => if x.Address = r.Address then
        mkRelayer r (lendingFeeOf r.Address lendings) else x) = m.relayers := by
    have h := List.map_congr_left (l := m.relayers)
      (f := fun x => if x.Address = r.Address then
        mkRelayer r (lendingFeeOf r.Address lendings) else x) (g := id)
      (fun x hx => by
        show (if x.Address = r.Address then
          mkRelayer r (lendingFeeOf r.Address lendings) else x) = x
        by_cases hkey : x.Address = r.Address
        · rw [if_pos hkey]
          exact (hexact r hr x hx hkey).symm
        · rw [if_neg hkey])
    rw [h, List.map_id]
  cases m
  simp only [applyOp] at hmap ⊢
  rw [hmap]

theorem relayerPass_fixed (w : World) (relayerInfo : RInfo)
    (hset : Settled relayerInfo w.mirror) (hexact : TokensExact relayerInfo w.mirror) :
    (relayerPass allSucceed w relayerInfo).mirror = w.mirror := by
  have htok : (tokenOps relayerInfo (tokensOf w.mirror relayerInfo.Address)).foldl applyOp
      w.mirror = w.mirror := by
    apply foldl_applyOp_fixed
    intro op hop
    rcases (mem_tokenOps _ _ _).1 hop with ⟨kv, hkv, rfl⟩ | ⟨hne, c, hc, hl, rfl⟩
    · rcases tokenWrite_cases relayerInfo (tokensOf w.mirror relayerInfo.Address) kv with
        ⟨_, hw⟩ | ⟨hmir, _⟩
      · rw [hw]
        exact tokenUpdate_fixed relayerInfo w.mirror hexact kv hkv
      · exfalso
        rw [tokenMirrored_iff, decide_eq_false_iff_not] at hmir
        exact hmir (hset.1 kv.1 (List.mem_map.2 ⟨kv, hkv, rfl⟩))
    · exfalso
      rw [tokenListed_iff, decide_eq_false_iff_not] at hl
      exact hl (hset.2.1 hne c.ContractAddress (List.mem_map.2 ⟨c, hc, rfl⟩))
  rw [relayerPass_mirror, htok, pairOps_of_settled relayerInfo w.mirror hset]
  rfl

theorem passes_fixed (l : List RInfo) (w : World)
    (h : ∀ j ∈ l, Settled j w.mirror ∧ TokensExact j w.mirror) :
    (l.foldl (relayerPass allSucceed) w).mirror = w.mirror := by
  induction l generalizing w with
  | nil => rfl
  | cons i rest ih =>
    rw [List.foldl_cons]
    have hi := relayerPass_fixed w i (h i (List.mem_cons_self _ _)).1
      (h i (List.mem_cons_self _ _)).2
    rw [ih (relayerPass allSucceed w i) (fun j hj => by
      rw [hi]
      exact h j (List.mem_cons_of_mem _ hj)), hi]

/-- Reconciling against a mirror that agrees with the snapshot, records included,
leaves the mirror as it is. -/
theorem UpdateRelayers_fixed (relayerInfos : List RInfo) (lendings : List LendingRInfo)
    (m : Mirror)
    (hset : ∀ j ∈ relayerInfos, Settled j m ∧ TokensExact j m)
    (hrel : RelayersSettled relayerInfos m) (hexact : RelayersExact relayerInfos lendings m) :
    (UpdateRelayers allSucceed (.ok relayerInfos) (.ok lendings) (worldOf m)).1.mirror = m := by
  have hp : (relayerInfos.foldl (relayerPass allSucceed) (worldOf m)).mirror = m :=
    passes_fixed relayerInfos (worldOf m) hset
  rw [UpdateRelayers_world, runOps_mirror]
  simp only [afterRead, hp]
  apply foldl_applyOp_fixed
  intro op hop
  simp only [relayerOps, relayerDeletes, List.mem_append, List.mem_map, List.mem_filter,
    Bool.not_eq_true', List.any_eq_false, decide_eq_true_eq] at hop
  rcases hop with ⟨r, hr, rfl⟩ | ⟨x, ⟨hx, hnone⟩, rfl⟩
  · have hin : r.Address ∈ relayerAddrs m := hrel.1 _ (List.mem_map.2 ⟨r, hr, rfl⟩)
    obtain ⟨v, hv, hva⟩ := List.mem_map.1 hin
    have hany : m.relayers.any (fun v => decide (v.Address = r.Address)) = true := by
      rw [List.any_eq_true]
      exact ⟨v, hv, by simpa using hva⟩
    simp only [relayerWrite, hany, if_true]
    exact relayerUpdate_fixed relayerInfos lendings m hexact r hr
  · exfalso
    have hin : x.Address ∈ snapshotAddresses relayerInfos :=
      hrel.2 _ (List.mem_map.2 ⟨x, hx, rfl⟩)
    obtain ⟨v, hv, hva⟩ := List.mem_map.1 hin
    exact hnone v hv hva

/-- After a full-fleet reconciliation of a well-formed snapshot the mirrored
records under the snapshot's keys are the snapshot's records. -/
theorem UpdateRelayers_exact (relayerInfos : List RInfo) (lendings : List LendingRInfo)
    (w : World) (hnd : (snapshotAddresses relayerInfos).Nodup)
    (hkeys : ∀ j ∈ relayerInfos, (tokenKeys j).Nodup) :
    (∀ j ∈ relayerInfos, TokensExact j
      (UpdateRelayers allSucceed (.ok relayerInfos) (.ok lendings) w).1.mirror) ∧
    RelayersExact relayerInfos lendings
      (UpdateRelayers allSucceed (.ok relayerInfos) (.ok lendings) w).1.mirror := by
  rw [UpdateRelayers_world, runOps_mirror]
  have hf := relayerOps_frame relayerInfos lendings
    (relayerInfos.foldl (relayerPass allSucceed) w).mirror.relayers
    (afterRead (relayerInfos.foldl (relayerPass allSucceed) w)).mirror
  constructor
  · intro j hj
    apply TokensExact_congr j (relayerInfos.foldl (relayerPass allSucceed) w).mirror
    · unfold tokensOf
      rw [hf.1]
      rfl
    · exact passes_exact relayerInfos hnd hkeys w j hj
  · exact relayerOps_exact relayerInfos lendings
      (relayerInfos.foldl (relayerPass allSucceed) w).mirror hnd

end RelayerService

/-! ## Reconciling twice -/

namespace RelayerService

/-- C1, as stated, fails. Reconciling `oneTokenInfo` against an empty mirror and
then again against the result attempts two updates, so the second delta is not
empty; and for a snapshot listing relayer 9 twice, with different token maps, the
second reconciliation even attempts a create. -/
theorem second_reconciliation_not_empty :
    delta [oneTokenInfo] [] (reconciled [oneTokenInfo] [] emptyWorld.mirror) =
        [Op.tokenUpdate 2 9 (mkToken oneTokenInfo 2 { Symbol := "NEW", Decimals := 8 }),
          Op.relayerUpdate 9 (mkRelayer oneTokenInfo 0)] ∧
      Op.tokenCreate (mkToken oneTokenInfo 2 { Symbol := "NEW", Decimals := 8 }) ∈
        delta [oneTokenInfo, rivalInfo] []
          (reconciled [oneTokenInfo, rivalInfo] [] emptyWorld.mirror) := by
  constructor
  · decide
  · decide

/-- C1, amended: for a full-fleet snapshot whose relayers have pairwise distinct
addresses and any mirror, reconciling the snapshot against the mirror the first
reconciliation leaves attempts no create and no delete: every call of the second
reconciliation is an update, of a token or of a relayer; and, the keys of every
token map being distinct, these updates leave the mirror as the first reconciliation
left it. -/
theorem second_reconciliation_only_updates (relayerInfos : List RInfo)
    (lendings : List LendingRInfo) (m : Mirror)
    (hdistinct : (snapshotAddresses relayerInfos).Nodup) :
    (∀ op ∈ delta relayerInfos lendings (reconciled relayerInfos lendings m),
      isCreate op = false ∧ isDelete op = false ∧ isUpdate op = true) ∧
    ((∀ j ∈ relayerInfos, (tokenKeys j).Nodup) →
      reconciled relayerInfos lendings (reconciled relayerInfos lendings m) =
        reconciled relayerInfos lendings m) := by
  have hset := UpdateRelayers_settles relayerInfos lendings (worldOf m) hdistinct
  constructor
  · intro op hop
    apply keyPreservingUpdate_kind
    exact UpdateRelayers_of_settled relayerInfos lendings _ hset op hop
  · intro hkeys
    have hexact := UpdateRelayers_exact relayerInfos lendings (worldOf m) hdistinct hkeys
    exact UpdateRelayers_fixed relayerInfos lendings _
      (fun j hj => ⟨hset.1 j hj, hexact.1 j hj⟩) hset.2 hexact.2

/-- The amended C1 at the snapshot `[oneTokenInfo]` and the mirror of `staleWorld`. -/
theorem second_reconciliation_only_updates_witness :
    (snapshotAddresses [oneTokenInfo]).Nodup ∧
      (∀ op ∈ delta [oneTokenInfo] [] (reconciled [oneTokenInfo] [] staleWorld.mirror),
        isCreate op = false ∧ isDelete op = false ∧ isUpdate op = true) ∧
      ((∀ j ∈ [oneTokenInfo], (tokenKeys j).Nodup) →
        reconciled [oneTokenInfo] [] (reconciled [oneTokenInfo] [] staleWorld.mirror) =
          reconciled [oneTokenInfo] [] staleWorld.mirror) :=
  ⟨by decide, second_reconciliation_only_updates [oneTokenInfo] [] staleWorld.mirror
    (by decide)⟩

end RelayerService

/-! ## The trade hash -/

namespace common

theorem bytesOf_length (n x : Nat) : (bytesOf n x).length = n := by
  induction n with
  | zero => rfl
  | succ n ih => simp [bytesOf, ih]

theorem bytesOf_lt (n x : Nat) : ∀ b ∈ bytesOf n x, b < 256 := by
  induction n with
  | zero => simp [bytesOf]
  | succ n ih =>
    intro b hb
    simp only [bytesOf, List.mem_cons] at hb
    rcases hb with hb | hb
    · rw [hb]
      exact Nat.mod_lt _ (by norm_num)
    · exact ih b hb

theorem bytesOf_mod (n : Nat) : ∀ (m x : Nat), n ≤ m → bytesOf n (x % 256 ^ m) = bytesOf n x := by
  induction n with
  | zero => intro m x _; rfl
  | succ n ih =>
    intro m x hm
    have htail := ih m x (Nat.le_of_succ_le hm)
    have hsplit : 256 ^ m = 256 ^ n * 256 ^ (m - n) := by
      rw [← pow_add]
      congr 1
      omega
    have hdvd : 256 ∣ 256 ^ (m - n) := dvd_pow_self 256 (by omega)
    have hhead : x % 256 ^ m / 256 ^ n % 256 = x / 256 ^ n % 256 := by
      rw [hsplit, Nat.mod_mul_right_div_self, Nat.mod_mod_of_dvd _ hdvd]
    simp only [bytesOf, hhead, htail]

theorem ofBytes_foldl (bs : List Nat) : ∀ acc : Nat,
    bs.foldl (fun acc b => acc * 256 + b) acc = acc * 256 ^ bs.length + ofBytes bs := by
  induction bs with
  | nil => intro acc; simp [ofBytes]
  | cons b bs ih =>
    intro acc
    simp only [ofBytes, List.foldl_cons, List.length_cons]
    rw [ih (acc * 256 + b), ih (0 * 256 + b)]
    ring

theorem ofBytes_cons (b : Nat) (bs : List Nat) :
    ofBytes (b :: bs) = b * 256 ^ bs.length + ofBytes bs := by
  have h := ofBytes_foldl bs (0 * 256 + b)
  simp only [ofBytes, List.foldl_cons]
  rw [h]
  simp [ofBytes]

theorem ofBytes_lt (bs : List Nat) (h : ∀ b ∈ bs, b < 256) : ofBytes bs < 256 ^ bs.length := by
  induction bs with
  | nil => simp [ofBytes]
  | cons b bs ih =>
    have hb : b < 256 := h b (by simp)
    have hr := ih (fun c hc => h c (by simp [hc]))
    rw [ofBytes_cons, List.length_cons, pow_succ]
    nlinarith

theorem bytesOf_ofBytes (bs : List Nat) (h : ∀ b ∈ bs, b < 256) :
    bytesOf bs.length (ofBytes bs) = bs := by
  induction bs with
  | nil => rfl
  | cons b bs ih =>
    have hb : b < 256 := h b (by simp)
    have hlt := ofBytes_lt bs (fun c hc => h c (by simp [hc]))
    have hr := ih (fun c hc => h c (by simp [hc]))
    have hpos : 0 < 256 ^ bs.length := by positivity
    have hhead : (b * 256 ^ bs.length + ofBytes bs) / 256 ^ bs.length % 256 = b := by
      rw [Nat.add_comm, Nat.add_mul_div_right _ _ hpos, Nat.div_eq_of_lt hlt, Nat.zero_add,
        Nat.mod_eq_of_lt hb]
    have htail : bytesOf bs.length (b * 256 ^ bs.length + ofBytes bs) = bs := by
      rw [← bytesOf_mod bs.length bs.length _ (le_refl _), Nat.add_comm, Nat.add_mul_mod_self_right,
        Nat.mod_eq_of_lt hlt]
      exact hr
    rw [ofBytes_cons, List.length_cons]
    simp only [bytesOf, hhead, htail]

/-- A 32-byte digest is the byte content of the hash made from it. -/
theorem Bytes_BytesToHash (d : List Nat) (hlen : d.length = 32) (h : ∀ b ∈ d, b < 256) :
    Hash.Bytes (BytesToHash d) = d := by
  have := bytesOf_ofBytes d h
  rw [hlen] at this
  simp [Hash.Bytes, BytesToHash, hlen, this]

end common

namespace types

open common

/-- C11: two trades with equal maker order hash and equal taker order hash have the
same `ComputeHash`, whatever their other fields; the result is the hash made from the
Keccak-256 digest of the 32 bytes of the maker order hash followed by the 32 bytes of
the taker order hash, and, a digest being 32 bytes, the bytes of the result are that
digest. -/
theorem ComputeHash_of_order_hashes (keccak256 : List Nat → List Nat) (t1 t2 : Trade)
    (hmaker : t1.MakerOrderHash = t2.MakerOrderHash)
    (htaker : t1.TakerOrderHash = t2.TakerOrderHash) :
    Trade.ComputeHash keccak256 t1 = Trade.ComputeHash keccak256 t2 ∧
    (Hash.Bytes t1.MakerOrderHash).length = 32 ∧
    (Hash.Bytes t1.TakerOrderHash).length = 32 ∧
    Trade.ComputeHash keccak256 t1 =
      BytesToHash (keccak256 (Hash.Bytes t1.MakerOrderHash ++ Hash.Bytes t1.TakerOrderHash)) ∧
    ((keccak256 (Hash.Bytes t1.MakerOrderHash ++ Hash.Bytes t1.TakerOrderHash)).length = 32 →
      (∀ b ∈ keccak256 (Hash.Bytes t1.MakerOrderHash ++ Hash.Bytes t1.TakerOrderHash),
        b < 256) →
      Hash.Bytes (Trade.ComputeHash keccak256 t1) =
        keccak256 (Hash.Bytes t1.MakerOrderHash ++ Hash.Bytes t1.TakerOrderHash)) := by
  refine ⟨?_, bytesOf_length 32 _, bytesOf_length 32 _, ?_, ?_⟩
  · simp [Trade.ComputeHash, hmaker, htaker]
  · simp [Trade.ComputeHash]
  · intro hlen hbytes
    have h := Bytes_BytesToHash _ hlen hbytes
    simpa [Trade.ComputeHash] using h

/-- The statement of C11 at `sampleTrade` and `otherTrade`, which share their order
hashes and differ in parties, tokens, amount, price, status and timestamps. -/
theorem ComputeHash_of_order_hashes_witness :
    sampleTrade.MakerOrderHash = otherTrade.MakerOrderHash ∧
    sampleTrade.TakerOrderHash = otherTrade.TakerOrderHash ∧
    sampleTrade ≠ otherTrade ∧
    Trade.ComputeHash firstBytes sampleTrade = Trade.ComputeHash firstBytes otherTrade :=
  ⟨rfl, rfl, by decide, (ComputeHash_of_order_hashes firstBytes sampleTrade otherTrade rfl rfl).1⟩

end types

/-! ## The handlers -/

namespace endpoints

open common types

theorem invalidAddress_false_iff (s : String) :
    invalidAddress s = false ↔ ¬ (s ≠ "" ∧ IsHexAddress s = false) := by
  unfold invalidAddress
  by_cases h1 : s = "" <;> cases h2 : IsHexAddress s <;> simp [h1]

theorem invalidAddress_true_iff (s : String) :
    invalidAddress s = true ↔ (s ≠ "" ∧ IsHexAddress s = false) := by
  unfold invalidAddress
  by_cases h1 : s = "" <;> cases h2 : IsHexAddress s <;> simp [h1]

theorem IsHexAddress_empty : IsHexAddress "" = false := by decide

/-- The loop over the `baseToken` values keeps the valid ones, in order. -/
theorem baseTokensLoop_eq (vs : List String) :
    baseTokensLoop vs = (vs.filter IsHexAddress).map HexToAddress := by
  have h : ∀ (acc : List Address),
      vs.foldl
        (fun baseTokens bt =>
          if bt ≠ "" then
            if IsHexAddress bt then baseTokens ++ [HexToAddress bt] else baseTokens
          else baseTokens) acc = acc ++ (vs.filter IsHexAddress).map HexToAddress := by
    induction vs with
    | nil => intro acc; simp
    | cons bt vs ih =>
      intro acc
      rw [List.foldl_cons, ih]
      by_cases h1 : bt = ""
      · subst h1
        simp [IsHexAddress_empty]
      · cases h2 : IsHexAddress bt <;> simp [h1, h2, List.filter_cons]
  simpa [baseTokensLoop] using h []

/-- The run of `handleQueryVolume` on a request that passes the address checks. -/
theorem handleQueryVolume_of_valid (svc : TradeService) (v : Values)
    (h : passesValidation v) :
    handleQueryVolume svc v =
      ⟨[ServiceCall.QueryVolume
          (if v.Get "relayerAddress" ≠ "" then HexToAddress (v.Get "relayerAddress") else 0)
          (if v.Get "userAddress" ≠ "" then
            (if IsHexAddress (v.Get "userAddress") then HexToAddress (v.Get "userAddress")
              else 0) else 0)
          (baseTokensLoop (v.index "baseToken"))
          (if v.Get "quoteToken" ≠ "" then HexToAddress (v.Get "quoteToken") else 0)
          (if v.Get "from" ≠ "" then (strconv.Atoi (v.Get "from")).1 else 0)
          (if v.Get "to" ≠ "" then (strconv.Atoi (v.Get "to")).1 else 0)
          (if v.Get "top" ≠ "" then (strconv.Atoi (v.Get "top")).1 else 10)],
        .WriteJSON StatusOK (.volumes (some (listWritten
          (svc.QueryVolume
            (if v.Get "relayerAddress" ≠ "" then HexToAddress (v.Get "relayerAddress") else 0)
            (if v.Get "userAddress" ≠ "" then
              (if IsHexAddress (v.Get "userAddress") then HexToAddress (v.Get "userAddress")
                else 0) else 0)
            (baseTokensLoop (v.index "baseToken"))
            (if v.Get "quoteToken" ≠ "" then HexToAddress (v.Get "quoteToken") else 0)
            (if v.Get "from" ≠ "" then (strconv.Atoi (v.Get "from")).1 else 0)
            (if v.Get "to" ≠ "" then (strconv.Atoi (v.Get "to")).1 else 0)
            (if v.Get "top" ≠ "" then (strconv.Atoi (v.Get "top")).1 else 10)))))⟩ := by
  obtain ⟨hq, hr⟩ := h
  rw [invalidAddress_false_iff] at hq hr
  unfold handleQueryVolume
  simp only [if_neg hq, if_neg hr]
  split <;> rename_i hres <;> simp only [hres, listWritten]

end endpoints
namespace endpoints

open common types

/-- The run of `handleQuery24h` on a request that passes the address checks. -/
theorem handleQuery24h_of_valid (svc : TradeService) (v : Values)
    (h : passesValidation v) :
    handleQuery24h svc v =
      ⟨[ServiceCall.Query24hVolume
          (if v.Get "relayerAddress" ≠ "" then HexToAddress (v.Get "relayerAddress") else 0)
          (if v.Get "userAddress" ≠ "" then
            (if IsHexAddress (v.Get "userAddress") then HexToAddress (v.Get "userAddress")
              else 0) else 0)
          (baseTokensLoop (v.index "baseToken"))
          (if v.Get "quoteToken" ≠ "" then HexToAddress (v.Get "quoteToken") else 0)
          (if v.Get "top" ≠ "" then (strconv.Atoi (v.Get "top")).1 else 10)],
        .WriteJSON StatusOK (.volumes (some (listWritten
          (svc.Query24hVolume
            (if v.Get "relayerAddress" ≠ "" then HexToAddress (v.Get "relayerAddress") else 0)
            (if v.Get "userAddress" ≠ "" then
              (if IsHexAddress (v.Get "userAddress") then HexToAddress (v.Get "userAddress")
                else 0) else 0)
            (baseTokensLoop (v.index "baseToken"))
            (if v.Get "quoteToken" ≠ "" then HexToAddress (v.Get "quoteToken") else 0)
            (if v.Get "top" ≠ "" then (strconv.Atoi (v.Get "top")).1 else 10)))))⟩ := by
  obtain ⟨hq, hr⟩ := h
  rw [invalidAddress_false_iff] at hq hr
  unfold handleQuery24h
  simp only [if_neg hq, if_neg hr]
  split <;> rename_i hres <;> simp only [hres, listWritten]

/-- The run of `handleGetRelayerTopPnLTrades` on a request that passes the address
checks. -/
theorem handleGetRelayerTopPnLTrades_of_valid (svc : TradeService) (v : Values)
    (h : passesValidation3 v) :
    handleGetRelayerTopPnLTrades svc v =
      ⟨[ServiceCall.GetTopRelayerUserPnL
          (if v.Get "relayerAddress" ≠ "" then HexToAddress (v.Get "relayerAddress") else 0)
          (if v.Get "baseToken" ≠ "" then HexToAddress (v.Get "baseToken") else 0)
          (if v.Get "quoteToken" ≠ "" then HexToAddress (v.Get "quoteToken") else 0)
          (if v.Get "top" ≠ "" then (strconv.Atoi (v.Get "top")).1 else 10)],
        .WriteJSON StatusOK (.pnls (some (listWritten
          (svc.GetTopRelayerUserPnL
            (if v.Get "relayerAddress" ≠ "" then HexToAddress (v.Get "relayerAddress") else 0)
            (if v.Get "baseToken" ≠ "" then HexToAddress (v.Get "baseToken") else 0)
            (if v.Get "quoteToken" ≠ "" then HexToAddress (v.Get "quoteToken") else 0)
            (if v.Get "top" ≠ "" then (strconv.Atoi (v.Get "top")).1 else 10)))))⟩ := by
  obtain ⟨hb, hq, hr⟩ := h
  rw [invalidAddress_false_iff] at hb hq hr
  unfold handleGetRelayerTopPnLTrades
  simp only [if_neg hb, if_neg hq, if_neg hr]
  split <;> rename_i hres <;> simp only [hres, listWritten]

/-- A request that fails an address check of `handleQueryVolume` is answered by
`WriteError` with status 400, and no call is made. -/
theorem handleQueryVolume_of_invalid (svc : TradeService) (v : Values)
    (h : ¬ passesValidation v) :
    (handleQueryVolume svc v).calls = [] ∧
      ((handleQueryVolume svc v).reply = .WriteError 400 "Invalid quotetoken address" ∨
        (handleQueryVolume svc v).reply = .WriteError 400 "Invalid relayer address") := by
  unfold passesValidation at h
  by_cases hq : invalidAddress (v.Get "quoteToken") = true
  · have hq' := (invalidAddress_true_iff _).1 hq
    simp [handleQueryVolume, hq'.1, hq'.2, StatusBadRequest]
  · have hq1 : invalidAddress (v.Get "quoteToken") = false := by simpa using hq
    have hr : invalidAddress (v.Get "relayerAddress") = true := by
      cases hx : invalidAddress (v.Get "relayerAddress")
      · exact absurd ⟨hq1, hx⟩ h
      · rfl
    have hq' := (invalidAddress_false_iff _).1 hq1
    have hr' := (invalidAddress_true_iff _).1 hr
    unfold handleQueryVolume
    rw [if_neg hq']
    simp [hr'.1, hr'.2, StatusBadRequest]

/-- A request that fails an address check of `handleQuery24h` is answered by
`WriteError` with status 400, and no call is made. -/
theorem handleQuery24h_of_invalid (svc : TradeService) (v : Values)
    (h : ¬ passesValidation v) :
    (handleQuery24h svc v).calls = [] ∧
      ((handleQuery24h svc v).reply = .WriteError 400 "Invalid quotetoken address" ∨
        (handleQuery24h svc v).reply = .WriteError 400 "Invalid relayer address") := by
  unfold passesValidation at h
  by_cases hq : invalidAddress (v.Get "quoteToken") = true
  · have hq' := (invalidAddress_true_iff _).1 hq
    simp [handleQuery24h, hq'.1, hq'.2, StatusBadRequest]
  · have hq1 : invalidAddress (v.Get "quoteToken") = false := by simpa using hq
    have hr : invalidAddress (v.Get "relayerAddress") = true := by
      cases hx : invalidAddress (v.Get "relayerAddress")
      · exact absurd ⟨hq1, hx⟩ h
      · rfl
    have hq' := (invalidAddress_false_iff _).1 hq1
    have hr' := (invalidAddress_true_iff _).1 hr
    unfold handleQuery24h
    rw [if_neg hq']
    simp [hr'.1, hr'.2, StatusBadRequest]

theorem if_hex_eq (s : String) :
    (if s ≠ "" then (if IsHexAddress s then HexToAddress s else 0) else 0) =
      if IsHexAddress s then HexToAddress s else 0 := by
  by_cases h : s = ""
  · subst h
    simp [IsHexAddress_empty]
  · simp [h]

/-- C12, as stated, fails: the request `userAddress=xyz`, whose user address is not
a hex address, is answered with status 200 after a call of `QueryVolume` with the
zero user address, and likewise by `handleQuery24h`; so is the request
`baseToken=xyz`, whose value is dropped from the list. -/
theorem invalid_user_address_is_served :
    (¬ ∀ (svc : TradeService) (v : Values),
        (invalidAddress (v.Get "quoteToken") = true ∨
          invalidAddress (v.Get "relayerAddress") = true ∨
          invalidAddress (v.Get "userAddress") = true ∨
          ∃ bt ∈ v.index "baseToken", invalidAddress bt = true) →
        ((handleQueryVolume svc v).reply.status = 400 ∧ (handleQueryVolume svc v).calls = []) ∧
        ((handleQuery24h svc v).reply.status = 400 ∧ (handleQuery24h svc v).calls = [])) ∧
    invalidAddress "xyz" = true ∧
    handleQueryVolume sampleService [("userAddress", ["xyz"])] =
      ⟨[ServiceCall.QueryVolume 0 0 [] 0 0 0 10], .WriteJSON 200 (.volumes (some []))⟩ ∧
    handleQueryVolume sampleService [("baseToken", ["xyz"])] =
      ⟨[ServiceCall.QueryVolume 0 0 [] 0 0 0 10], .WriteJSON 200 (.volumes (some []))⟩ ∧
    handleQuery24h sampleService [("userAddress", ["xyz"])] =
      ⟨[ServiceCall.Query24hVolume 0 0 [] 0 10],
        .WriteJSON 200 (.volumes (some [{ UserAddress := 1, Volume := some 5, Rank := 1 }]))⟩ := by
  refine ⟨?_, by decide, by decide, by decide, by decide⟩
  intro h
  have h1 := (h sampleService [("userAddress", ["xyz"])]
    (Or.inr (Or.inr (Or.inl (by decide))))).1.1
  revert h1
  decide

/-- C12, amended: `handleQueryVolume` and `handleQuery24h` reject a request, by
`WriteError` with status 400 and the message `Invalid quotetoken address` or
`Invalid relayer address` and without a call on the trade service, when its
`quoteToken` or its `relayerAddress` is given and is not a hex address, and only
then; every other request is answered with status 200 after one call on the service,
in which the `baseToken` values that are not hex addresses are left out of the list
and a `userAddress` that is not a hex address is passed as the zero address. -/
theorem volume_handlers_reject_only_quote_and_relayer (svc : TradeService) (v : Values) :
    (¬ passesValidation v →
      ((handleQueryVolume svc v).calls = [] ∧
        ((handleQueryVolume svc v).reply = .WriteError 400 "Invalid quotetoken address" ∨
          (handleQueryVolume svc v).reply = .WriteError 400 "Invalid relayer address")) ∧
      ((handleQuery24h svc v).calls = [] ∧
        ((handleQuery24h svc v).reply = .WriteError 400 "Invalid quotetoken address" ∨
          (handleQuery24h svc v).reply = .WriteError 400 "Invalid relayer address"))) ∧
    (passesValidation v →
      ((handleQueryVolume svc v).reply.status = 200 ∧
        ∃ r q f t n, (handleQueryVolume svc v).calls =
          [ServiceCall.QueryVolume r
            (if IsHexAddress (v.Get "userAddress") then HexToAddress (v.Get "userAddress")
              else 0)
            (((v.index "baseToken").filter IsHexAddress).map HexToAddress) q f t n]) ∧
      ((handleQuery24h svc v).reply.status = 200 ∧
        ∃ r q n, (handleQuery24h svc v).calls =
          [ServiceCall.Query24hVolume r
            (if IsHexAddress (v.Get "userAddress") then HexToAddress (v.Get "userAddress")
              else 0)
            (((v.index "baseToken").filter IsHexAddress).map HexToAddress) q n])) := by
  constructor
  · intro h
    exact ⟨handleQueryVolume_of_invalid svc v h, handleQuery24h_of_invalid svc v h⟩
  · intro h
    rw [handleQueryVolume_of_valid svc v h, handleQuery24h_of_valid svc v h]
    simp only [if_hex_eq, baseTokensLoop_eq]
    exact ⟨⟨rfl, _, _, _, _, _, rfl⟩, ⟨rfl, _, _, _, rfl⟩⟩

/-- The amended C12 at the request `quoteToken=xyz`, which both handlers reject, and
at the request `userAddress=xyz`, which both serve. -/
theorem volume_handlers_reject_only_quote_and_relayer_witness :
    ¬ passesValidation [("quoteToken", ["xyz"])] ∧
    (handleQueryVolume sampleService [("quoteToken", ["xyz"])]).calls = [] ∧
    passesValidation [("userAddress", ["xyz"])] ∧
    (handleQueryVolume sampleService [("userAddress", ["xyz"])]).reply.status = 200 :=
  ⟨by decide,
    ((volume_handlers_reject_only_quote_and_relayer sampleService
      [("quoteToken", ["xyz"])]).1 (by decide)).1.1,
    by decide,
    ((volume_handlers_reject_only_quote_and_relayer sampleService
      [("userAddress", ["xyz"])]).2 (by decide)).1.1⟩

end endpoints

namespace endpoints

open common types

/-- C13: on a request to `handleGetNumberUser` whose address parameters pass the
checks, a `duration` other than the empty text, `1d`, `7d` and `30d` is answered
with status 400 and the message `duration must be empty/1d/7d/30d`, without a call of
`GetNumberTraderByTime`; each of the four accepted values is answered with status
200, after one call whose start is 0 for the empty duration and the clock moved
back by 1, 7 or 30 days for the others. -/
theorem handleGetNumberUser_duration (svc : TradeService) (unixDaysFromNow : Int → Int)
    (v : Values) (h : passesValidation3 v) :
    (v.Get "duration" ∉ ["", "1d", "7d", "30d"] →
      (handleGetNumberUser svc unixDaysFromNow v).reply =
          .WriteJSON 400 (.text "duration must be empty/1d/7d/30d") ∧
        (handleGetNumberUser svc unixDaysFromNow v).calls = []) ∧
    (v.Get "duration" ∈ ["", "1d", "7d", "30d"] →
      (handleGetNumberUser svc unixDaysFromNow v).reply.status = 200 ∧
        ∃ r b q, (handleGetNumberUser svc unixDaysFromNow v).calls =
          [ServiceCall.GetNumberTraderByTime r b q
            (if v.Get "duration" = "" then 0
              else if v.Get "duration" = "1d" then unixDaysFromNow (-1)
              else if v.Get "duration" = "7d" then unixDaysFromNow (-7)
              else unixDaysFromNow (-30))
            0 (decide (v.Get "excludeBot" = "true"))]) := by
  obtain ⟨hb, hq, hr⟩ := h
  rw [invalidAddress_false_iff] at hb hq hr
  constructor
  · intro hd
    simp only [List.mem_cons, List.mem_singleton, List.not_mem_nil, or_false, not_or] at hd
    obtain ⟨h0, h1, h7, h30⟩ := hd
    unfold handleGetNumberUser
    simp only [if_neg hb, if_neg hq, if_neg hr, if_neg h0, if_neg h1, if_neg h7, if_neg h30,
      StatusBadRequest, and_self]
  · intro hd
    simp only [List.mem_cons, List.mem_singleton, List.not_mem_nil, or_false] at hd
    unfold handleGetNumberUser
    simp only [if_neg hb, if_neg hq, if_neg hr]
    refine ⟨?_, (if v.Get "relayerAddress" ≠ "" then HexToAddress (v.Get "relayerAddress") else 0),
      (if v.Get "baseToken" ≠ "" then HexToAddress (v.Get "baseToken") else 0),
      (if v.Get "quoteToken" ≠ "" then HexToAddress (v.Get "quoteToken") else 0), ?_⟩
    · rcases hd with hd | hd | hd | hd <;> simp [hd, numberUserReply, Reply.status, StatusOK]
    · rcases hd with hd | hd | hd | hd <;> simp [hd, numberUserReply]

/-- The statement of C13 at the requests `duration=2d` and `duration=7d` with a
valid relayer address. -/
theorem handleGetNumberUser_duration_witness :
    passesValidation3 [("relayerAddress", [validText]), ("duration", ["2d"])] ∧
    (handleGetNumberUser sampleService sampleClock
        [("relayerAddress", [validText]), ("duration", ["2d"])]).reply =
      .WriteJSON 400 (.text "duration must be empty/1d/7d/30d") ∧
    (handleGetNumberUser sampleService sampleClock
        [("relayerAddress", [validText]), ("duration", ["7d"])]).reply.status = 200 :=
  ⟨by decide,
    ((handleGetNumberUser_duration sampleService sampleClock
      [("relayerAddress", [validText]), ("duration", ["2d"])] (by decide)).1 (by decide)).1,
    ((handleGetNumberUser_duration sampleService sampleClock
      [("relayerAddress", [validText]), ("duration", ["7d"])] (by decide)).2 (by decide)).1⟩

/-- C14: on a request that passes the address checks, `handleQueryVolume` calls
`QueryVolume` once; the count is 10 when `top` is absent or empty, and each filter
that is absent or empty is passed as its zero value: the zero address for
`relayerAddress`, `userAddress` and `quoteToken`, the empty list for `baseToken`,
zero for `from` and `to`. So the request with no parameter calls
`QueryVolume (0, 0, [], 0, 0, 0, 10)`. -/
theorem handleQueryVolume_defaults (svc : TradeService) (v : Values)
    (h : passesValidation v) :
    (∃ r u b q f t n,
      (handleQueryVolume svc v).calls = [ServiceCall.QueryVolume r u b q f t n] ∧
      (v.Get "top" = "" → n = 10) ∧
      (v.Get "relayerAddress" = "" → r = 0) ∧
      (v.Get "userAddress" = "" → u = 0) ∧
      (v.Get "quoteToken" = "" → q = 0) ∧
      ((∀ bt ∈ v.index "baseToken", bt = "") → b = []) ∧
      (v.Get "from" = "" → f = 0) ∧
      (v.Get "to" = "" → t = 0)) ∧
    (v = [] → (handleQueryVolume svc v).calls = [ServiceCall.QueryVolume 0 0 [] 0 0 0 10]) := by
  rw [handleQueryVolume_of_valid svc v h]
  refine ⟨⟨_, _, _, _, _, _, _, rfl, ?_, ?_, ?_, ?_, ?_, ?_, ?_⟩, ?_⟩
  · intro h0; simp [h0]
  · intro h0; simp [h0]
  · intro h0; simp [h0]
  · intro h0; simp [h0]
  · intro h0
    rw [baseTokensLoop_eq]
    have : (v.index "baseToken").filter IsHexAddress = [] := by
      rw [List.filter_eq_nil_iff]
      intro bt hbt
      rw [h0 bt hbt]
      simp [IsHexAddress_empty]
    rw [this]
    rfl
  · intro h0; simp [h0]
  · intro h0; simp [h0]
  · intro h0
    subst h0
    rfl

/-- The statement of C14 at the request with no parameter. -/
theorem handleQueryVolume_defaults_witness :
    passesValidation [] ∧
    (handleQueryVolume sampleService []).calls = [ServiceCall.QueryVolume 0 0 [] 0 0 0 10] :=
  ⟨by decide, (handleQueryVolume_defaults sampleService [] (by decide)).2 rfl⟩

/-- C15: `handleQueryVolume`, `handleQuery24h` and `handleGetRelayerTopPnLTrades`
answer a request that passes their address checks with status 200 and a list that
is not nil: the list the service returned to the one call made, and the empty list
when the service returned nil. -/
theorem handlers_write_a_list (svc : TradeService) (v : Values) :
    (passesValidation v →
      (∃ r u b q f t n,
        (handleQueryVolume svc v).calls = [ServiceCall.QueryVolume r u b q f t n] ∧
        (handleQueryVolume svc v).reply.status = 200 ∧
        ∃ body, (handleQueryVolume svc v).reply = .WriteJSON 200 (.volumes (some body)) ∧
          (svc.QueryVolume r u b q f t n = none → body = []) ∧
          (∀ res, svc.QueryVolume r u b q f t n = some res → body = res)) ∧
      (∃ r u b q n,
        (handleQuery24h svc v).calls = [ServiceCall.Query24hVolume r u b q n] ∧
        (handleQuery24h svc v).reply.status = 200 ∧
        ∃ body, (handleQuery24h svc v).reply = .WriteJSON 200 (.volumes (some body)) ∧
          (svc.Query24hVolume r u b q n = none → body = []) ∧
          (∀ res, svc.Query24hVolume r u b q n = some res → body = res))) ∧
    (passesValidation3 v →
      ∃ r b q n,
        (handleGetRelayerTopPnLTrades svc v).calls =
          [ServiceCall.GetTopRelayerUserPnL r b q n] ∧
        (handleGetRelayerTopPnLTrades svc v).reply.status = 200 ∧
        ∃ body, (handleGetRelayerTopPnLTrades svc v).reply =
            .WriteJSON 200 (.pnls (some body)) ∧
          (svc.GetTopRelayerUserPnL r b q n = none → body = []) ∧
          (∀ res, svc.GetTopRelayerUserPnL r b q n = some res → body = res)) := by
  constructor
  · intro h
    rw [handleQueryVolume_of_valid svc v h, handleQuery24h_of_valid svc v h]
    refine ⟨⟨_, _, _, _, _, _, _, rfl, rfl, _, rfl, ?_, ?_⟩, ⟨_, _, _, _, _, rfl, rfl, _, rfl, ?_, ?_⟩⟩
    · intro h0; rw [h0]; rfl
    · intro res h0; rw [h0]; rfl
    · intro h0; rw [h0]; rfl
    · intro res h0; rw [h0]; rfl
  · intro h
    rw [handleGetRelayerTopPnLTrades_of_valid svc v h]
    refine ⟨_, _, _, _, rfl, rfl, _, rfl, ?_, ?_⟩
    · intro h0; rw [h0]; rfl
    · intro res h0; rw [h0]; rfl

/-- The statement of C15 at the request with no parameter: the nil ranking of
`sampleService` is written as the empty list, its one-entry ranking as it is. -/
theorem handlers_write_a_list_witness :
    passesValidation [] ∧ passesValidation3 [] ∧
    (handleQueryVolume sampleService []).reply = .WriteJSON 200 (.volumes (some [])) ∧
    (handleQuery24h sampleService []).reply =
      .WriteJSON 200 (.volumes (some [{ UserAddress := 1, Volume := some 5, Rank := 1 }])) ∧
    (handleGetRelayerTopPnLTrades sampleService []).reply = .WriteJSON 200 (.pnls (some [])) ∧
    ∃ r b q n, (handleGetRelayerTopPnLTrades sampleService []).calls =
      [ServiceCall.GetTopRelayerUserPnL r b q n] :=
  ⟨by decide, by decide, by decide, by decide, by decide,
    (((handlers_write_a_list sampleService []).2 (by decide)).imp fun _ hr =>
      hr.imp fun _ hb => hb.imp fun _ hq => hq.imp fun _ hn => hn.1)⟩

end endpoints

namespace endpoints

open common types

/-- An error of the loop of `ParseUint` comes with the number 0 when it is a syntax
error and with the largest 64-bit value when it is a range error. -/
theorem parseUintLoop_error (s : List Nat) : ∀ n : Nat,
    ((strconv.parseUintLoop s n).2 = some .ErrSyntax → (strconv.parseUintLoop s n).1 = 0) ∧
    ((strconv.parseUintLoop s n).2 = some .ErrRange →
      (strconv.parseUintLoop s n).1 = 2 ^ 64 - 1) := by
  induction s with
  | nil => intro n; simp [strconv.parseUintLoop]
  | cons c rest ih =>
    intro n
    unfold strconv.parseUintLoop
    by_cases hd : '0'.toNat ≤ c ∧ c ≤ '9'.toNat
    · rw [if_pos hd]
      by_cases h1 : n ≥ (2 ^ 64 - 1) / 10 + 1
      · rw [if_pos h1]
        simp
      · rw [if_neg h1]
        by_cases h2 : n * 10 + (c - '0'.toNat) > 2 ^ 64 - 1
        · rw [if_pos h2]
          simp
        · rw [if_neg h2]
          exact ih _
    · rw [if_neg hd]
      simp

/-- An error of `ParseInt` comes with the number 0 when it is a syntax error and with
a bound of the 64-bit range when it is a range error. -/
theorem ParseInt_error (s : List Nat) :
    ((strconv.ParseInt s).2 = some .ErrSyntax → (strconv.ParseInt s).1 = 0) ∧
    ((strconv.ParseInt s).2 = some .ErrRange →
      (strconv.ParseInt s).1 = 2 ^ 63 - 1 ∨ (strconv.ParseInt s).1 = -(2 ^ 63)) := by
  unfold strconv.ParseInt
  by_cases h0 : s = []
  · rw [if_pos h0]
    simp
  · rw [if_neg h0]
    simp only
    generalize (if s.head? = some '+'.toNat ∨ s.head? = some '-'.toNat then s.drop 1 else s) = s1
    generalize decide (s.head? = some '-'.toNat) = neg
    rcases hp : strconv.ParseUint s1 with ⟨un, e⟩
    cases e with
    | none =>
      simp only
      by_cases h1 : neg = false ∧ un ≥ 2 ^ 63
      · rw [if_pos h1]
        simp
      · rw [if_neg h1]
        by_cases h2 : neg = true ∧ un > 2 ^ 63
        · rw [if_pos h2]
          simp
        · rw [if_neg h2]
          simp
    | some e =>
      cases e with
      | ErrSyntax => simp
      | ErrRange =>
        simp only
        by_cases h1 : neg = false ∧ un ≥ 2 ^ 63
        · rw [if_pos h1]
          simp
        · rw [if_neg h1]
          by_cases h2 : neg = true ∧ un > 2 ^ 63
          · rw [if_pos h2]
            simp
          · rw [if_neg h2]
            simp

/-- An error of `strconv.Atoi` comes with the number 0 when it is a syntax error and
with a bound of the 64-bit range when it is a range error. -/
theorem Atoi_error_value (s : String) :
    ((strconv.Atoi s).2 = some .ErrSyntax → (strconv.Atoi s).1 = 0) ∧
    ((strconv.Atoi s).2 = some .ErrRange →
      (strconv.Atoi s).1 = 2 ^ 63 - 1 ∨ (strconv.Atoi s).1 = -(2 ^ 63)) := by
  unfold strconv.Atoi
  simp only
  by_cases hlen : 0 < (stringBytes s).length ∧ (stringBytes s).length < 19
  · rw [if_pos hlen]
    split_ifs <;> first | (split <;> simp) | simp
  · rw [if_neg hlen]
    exact ParseInt_error _

/-- C18, as stated, fails: the request `top=abc` is answered with status 200 after a
call of `QueryVolume` with the count 0, the number `strconv.Atoi` returns with its
syntax error; `from=abc` and `to=1x` are passed as 0 likewise, and the request
`top=99999999999999999999x` is served with the count 9223372036854775807, the
number that comes with the range error. -/
theorem non_decimal_top_is_served :
    (¬ ∀ (svc : TradeService) (v : Values),
        (∃ k ∈ ["top", "from", "to"], v.Get k ≠ "" ∧ (strconv.Atoi (v.Get k)).2 ≠ none) →
        (400 ≤ (handleQueryVolume svc v).reply.status ∧
          (handleQueryVolume svc v).reply.status < 500) ∧
        (handleQueryVolume svc v).calls = []) ∧
    strconv.Atoi "abc" = (0, some .ErrSyntax) ∧
    strconv.Atoi "99999999999999999999x" = (9223372036854775807, some .ErrRange) ∧
    handleQueryVolume sampleService [("top", ["abc"])] =
      ⟨[ServiceCall.QueryVolume 0 0 [] 0 0 0 0], .WriteJSON 200 (.volumes (some []))⟩ ∧
    handleQueryVolume sampleService [("from", ["abc"]), ("to", ["1x"])] =
      ⟨[ServiceCall.QueryVolume 0 0 [] 0 0 0 10], .WriteJSON 200 (.volumes (some []))⟩ ∧
    handleQueryVolume sampleService [("top", ["99999999999999999999x"])] =
      ⟨[ServiceCall.QueryVolume 0 0 [] 0 0 0 9223372036854775807],
        .WriteJSON 200 (.volumes (some []))⟩ := by
  refine ⟨?_, by decide, by decide, by decide, by decide, by decide⟩
  intro h
  have h1 := (h sampleService [("top", ["abc"])] ⟨"top", by decide, by decide, by decide⟩).2
  revert h1
  decide

/-- C18, amended: on a request that passes the address checks, whatever its `top`,
`from` and `to`, `handleQueryVolume` answers with status 200 after one call of
`QueryVolume`, in which a `from`, `to` or `top` that is given is passed as the
number `strconv.Atoi` returns for it, the error being dropped: that number is zero
when the error is a syntax error and a bound of the 64-bit range when it is a range
error. -/
theorem handleQueryVolume_numbers_unchecked (svc : TradeService) (v : Values)
    (h : passesValidation v) :
    (handleQueryVolume svc v).reply.status = 200 ∧
    (∃ r u b q, (handleQueryVolume svc v).calls =
      [ServiceCall.QueryVolume r u b q
        (if v.Get "from" ≠ "" then (strconv.Atoi (v.Get "from")).1 else 0)
        (if v.Get "to" ≠ "" then (strconv.Atoi (v.Get "to")).1 else 0)
        (if v.Get "top" ≠ "" then (strconv.Atoi (v.Get "top")).1 else 10)]) ∧
    (∀ k, ((strconv.Atoi (v.Get k)).2 = some .ErrSyntax → (strconv.Atoi (v.Get k)).1 = 0) ∧
      ((strconv.Atoi (v.Get k)).2 = some .ErrRange →
        (strconv.Atoi (v.Get k)).1 = 2 ^ 63 - 1 ∨ (strconv.Atoi (v.Get k)).1 = -(2 ^ 63))) := by
  rw [handleQueryVolume_of_valid svc v h]
  exact ⟨rfl, ⟨_, _, _, _, rfl⟩, fun k => Atoi_error_value _⟩

/-- The amended C18 at the requests `top=abc` and `top=99999999999999999999x`. -/
theorem handleQueryVolume_numbers_unchecked_witness :
    passesValidation [("top", ["abc"])] ∧
    (handleQueryVolume sampleService [("top", ["abc"])]).reply.status = 200 ∧
    passesValidation [("top", ["99999999999999999999x"])] ∧
    (handleQueryVolume sampleService [("top", ["99999999999999999999x"])]).reply.status = 200 :=
  ⟨by decide, (handleQueryVolume_numbers_unchecked sampleService [("top", ["abc"])]
    (by decide)).1, by decide,
    (handleQueryVolume_numbers_unchecked sampleService [("top", ["99999999999999999999x"])]
      (by decide)).1⟩

end endpoints

/-! ## The trade codecs -/

namespace types

open common

/-- C16 fails: given an object that has `maker` and lacks `taker`, `UnmarshalJSON`
passes the test of `maker` and then asserts that the nil `taker` is a string, which
panics, where the claim has it return `Taker is not set`; an object whose order hash
is a number panics likewise. An object that has `taker` and lacks `maker` gets
`Maker is not set`. -/
theorem UnmarshalJSON_panics_without_taker (lib : TextLib) (t : Trade) :
    makerOnly.get "maker" ≠ none ∧ makerOnly.get "taker" = none ∧
    (∃ t', Trade.UnmarshalJSON lib makerOnly t = .ended t' .panicked) ∧
    (∃ t', Trade.UnmarshalJSON lib numericOrderHash t = .ended t' .panicked) ∧
    (∃ t', Trade.UnmarshalJSON lib takerOnly t =
      .ended t' (.returned (some "Maker is not set"))) := by
  refine ⟨by decide, by decide, ?_, ?_, ?_⟩
  · simp [Trade.UnmarshalJSON, required, optional, Flow.andThen, JsonObject.get,
      JsonObject.getString, makerOnly]
  · simp [Trade.UnmarshalJSON, required, optional, Flow.andThen, JsonObject.get,
      JsonObject.getString, numericOrderHash]
  · simp [Trade.UnmarshalJSON, required, optional, Flow.andThen, JsonObject.get,
      JsonObject.getString, takerOnly]

/-- C20 fails: `SetBSON` applied to the record `GetBSON` makes of a trade sets the
maker order type to the taker order type of the trade; for `sampleTrade` the maker
order type `LO` comes back as `MO`. -/
theorem SetBSON_overwrites_maker_order_type (lib : TextLib) (t t0 : Trade) :
    (Trade.SetBSON lib (.ok (Trade.GetBSON lib t)) t0).2 = none ∧
    (Trade.SetBSON lib (.ok (Trade.GetBSON lib t)) t0).1.MakerOrderType = t.TakerOrderType ∧
    (Trade.SetBSON lib (.ok (Trade.GetBSON lib t)) t0).1.TakerOrderType = t.TakerOrderType ∧
    sampleTrade.MakerOrderType = "LO" ∧
    (Trade.SetBSON lib (.ok (Trade.GetBSON lib sampleTrade)) t0).1.MakerOrderType = "MO" := by
  refine ⟨?_, ?_, ?_, rfl, ?_⟩ <;> simp only [Trade.SetBSON, Trade.GetBSON]
  rfl

end types

namespace types

open common

theorem getString_of_get (o : JsonObject) (k s : String) (h : o.get k = some (.string s)) :
    o.getString k = some s := by
  simp [JsonObject.getString, h]

theorem required_goOn (trade : JsonObject) (check read msg : String)
    (assign : String → Trade → Trade) (t : Trade) (v : JsonValue) (s : String)
    (hcheck : trade.get check = some v) (hread : trade.get read = some (.string s)) :
    required trade check read msg assign t = .goOn (assign s t) := by
  simp [required, hcheck, getString_of_get trade read s hread]

theorem optional_goOn (trade : JsonObject) (k : String) (assign : String → Trade → Trade)
    (t : Trade) (s : String) (h : trade.get k = some (.string s)) :
    optional trade k assign t = .goOn (assign s t) := by
  simp [optional, h]

theorem optional_absent (trade : JsonObject) (k : String) (assign : String → Trade → Trade)
    (t : Trade) (h : trade.get k = none) : optional trade k assign t = .goOn t := by
  simp [optional, h]

theorem optionalText_goOn (trade : JsonObject) (k : String) (assign : String → Trade → Trade)
    (t : Trade) (v : JsonValue) (h : trade.get k = some v) :
    optionalText trade k assign t = .goOn (assign (sprintV v) t) := by
  simp [optionalText, h]

/-- One statement of `UnmarshalJSON` that goes on, with a property `Q` of the
receiver carried to the statements after it. -/
theorem chain_step (X Y : String) (f : Flow) (g : Trade → Flow) (tnew : Trade)
    (Q : Trade → Prop) (hf : f = .goOn tnew) (hQ : Q tnew)
    (hrest : ∀ x, Q x → ∃ t', g x = .ended t' (.returned none) ∧
      t'.TakerOrderType = X ∧ t'.MakerOrderType = Y) :
    ∃ t', f.andThen g = .ended t' (.returned none) ∧
      t'.TakerOrderType = X ∧ t'.MakerOrderType = Y := by
  rw [hf]
  exact hrest tnew hQ

/-- The map `MarshalJSON` builds for a trade whose tokens, order hashes and
transaction hash are not zero. -/
theorem MarshalJSON_of_nonzero (lib : TextLib) (t : Trade)
    (hmaker : t.MakerOrderHash ≠ 0) (htaker : t.TakerOrderHash ≠ 0) (htx : t.TxHash ≠ 0)
    (hbase : t.BaseToken ≠ 0) (hquote : t.QuoteToken ≠ 0) :
    Trade.MarshalJSON lib t =
      [ ("taker", .string (hexOf 20 t.Taker)),
        ("maker", .string (hexOf 20 t.Maker)),
        ("status", .string (t.Status)),
        ("hash", .string (hexOf 32 t.Hash)),
        ("pairName", .string (t.PairName)),
        ("pricepoint", .string (bigString t.PricePoint)),
        ("amount", .string (bigString t.Amount)),
        ("makeFee", .string (bigString t.MakeFee)),
        ("takeFee", .string (bigString t.TakeFee)),
        ("createdAt", .string (lib.timeFormat t.CreatedAt)),
        ("takerOrderSide", .string (t.TakerOrderSide)),
        ("takerOrderType", .string (t.TakerOrderType)),
        ("makerOrderType", .string (t.MakerOrderType)),
        ("makerExchange", .string (hexOf 20 t.MakerExchange)),
        ("takerExchange", .string (hexOf 20 t.TakerExchange)),
        ("baseToken", .string (Address.Hex lib.keccak256 t.BaseToken)),
        ("quoteToken", .string (Address.Hex lib.keccak256 t.QuoteToken)),
        ("txHash", .string (Hash.Hex t.TxHash)),
        ("takerOrderHash", .string (Hash.Hex t.TakerOrderHash)),
        ("makerOrderHash", .string (Hash.Hex t.MakerOrderHash)) ] := by
  simp [Trade.MarshalJSON, JsonObject.set, hmaker, htaker, htx, hbase, hquote]

/-- The values `UnmarshalJSON` finds in the map `MarshalJSON` builds. -/
theorem MarshalJSON_get (lib : TextLib) (t : Trade)
    (hmaker : t.MakerOrderHash ≠ 0) (htaker : t.TakerOrderHash ≠ 0) (htx : t.TxHash ≠ 0)
    (hbase : t.BaseToken ≠ 0) (hquote : t.QuoteToken ≠ 0) :
    (Trade.MarshalJSON lib t).get "id" = none ∧
    (Trade.MarshalJSON lib t).get "taker" = some (.string (hexOf 20 t.Taker)) ∧
    (Trade.MarshalJSON lib t).get "maker" = some (.string (hexOf 20 t.Maker)) ∧
    (Trade.MarshalJSON lib t).get "status" = some (.string (t.Status)) ∧
    (Trade.MarshalJSON lib t).get "hash" = some (.string (hexOf 32 t.Hash)) ∧
    (Trade.MarshalJSON lib t).get "pairName" = some (.string (t.PairName)) ∧
    (Trade.MarshalJSON lib t).get "pricepoint" = some (.string (bigString t.PricePoint)) ∧
    (Trade.MarshalJSON lib t).get "amount" = some (.string (bigString t.Amount)) ∧
    (Trade.MarshalJSON lib t).get "makeFee" = some (.string (bigString t.MakeFee)) ∧
    (Trade.MarshalJSON lib t).get "takeFee" = some (.string (bigString t.TakeFee)) ∧
    (Trade.MarshalJSON lib t).get "createdAt" = some (.string (lib.timeFormat t.CreatedAt)) ∧
    (Trade.MarshalJSON lib t).get "takerOrderSide" = some (.string (t.TakerOrderSide)) ∧
    (Trade.MarshalJSON lib t).get "takerOrderType" = some (.string (t.TakerOrderType)) ∧
    (Trade.MarshalJSON lib t).get "makerOrderType" = some (.string (t.MakerOrderType)) ∧
    (Trade.MarshalJSON lib t).get "makerExchange" = some (.string (hexOf 20 t.MakerExchange)) ∧
    (Trade.MarshalJSON lib t).get "takerExchange" = some (.string (hexOf 20 t.TakerExchange)) ∧
    (Trade.MarshalJSON lib t).get "baseToken" =
      some (.string (Address.Hex lib.keccak256 t.BaseToken)) ∧
    (Trade.MarshalJSON lib t).get "quoteToken" =
      some (.string (Address.Hex lib.keccak256 t.QuoteToken)) ∧
    (Trade.MarshalJSON lib t).get "txHash" = some (.string (Hash.Hex t.TxHash)) ∧
    (Trade.MarshalJSON lib t).get "takerOrderHash" = some (.string (Hash.Hex t.TakerOrderHash)) ∧
    (Trade.MarshalJSON lib t).get "makerOrderHash" = some (.string (Hash.Hex t.MakerOrderHash)) := by
  rw [MarshalJSON_of_nonzero lib t hmaker htaker htx hbase hquote]
  refine ⟨?_, ?_, ?_, ?_, ?_, ?_, ?_, ?_, ?_, ?_, ?_, ?_, ?_, ?_, ?_, ?_, ?_, ?_, ?_, ?_, ?_⟩ <;> simp [JsonObject.get]

/-- C19 fails: for a trade whose tokens, order hashes and transaction hash are not
zero, `UnmarshalJSON` applied to the map `MarshalJSON` builds returns nil with the
taker order type set to the maker order type of the trade, and the maker order type
left as the receiver had it. -/
theorem UnmarshalJSON_crosses_order_types (lib : TextLib) (t t0 : Trade)
    (hmaker : t.MakerOrderHash ≠ 0) (htaker : t.TakerOrderHash ≠ 0) (htx : t.TxHash ≠ 0)
    (hbase : t.BaseToken ≠ 0) (hquote : t.QuoteToken ≠ 0) :
    ∃ t', Trade.UnmarshalJSON lib (Trade.MarshalJSON lib t) t0 = .ended t' (.returned none) ∧
      t'.TakerOrderType = t.MakerOrderType ∧ t'.MakerOrderType = t0.MakerOrderType := by
  obtain ⟨gid, g_taker, g_maker, g_status, g_hash, g_pairName,
    g_pricepoint, g_amount, g_makeFee, g_takeFee, g_createdAt, g_takerOrderSide,
    g_takerOrderType, g_makerOrderType, g_makerExchange, g_takerExchange, g_baseToken, g_quoteToken,
    g_txHash, g_takerOrderHash, g_makerOrderHash⟩ :=
    MarshalJSON_get lib t hmaker htaker htx hbase hquote
  unfold Trade.UnmarshalJSON
  generalize Trade.MarshalJSON lib t = trade at *
  refine chain_step _ _ _ _ _ (fun x => x.MakerOrderType = t0.MakerOrderType)
    (required_goOn trade _ _ _ _ t0 _ _ g_makerOrderHash g_makerOrderHash) rfl ?_
  intro t1 m1
  refine chain_step _ _ _ _ _ (fun x => x.MakerOrderType = t0.MakerOrderType)
    (optional_goOn trade _ _ t1 _ g_takerOrderHash) m1 ?_
  intro t2 m2
  refine chain_step _ _ _ _ _ (fun x => x.MakerOrderType = t0.MakerOrderType)
    (required_goOn trade _ _ _ _ t2 _ _ g_hash g_hash) m2 ?_
  intro t3 m3
  refine chain_step _ _ _ _ _ (fun x => x.MakerOrderType = t0.MakerOrderType)
    (required_goOn trade _ _ _ _ t3 _ _ g_quoteToken g_quoteToken) m3 ?_
  intro t4 m4
  refine chain_step _ _ _ _ _ (fun x => x.MakerOrderType = t0.MakerOrderType)
    (required_goOn trade _ _ _ _ t4 _ _ g_baseToken g_baseToken) m4 ?_
  intro t5 m5
  refine chain_step _ _ _ _ _ (fun x => x.MakerOrderType = t0.MakerOrderType)
    (required_goOn trade _ _ _ _ t5 _ _ g_maker g_taker) m5 ?_
  intro t6 m6
  refine chain_step _ _ _ _ _ (fun x => x.MakerOrderType = t0.MakerOrderType)
    (required_goOn trade _ _ _ _ t6 _ _ g_taker g_maker) m6 ?_
  intro t7 m7
  refine chain_step _ _ _ _ _ (fun x => x.MakerOrderType = t0.MakerOrderType)
    (optional_absent trade _ _ t7 gid) m7 ?_
  intro t8 m8
  refine chain_step _ _ _ _ _ (fun x => x.MakerOrderType = t0.MakerOrderType)
    (optional_goOn trade _ _ t8 _ g_txHash) m8 ?_
  intro t9 m9
  refine chain_step _ _ _ _ _ (fun x => x.MakerOrderType = t0.MakerOrderType)
    (optional_goOn trade _ _ t9 _ g_pairName) m9 ?_
  intro t10 m10
  refine chain_step _ _ _ _ _ (fun x => x.MakerOrderType = t0.MakerOrderType)
    (optional_goOn trade _ _ t10 _ g_status) m10 ?_
  intro t11 m11
  refine chain_step _ _ _ _ _ (fun x => x.MakerOrderType = t0.MakerOrderType)
    (optionalText_goOn trade _ _ t11 _ g_pricepoint) m11 ?_
  intro t12 m12
  refine chain_step _ _ _ _ _ (fun x => x.MakerOrderType = t0.MakerOrderType)
    (optionalText_goOn trade _ _ t12 _ g_amount) m12 ?_
  intro t13 m13
  refine chain_step _ _ _ _ _ (fun x => x.MakerOrderType = t0.MakerOrderType)
    (optionalText_goOn trade _ _ t13 _ g_makeFee) m13 ?_
  intro t14 m14
  refine chain_step _ _ _ _ _ (fun x => x.MakerOrderType = t0.MakerOrderType)
    (optionalText_goOn trade _ _ t14 _ g_takeFee) m14 ?_
  intro t15 m15
  refine chain_step _ _ _ _ _ (fun x => x.MakerOrderType = t0.MakerOrderType)
    (optional_goOn trade _ _ t15 _ g_createdAt) m15 ?_
  intro t16 m16
  refine chain_step _ _ _ _ _ (fun x => x.MakerOrderType = t0.MakerOrderType)
    (optional_goOn trade _ _ t16 _ g_takerOrderSide) m16 ?_
  intro t17 m17
  refine chain_step _ _ _ _ _ (fun x => x.MakerOrderType = t0.MakerOrderType)
    (optional_goOn trade _ _ t17 _ g_takerOrderType) m17 ?_
  intro t18 m18
  refine chain_step _ _ _ _ _ (fun x => x.MakerOrderType = t0.MakerOrderType ∧ x.TakerOrderType = t.MakerOrderType)
    (optional_goOn trade _ _ t18 _ g_makerOrderType) ⟨m18, rfl⟩ ?_
  intro t19 m19
  refine chain_step _ _ _ _ _ (fun x => x.MakerOrderType = t0.MakerOrderType ∧ x.TakerOrderType = t.MakerOrderType)
    (optional_goOn trade _ _ t19 _ g_makerExchange) m19 ?_
  intro t20 m20
  refine chain_step _ _ _ _ _ (fun x => x.MakerOrderType = t0.MakerOrderType ∧ x.TakerOrderType = t.MakerOrderType)
    (optional_goOn trade _ _ t20 _ g_takerExchange) m20 ?_
  intro t21 m21
  exact ⟨t21, rfl, m21.2, m21.1⟩

/-- The statement on C19 at `sampleTrade`, whose maker order type `LO` differs from
its taker order type `MO`, decoded into the zero trade. -/
theorem UnmarshalJSON_crosses_order_types_witness :
    sampleTrade.MakerOrderHash ≠ 0 ∧ sampleTrade.MakerOrderType = "LO" ∧
    sampleTrade.TakerOrderType = "MO" ∧
    ∃ t', Trade.UnmarshalJSON constLib (Trade.MarshalJSON constLib sampleTrade) Trade.zero =
        .ended t' (.returned none) ∧
      t'.TakerOrderType = "LO" ∧ t'.MakerOrderType = "" :=
  ⟨by decide, rfl, rfl,
    UnmarshalJSON_crosses_order_types constLib sampleTrade Trade.zero (by decide) (by decide)
      (by decide) (by decide) (by decide)⟩

end types

/-! ## The lookup of a pair by name -/

namespace PairDao

/-- A text without the separator is split into one piece. -/
theorem splitSlash_of_no_separator (cs : List Char) (h : '/' ∉ cs) :
    strings.splitSlash cs = [cs] := by
  induction cs with
  | nil => rfl
  | cons c rest ih =>
    have hc : c ≠ '/' := fun e => h (by simp [e])
    have hrest : '/' ∉ rest := fun e => h (by simp [e])
    simp [strings.splitSlash, hc, ih hrest]

/-- The pieces of a base symbol, the separator and a quote symbol. -/
theorem splitSlash_of_pair (bs qs : List Char) (hb : '/' ∉ bs) (hq : '/' ∉ qs) :
    strings.splitSlash (bs ++ '/' :: qs) = [bs, qs] := by
  induction bs with
  | nil => simp [strings.splitSlash, splitSlash_of_no_separator qs hq]
  | cons c rest ih =>
    have hc : c ≠ '/' := fun e => hb (by simp [e])
    have hrest : '/' ∉ rest := fun e => hb (by simp [e])
    simp [strings.splitSlash, hc, ih hrest]

/-- C17 fails: on a name without the separator, such as `TOMO` or the empty name,
`strings.Split` gives one piece and the index expression `tokenSymbols[1]` of
`GetByName` panics; on the name of a base symbol, the separator and a quote symbol,
such as `B/Q`, the lookup `GetByTokenSymbols` of the two symbols is made. -/
theorem GetByName_panics_without_separator
    (dbGet : String → String → Except String (List Pair)) :
    GetByName dbGet "TOMO" = .panicked ∧
    GetByName dbGet "" = .panicked ∧
    (∀ name : String, '/' ∉ name.toList → GetByName dbGet name = .panicked) ∧
    GetByName dbGet "B/Q" = .returned (GetByTokenSymbols dbGet "B" "Q") ∧
    (∀ b q : String, '/' ∉ b.toList → '/' ∉ q.toList →
      GetByName dbGet (b ++ "/" ++ q) = .returned (GetByTokenSymbols dbGet b q)) := by
  have hgen : ∀ name : String, '/' ∉ name.toList → GetByName dbGet name = .panicked := by
    intro name h
    have hs : strings.splitSlash name.data = [name.data] := splitSlash_of_no_separator _ h
    simp [GetByName, strings.Split, hs]
  have hpair : ∀ b q : String, '/' ∉ b.toList → '/' ∉ q.toList →
      GetByName dbGet (b ++ "/" ++ q) = .returned (GetByTokenSymbols dbGet b q) := by
    intro b q hb hq
    have hs : strings.splitSlash (b.data ++ '/' :: q.data) = [b.data, q.data] :=
      splitSlash_of_pair _ _ hb hq
    simp [GetByName, strings.Split, hs]
  refine ⟨hgen _ (by decide), hgen _ (by decide), hgen, ?_, hpair⟩
  exact hpair "B" "Q" (by decide) (by decide)

end PairDao

/-! ## A pair whose token is not in the token map -/

namespace RelayerService

theorem tokenEntry_structValue (m : List (common.Address × TokenInfo)) (k : common.Address) :
    tokenEntry .structValue m k = some (mapIndex m k) := by
  unfold tokenEntry mapIndex
  cases m.find? (fun kv => decide (kv.1 = k)) <;> rfl

theorem mkPairOf_structValue (relayerInfo : RInfo) (newpair : PairToken) :
    mkPairOf .structValue relayerInfo newpair = some (mkPair relayerInfo newpair) := by
  simp [mkPairOf, tokenEntry_structValue, mkPair]

/-- With struct values in the token map nothing panics, and the routine is the one
the other statements are about. -/
theorem updatePairRelayerOf_structValue (fail : Oracle) (relayerInfo : RInfo) (w : World) :
    updatePairRelayerOf .structValue fail relayerInfo w =
      ((updatePairRelayer fail relayerInfo w).1,
        .returned (updatePairRelayer fail relayerInfo w).2) := by
  unfold updatePairRelayerOf updatePairRelayer
  rcases PairDao.GetAllByCoinbase fail w relayerInfo.Address with ⟨w0, res⟩
  cases res with
  | error err => rfl
  | ok currentPairs =>
    simp only [mkPairOf_structValue]
    have hloop : ∀ (l : List PairToken) (w' : World),
        l.foldl
          (fun (st : World × Bool) newpair =>
            if st.2 then st
            else
              if (!currentPairs.foldl
                (fun found currentPair =>
                  if newpair.BaseToken = currentPair.BaseTokenAddress ∧
                      newpair.QuoteToken = currentPair.QuoteTokenAddress then true else found)
                false) = true then
                (ignoreErr (storeWrite fail st.1 (.pairCreate (mkPair relayerInfo newpair))),
                  false)
              else st)
          (w', false) =
        (l.foldl
          (fun w'' newpair =>
            if (!currentPairs.foldl
              (fun found currentPair =>
                if newpair.BaseToken = currentPair.BaseTokenAddress ∧
                    newpair.QuoteToken = currentPair.QuoteTokenAddress then true else found)
              false) = true then
              ignoreErr (storeWrite fail w'' (.pairCreate (mkPair relayerInfo newpair)))
            else w'')
          w', false) := by
      intro l
      induction l with
      | nil => intro w'; rfl
      | cons n rest ih =>
        intro w'
        simp only [List.foldl_cons]
        by_cases hf : (!currentPairs.foldl
            (fun found currentPair =>
              if n.BaseToken = currentPair.BaseTokenAddress ∧
                  n.QuoteToken = currentPair.QuoteTokenAddress then true else found)
            false) = true
        · simp only [hf, if_true, Bool.false_eq_true, if_false]
          exact ih _
        · simp only [hf, if_false, Bool.false_eq_true]
          exact ih _
    simp only [hloop]
    rfl

/-- C2 fails: `updatePairRelayer` makes no test that the tokens of a pair are keys of
the token map. For the snapshot `missingTokenInfo` against an empty mirror: with
struct values in the map the pair (3, 4) is created, with empty symbols and zero
decimals; with pointers in the map the field read on the nil entry panics before the
pair (1, 2), whose tokens are in the map, is created. Under either element type it
is not so that no record is created for (3, 4) and the pair (1, 2) is created. -/
theorem updatePairRelayer_missing_token_not_skipped :
    (3 ∉ tokenKeys missingTokenInfo ∧ 4 ∉ tokenKeys missingTokenInfo ∧
      1 ∈ tokenKeys missingTokenInfo ∧ 2 ∈ tokenKeys missingTokenInfo) ∧
    (∀ (fail : Oracle) (relayerInfo : RInfo) (w : World),
      updatePairRelayerOf .structValue fail relayerInfo w =
        ((updatePairRelayer fail relayerInfo w).1,
          .returned (updatePairRelayer fail relayerInfo w).2)) ∧
    pairCreatesOf (emitted emptyWorld
        (updatePairRelayerOf .structValue allSucceed missingTokenInfo emptyWorld).1) =
      [ { BaseTokenSymbol := "", BaseTokenAddress := 3, BaseTokenDecimals := 0,
          QuoteTokenSymbol := "", QuoteTokenAddress := 4, QuoteTokenDecimals := 0,
          RelayerAddress := 9, Active := true, MakeFee := 5, TakeFee := 6 },
        { BaseTokenSymbol := "AAA", BaseTokenAddress := 1, BaseTokenDecimals := 18,
          QuoteTokenSymbol := "BBB", QuoteTokenAddress := 2, QuoteTokenDecimals := 6,
          RelayerAddress := 9, Active := true, MakeFee := 5, TakeFee := 6 } ] ∧
    (updatePairRelayerOf .pointer allSucceed missingTokenInfo emptyWorld).2 = .panicked ∧
    emitted emptyWorld
        (updatePairRelayerOf .pointer allSucceed missingTokenInfo emptyWorld).1 = [] ∧
    (∀ kind : ElementKind,
      ¬ ((∀ p ∈ pairCreatesOf (emitted emptyWorld
            (updatePairRelayerOf kind allSucceed missingTokenInfo emptyWorld).1),
          pairKey p ≠ (3, 4)) ∧
        (∃ p ∈ pairCreatesOf (emitted emptyWorld
            (updatePairRelayerOf kind allSucceed missingTokenInfo emptyWorld).1),
          pairKey p = (1, 2)))) := by
  refine ⟨by decide, updatePairRelayerOf_structValue, by decide, by decide, by decide, ?_⟩
  intro kind
  cases kind <;> decide

end RelayerService
